import Mathlib

/-!
Node reference cache and NSEC type bitmap of the Knot DNS zone API.

A shallow embedding of `src/knot/zone/node-ref.c` (the lazily resolved,
reference-counted `previous` / `parent` / `nsec3` links of a zone node) and of
`bitmap_add_node_rrsets` from `src/knot/dnssec/nsec-chain.h`.

Memory is explicit: reference objects live in a heap indexed by address
(`none` marks a freed cell, addresses are never reused), zone nodes live in a
table indexed by node address, and a `NULL` pointer is `Option.none`.  The
code is modelled in sequential execution, with assertions enabled: a failed
`assert` and an access through a pointer that addresses no live object are
the two faults.  Every call of an external collaborator (zone reader lookups,
label stripping, NSEC3 hashing) and every invocation of a resolution function
is recorded in a call log, so that "the resolution function is not invoked"
is a statement about the log.
-/

namespace Knot

/-! ## Data model -/

/-- Modelled from the spec: `knot_dname_t` (libknot/dname.h is not part of the
sources at hand); a domain name is its sequence of labels, leftmost first, and
the root name (wire format: a single zero byte) is the empty sequence. -/
abbrev knot_dname_t := List (List Nat)

/-- Modelled from the spec: `knot_dname_is_equal`, equality of two names. -/
def knot_dname_is_equal (d1 d2 : knot_dname_t) : Bool := d1 == d2

/-- Modelled from the spec: `knot_wire_next_label(lp, NULL)`, the name left
after stripping the leftmost label; there is none after the root label. -/
def knot_wire_next_label (lp : knot_dname_t) : Option knot_dname_t :=
  match lp with
  | [] => none
  | _ :: rest => some rest

/-- Modelled from the spec: the record type code of RRSIG, the signature type
(libknot/descriptor.h is not part of the sources at hand; IANA value). -/
def KNOT_RRTYPE_RRSIG : Nat := 46

/-- Modelled from the spec: the record type code of NSEC, the denial type. -/
def KNOT_RRTYPE_NSEC : Nat := 47

/-- Modelled from the spec: the record type code of NSEC3. -/
def KNOT_RRTYPE_NSEC3 : Nat := 50

/-- Modelled from the spec: the record type code of NSEC3PARAM. -/
def KNOT_RRTYPE_NSEC3PARAM : Nat := 51

/-- Modelled from the spec: the query type code ANY. -/
def KNOT_RRTYPE_ANY : Nat := 255

/-- The bit `REF_VALID = 1 << 0` of `enum ref_states`. -/
def REF_VALID : Nat := 1 <<< 0

/-- Number of values of the `uint32_t` reference counter. -/
def UINT32_MOD : Nat := 2 ^ 32

/-- The two ways an execution stops abnormally. -/
inductive Fault where
  | assertion
  | invalid_pointer
deriving DecidableEq, Repr

deriving instance DecidableEq for Except

/-- Modelled from the spec: a record set `knot_rrset_t` (libknot/rrset.h is not
part of the sources at hand), its type and its record data. -/
structure knot_rrset_t where
  type : Nat
  rrs : List Nat
deriving DecidableEq, Repr

/-- The reference object `node_ref_t` (declared in knot/zone/node-ref.h, fields
as node-ref.c uses them): target node `n`, 32-bit `count`, `flags`. -/
structure node_ref_t where
  n : Option Nat
  count : Nat
  flags : Nat
deriving DecidableEq, Repr

/-- The fields of `struct zone_node` that node-ref.c touches (`owner`,
`self_ref`, `prev`, `parent`, `nsec3_node`), and its record sets. -/
structure zone_node_t where
  owner : knot_dname_t
  rrs : List knot_rrset_t
  self_ref : Option Nat
  prev : Option Nat
  parent : Option Nat
  nsec3_node : Option Nat
deriving DecidableEq, Repr

/-- The values of `enum node_ref_type` that the `switch` statements handle; the
`default` branches are for values outside the enumeration. -/
inductive node_ref_type where
  | REF_PREVIOUS
  | REF_PARENT
  | REF_NSEC3
deriving DecidableEq, Repr

/-- The three reference slots of a node (`&n->prev`, `&n->parent`, `&n->nsec3_node`). -/
inductive Slot where
  | prev
  | parent
  | nsec3_node
deriving DecidableEq, Repr

/-- An entry of the call log: the invocation of a resolution function by
`return_node` (`get_func`), or a call of an external collaborator. -/
inductive Call where
  | previous_for_type (owner : knot_dname_t) (type : Nat)
  | node_for_type (owner : knot_dname_t) (type : Nat)
  | get_func (key : knot_dname_t) (nsec3 : Bool)
  | read_apex
  | wire_next_label (owner : knot_dname_t)
  | create_nsec3_owner (owner zone_name : knot_dname_t) (params : List Nat)
deriving DecidableEq, Repr

/-- The zone reader `zone_read_t` with the lookups the code performs through
it (knot/updates/zone-read.h and knot/dnssec/zone-nsec.h are not part of the
sources at hand, so the lookups are parameters). -/
structure zone_read_t where
  zone_name : knot_dname_t
  zone_read_previous_for_type : knot_dname_t → Nat → Option Nat
  zone_read_node_for_type : knot_dname_t → Nat → Option Nat
  zone_read_apex : Option Nat
  knot_create_nsec3_owner : knot_dname_t → knot_dname_t → List Nat → Option knot_dname_t

/-- Program state: heap of reference objects, table of nodes, call log. -/
structure State where
  refs : List (Option node_ref_t)
  nodes : List zone_node_t
  log : List Call
deriving DecidableEq, Repr

/-! ## Memory access -/

/-- Read the reference object at address `r`. -/
def ref_read (s : State) (r : Nat) : Except Fault node_ref_t :=
  match s.refs[r]? with
  | some (some x) => .ok x
  | _ => .error .invalid_pointer

/-- Overwrite the heap cell at address `r`. -/
def ref_write (s : State) (r : Nat) (x : Option node_ref_t) : State :=
  { s with refs := s.refs.set r x }

/-- Read the node at address `n`. -/
def node_read (s : State) (n : Nat) : Except Fault zone_node_t :=
  match s.nodes[n]? with
  | some x => .ok x
  | none => .error .invalid_pointer

/-- Overwrite the node at address `n`. -/
def node_write (s : State) (n : Nat) (x : zone_node_t) : State :=
  { s with nodes := s.nodes.set n x }

/-- Append the external calls made by a resolution function to the call log. -/
def log_calls (s : State) (calls : List Call) : State :=
  { s with log := s.log ++ calls }

/-- Append a new reference object to the heap; its address is the old heap size. -/
def ref_alloc (s : State) (x : node_ref_t) : State :=
  { s with refs := s.refs ++ [some x] }

/-- The address of the chunk that a successful `malloc` returns.  With
`chunk = some a` and `a` the address of a freed reference object, `malloc`
hands out that chunk again; otherwise (`chunk = none`, or `a` is not a freed
cell) it returns a chunk at an address that was never allocated. -/
def malloc_addr (s : State) (chunk : Option Nat) : Nat :=
  match chunk with
  | none => s.refs.length
  | some a => if s.refs[a]? = some none then a else s.refs.length

/-- Store a new reference object in the chunk that `malloc` returned. -/
def ref_store_new (s : State) (x : node_ref_t) (chunk : Option Nat) : State :=
  match chunk with
  | none => ref_alloc s x
  | some a => if s.refs[a]? = some none then ref_write s a (some x) else ref_alloc s x

/-- Value of a reference slot of a node. -/
def slot_get (x : zone_node_t) : Slot → Option Nat
  | .prev => x.prev
  | .parent => x.parent
  | .nsec3_node => x.nsec3_node

/-- Store into a reference slot of a node. -/
def slot_set (x : zone_node_t) (k : Slot) (v : Option Nat) : zone_node_t :=
  match k with
  | .prev => { x with prev := v }
  | .parent => { x with parent := v }
  | .nsec3_node => { x with nsec3_node := v }

/-! ## node-ref.c -/

/-- The function `node_ref_valid`: false for `NULL`, else the `REF_VALID` bit. -/
def node_ref_valid (s : State) (ref : Option Nat) : Except Fault Bool :=
  match ref with
  | none => .ok false
  | some r => do
    let x ← ref_read s r
    .ok (x.flags &&& REF_VALID != 0)

/-- The function `ref_inc`: add one to the 32-bit counter, nothing for `NULL`. -/
def ref_inc (s : State) (r : Option Nat) : Except Fault State :=
  match r with
  | none => .ok s
  | some p => do
    let x ← ref_read s p
    .ok (ref_write s p (some { x with count := (x.count + 1) % UINT32_MOD }))

/-- The function `ref_dec`: assert the counter is positive, subtract one (no
wrap-around, the counter is positive), and on reaching zero assert the
reference is invalid and free it. -/
def ref_dec (s : State) (r : Option Nat) : Except Fault State :=
  match r with
  | none => .ok s
  | some p => do
    let x ← ref_read s p
    if x.count = 0 then .error .assertion
    else
      let ref_count := x.count - 1
      let s1 := ref_write s p (some { x with count := ref_count })
      if ref_count = 0 then
        if (← node_ref_valid s1 (some p)) then .error .assertion
        else .ok (ref_write s1 p none)
      else .ok s1

/-- The function `switch_ref`: store `src` into the slot `k` of node `n`
(the compare-and-swap succeeds at once in sequential execution). -/
def switch_ref (s : State) (src : Option Nat) (n : Nat) (k : Slot) : Except Fault State := do
  let x ← node_read s n
  .ok (node_write s n (slot_set x k src))

/-- The function `node_ref_new`: `malloc` a reference object with count 1 and
the valid flag; `malloc_ok = false` is the failed allocation.  A successful
`malloc` returns the chunk designated by `chunk`: a chunk that `free` released
before, or (the default) a chunk at a new address. -/
def node_ref_new (malloc_ok : Bool) (s : State) (n : Option Nat) (chunk : Option Nat := none) :
    Option Nat × State :=
  if malloc_ok then
    (some (malloc_addr s chunk),
      ref_store_new s { n := n, count := 1, flags := REF_VALID } chunk)
  else (none, s)

/-- The function `fetch_node_ref`: the self reference of a node, created on
first use; asserts that it is valid. -/
def fetch_node_ref (malloc_ok : Bool) (s : State) (n : Option Nat)
    (chunk : Option Nat := none) : Except Fault (Option Nat × State) :=
  match n with
  | none => .ok (none, s)
  | some p => do
    let x ← node_read s p
    match x.self_ref with
    | none =>
      match node_ref_new malloc_ok s (some p) chunk with
      | (none, s1) => .ok (none, s1)
      | (some ref, s1) =>
        let s2 := node_write s1 p { x with self_ref := some ref }
        if (← node_ref_valid s2 (some ref)) then .ok (some ref, s2)
        else .error .assertion
    | some ref =>
      if (← node_ref_valid s (some ref)) then .ok (some ref, s)
      else .error .assertion

/-- The type `ref_get_t` of resolution functions; a resolution function
returns its result together with the external calls it made. -/
abbrev ref_get_t := State → zone_read_t → knot_dname_t → Bool →
  Except Fault (Option Nat × List Call)

/-- The function `get_prev`. -/
def get_prev : ref_get_t := fun _ zr owner nsec3 =>
  let type := if nsec3 then KNOT_RRTYPE_NSEC3 else KNOT_RRTYPE_ANY
  .ok (zr.zone_read_previous_for_type owner type, [Call.previous_for_type owner type])

/-- The function `get_parent`; its guard is the C expression
`*owner == '\0' == knot_dname_is_equal(zr->zone->name, owner)`, which parses
as `(*owner == '\0') == knot_dname_is_equal(...)`. -/
def get_parent : ref_get_t := fun _ zr owner _ =>
  if (owner.isEmpty == knot_dname_is_equal zr.zone_name owner) then .ok (none, [])
  else
    match knot_wire_next_label owner with
    | none => .ok (none, [Call.wire_next_label owner])
    | some parent =>
      .ok (zr.zone_read_node_for_type parent KNOT_RRTYPE_ANY,
        [Call.wire_next_label owner, Call.node_for_type parent KNOT_RRTYPE_ANY])

/-- The function `get_apex`. -/
def get_apex : ref_get_t := fun _ zr _ _ =>
  .ok (zr.zone_read_apex, [Call.read_apex])

/-- Modelled from the spec: `node_rdataset(node, type)` (knot/zone/node.h is
not part of the sources at hand), the record data of the node's record set of
the given type, `NULL` when the node is `NULL` or has no such record set. -/
def node_rdataset (s : State) (node : Option Nat) (type : Nat) :
    Except Fault (Option (List Nat)) :=
  match node with
  | none => .ok none
  | some p => do
    let x ← node_read s p
    .ok ((x.rrs.find? (fun rr => rr.type == type)).map (fun rr => rr.rrs))

/-- The function `get_nsec3`. -/
def get_nsec3 : ref_get_t := fun s zr owner _ => do
  let nsec3param ← node_rdataset s zr.zone_read_apex KNOT_RRTYPE_NSEC3PARAM
  match nsec3param with
  | some params =>
    match zr.knot_create_nsec3_owner owner zr.zone_name params with
    | some nsec3 =>
      .ok (zr.zone_read_node_for_type nsec3 KNOT_RRTYPE_NSEC3,
        [Call.read_apex, Call.create_nsec3_owner owner zr.zone_name params,
         Call.node_for_type nsec3 KNOT_RRTYPE_NSEC3])
    | none =>
      .ok (none, [Call.read_apex, Call.create_nsec3_owner owner zr.zone_name params])
  | none => .ok (none, [Call.read_apex])

/-- The function `return_node`; the slot `r` is the field `k` of node `n`.  The
invocation of `get_func` and the external calls it made are appended to the
call log. -/
def return_node (malloc_ok : Bool) (s : State) (n : Nat) (k : Slot) (get_func : ref_get_t)
    (key : knot_dname_t) (zone_reader : zone_read_t) (nsec3 : Bool)
    (chunk : Option Nat := none) : Except Fault (Option Nat × State) := do
  let x ← node_read s n
  if (← node_ref_valid s (slot_get x k)) then
    match slot_get x k with
    | some p => do
      let ref ← ref_read s p
      .ok (ref.n, s)
    | none => .error .invalid_pointer
  else
    let (target, calls) ← get_func s zone_reader key nsec3
    let s1 := log_calls s (Call.get_func key nsec3 :: calls)
    let (found_ref, s2) ← fetch_node_ref malloc_ok s1 target chunk
    let s3 ← ref_inc s2 found_ref
    let x3 ← node_read s3 n
    let old_ref := slot_get x3 k
    let s4 ← switch_ref s3 found_ref n k
    let s5 ← ref_dec s4 old_ref
    let x5 ← node_read s5 n
    match slot_get x5 k with
    | some p => do
      let ref ← ref_read s5 p
      .ok (ref.n, s5)
    | none => .ok (none, s5)

/-- The slot `r` chosen by the `switch` of `node_ref_get`. -/
def node_ref_get_slot : node_ref_type → Slot
  | .REF_PREVIOUS => .prev
  | .REF_PARENT => .parent
  | .REF_NSEC3 => .nsec3_node

/-- The resolution function `get_func` chosen by the `switch` of `node_ref_get`. -/
def node_ref_get_func : node_ref_type → ref_get_t
  | .REF_PREVIOUS => get_prev
  | .REF_PARENT => get_parent
  | .REF_NSEC3 => get_nsec3

/-- The function `node_ref_get`: assert the node is not `NULL`, choose slot and
resolution function by the reference kind, and resolve with `nsec3 = false`. -/
def node_ref_get (malloc_ok : Bool) (s : State) (const_n : Option Nat) (type : node_ref_type)
    (zone_reader : zone_read_t) (chunk : Option Nat := none) :
    Except Fault (Option Nat × State) :=
  match const_n with
  | none => .error .assertion
  | some n => do
    let x ← node_read s n
    return_node malloc_ok s n (node_ref_get_slot type) (node_ref_get_func type) x.owner
      zone_reader false chunk

/-- The function `node_ref_get_nsec3`: no assertion on `n`; `REF_NSEC3` and the
`default` branch are `assert(0)`; the last argument of `return_node` is
`false` here as well. -/
def node_ref_get_nsec3 (malloc_ok : Bool) (s : State) (n : Option Nat) (type : node_ref_type)
    (zone_reader : zone_read_t) (chunk : Option Nat := none) :
    Except Fault (Option Nat × State) :=
  match type with
  | .REF_PREVIOUS =>
    match n with
    | none => .error .invalid_pointer
    | some p => do
      let x ← node_read s p
      return_node malloc_ok s p .prev get_prev x.owner zone_reader false chunk
  | .REF_PARENT =>
    match n with
    | none => .error .invalid_pointer
    | some p => do
      let x ← node_read s p
      return_node malloc_ok s p .parent get_apex x.owner zone_reader false chunk
  | .REF_NSEC3 => .error .assertion

/-- The function `node_ref_release`. -/
def node_ref_release (s : State) (ref : Option Nat) : Except Fault State :=
  ref_dec s ref

/-- The function `node_ref_invalidate`: clear the `REF_VALID` bit of the flags
(`flags & ~REF_VALID` on 32-bit flags). -/
def node_ref_invalidate (s : State) (ref : Option Nat) : Except Fault State :=
  match ref with
  | none => .error .invalid_pointer
  | some r => do
    let x ← ref_read s r
    .ok (ref_write s r (some { x with flags := x.flags &&& (UINT32_MOD - 1 - REF_VALID) }))

/-- The reference object after `ref_inc`. -/
def ref_inc_cell (x : node_ref_t) : node_ref_t :=
  { x with count := (x.count + 1) % UINT32_MOD }

/-- The heap cell of an invalid reference object with positive count after
`ref_dec`: freed when the count was 1, else the object with one count less. -/
def ref_dec_cell (x : node_ref_t) : Option node_ref_t :=
  if x.count = 1 then none else some { x with count := x.count - 1 }

/-- Repeated resolution: call `node_ref_get` on the same node and kind `m` times
in a row, collecting the returned nodes. -/
def node_ref_get_repeat (malloc_ok : Bool) (const_n : Option Nat) (type : node_ref_type)
    (zone_reader : zone_read_t) : Nat → State → Except Fault (List (Option Nat) × State)
  | 0, s => .ok ([], s)
  | m + 1, s => do
    let (v, s1) ← node_ref_get malloc_ok s const_n type zone_reader
    let (vs, s2) ← node_ref_get_repeat malloc_ok const_n type zone_reader m s1
    .ok (v :: vs, s2)

/-! ## The statements of `return_node`, one at a time -/

/-- The arguments of one call of `return_node`: the slot `r` is the field `k`
of node `n`; `malloc_ok` and `chunk` are the outcome of `malloc`, should the
call allocate. -/
structure call_t where
  malloc_ok : Bool
  chunk : Option Nat
  n : Nat
  k : Slot
  get_func : ref_get_t
  key : knot_dname_t
  zone_reader : zone_read_t
  nsec3 : Bool

/-- The local variables of one activation of `return_node`: the number `pc` of
the statement it executes next, `found_ref`, `old_ref`, and the returned value
once it has returned. -/
structure activation_t where
  pc : Nat
  found_ref : Option Nat
  old_ref : Option Nat
  result : Option (Option Nat)
deriving DecidableEq, Repr

/-- The activation at the entry of `return_node`. -/
def activation_entry : activation_t :=
  { pc := 0, found_ref := none, old_ref := none, result := none }

/-- One statement of an activation of `return_node` on the shared state.
Statement 0 is the test `if (node_ref_valid(*r))`, 1 is `return ((*r)->n);`,
2 is `found_ref = fetch_node_ref(get_func(zone_reader, key, nsec3));`, 3 is
`ref_inc(found_ref);`, 4 is `old_ref = *r;`, 5 is `switch_ref(found_ref, r);`,
6 is `ref_dec(old_ref);`, 7 is `return *r ? (*r)->n : NULL;`; an activation
that has returned (8) does nothing. -/
def return_node_step (c : call_t) (s : State) (a : activation_t) :
    Except Fault (State × activation_t) :=
  match a.pc with
  | 0 => do
    let x ← node_read s c.n
    if (← node_ref_valid s (slot_get x c.k)) then .ok (s, { a with pc := 1 })
    else .ok (s, { a with pc := 2 })
  | 1 => do
    let x ← node_read s c.n
    match slot_get x c.k with
    | some p => do
      let ref ← ref_read s p
      .ok (s, { a with pc := 8, result := some ref.n })
    | none => .error .invalid_pointer
  | 2 => do
    let (target, calls) ← c.get_func s c.zone_reader c.key c.nsec3
    let s1 := log_calls s (Call.get_func c.key c.nsec3 :: calls)
    let (found_ref, s2) ← fetch_node_ref c.malloc_ok s1 target c.chunk
    .ok (s2, { a with pc := 3, found_ref := found_ref })
  | 3 => do
    let s3 ← ref_inc s a.found_ref
    .ok (s3, { a with pc := 4 })
  | 4 => do
    let x3 ← node_read s c.n
    .ok (s, { a with pc := 5, old_ref := slot_get x3 c.k })
  | 5 => do
    let s4 ← switch_ref s a.found_ref c.n c.k
    .ok (s4, { a with pc := 6 })
  | 6 => do
    let s5 ← ref_dec s a.old_ref
    .ok (s5, { a with pc := 7 })
  | 7 => do
    let x5 ← node_read s c.n
    match slot_get x5 c.k with
    | some p => do
      let ref ← ref_read s p
      .ok (s, { a with pc := 8, result := some ref.n })
    | none => .ok (s, { a with pc := 8, result := some none })
  | _ => .ok (s, a)

/-- One activation of `return_node` executing `fuel` statements on its own. -/
def return_node_run (c : call_t) : Nat → State → activation_t →
    Except Fault (State × activation_t)
  | 0, s, a => .ok (s, a)
  | fuel + 1, s, a => do
    let (s1, a1) ← return_node_step c s a
    return_node_run c fuel s1 a1

/-- Interleaved execution of several activations of `return_node` on the
shared state: the schedule names, step by step, the thread that executes its
next statement.  Every statement is taken as one indivisible step; the program
interleaves at a finer grain, so every schedule here is an execution of the
program. -/
def run_schedule (calls : List call_t) : List Nat → State → List activation_t →
    Except Fault (State × List activation_t)
  | [], s, acts => .ok (s, acts)
  | i :: rest, s, acts =>
    match calls[i]?, acts[i]? with
    | some c, some a => do
      let (s1, a1) ← return_node_step c s a
      run_schedule calls rest s1 (acts.set i a1)
    | _, _ => run_schedule calls rest s acts

/-! ## nsec-chain.h -/

/-- Modelled from the spec: `bitmap_t` (libknot/dnssec/bitmap.h is not part of
the sources at hand), the set of record types whose bit is set. -/
abbrev bitmap_t := Nat → Bool

/-- Modelled from the spec: the bitmap with no bit set. -/
def bitmap_empty : bitmap_t := fun _ => false

/-- Modelled from the spec: `bitmap_add_type`, set the bit of one record type. -/
def bitmap_add_type (bitmap : bitmap_t) (type : Nat) : bitmap_t :=
  fun t => t == type || bitmap t

/-- The node type `knot_node_t` as far as `bitmap_add_node_rrsets` reads it: the
array returned by `knot_node_rrsets_no_copy`, of `rrset_count` entries. -/
structure knot_node_t where
  rrsets : List knot_rrset_t
deriving DecidableEq, Repr

/-- The function `bitmap_add_node_rrsets`: walk the record sets of the node in
array order and add every type that is neither NSEC nor RRSIG. -/
def bitmap_add_node_rrsets (bitmap : bitmap_t) (node : knot_node_t) : bitmap_t :=
  node.rrsets.foldl
    (fun bm rr =>
      if rr.type != KNOT_RRTYPE_NSEC && rr.type != KNOT_RRTYPE_RRSIG then
        bitmap_add_type bm rr.type
      else bm)
    bitmap

/-! ## tests/adjust.c -/

/-- A C pointer value as `test_prev_for_tree` compares it: `NULL`, the address
of a zone node, or the address of a reference object.  A zone node and a
reference object are distinct objects, so a pointer to the one never equals a
pointer to the other. -/
inductive Ptr where
  | null
  | node (a : Nat)
  | ref (a : Nat)
deriving DecidableEq, Repr

/-- A value of type `zone_node_t *` as a pointer value. -/
def node_ptr : Option Nat → Ptr
  | none => .null
  | some a => .node a

/-- A value of type `node_ref_t *` as a pointer value. -/
def ref_ptr : Option Nat → Ptr
  | none => .null
  | some a => .ref a

/-- Modelled from the spec: a zone tree `zone_tree_t *` (the trie of
common/hattrie is not part of the sources at hand) as its sorted iteration
sees it: `NULL`, or the addresses of its nodes in canonical order. -/
abbrev zone_tree_t := Option (List Nat)

/-- The `while` loop of `test_prev_for_tree` over the remaining values of the
iterator, entered with the current `curr`: `none` when the function returns
`false` from inside the loop, else the final `curr`. -/
def test_prev_loop (s : State) : List Nat → Option Nat → Except Fault (Option (Option Nat))
  | [], curr => .ok (some curr)
  | v :: rest, curr =>
    match curr with
    | some prev => do
      let x ← node_read s v
      if ref_ptr x.prev ≠ Ptr.node prev then .ok none
      else test_prev_loop s rest (some v)
    | none => test_prev_loop s rest (some v)

/-- The function `test_prev_for_tree` of tests/adjust.c: `true` for a `NULL`
tree; else every value but the first must have `curr->prev == prev`, and
`first->prev == curr` for the last `curr`.  The field `prev` is the reference
slot that node-ref.c resolves (`node_ref_t *`), compared here with a
`zone_node_t *`. -/
def test_prev_for_tree (s : State) (t : zone_tree_t) : Except Fault Bool :=
  match t with
  | none => .ok true
  | some vals =>
    match vals with
    | [] => .error .invalid_pointer
    | first :: _ => do
      match (← test_prev_loop s vals none) with
      | none => .ok false
      | some curr =>
        let x ← node_read s first
        .ok (decide (ref_ptr x.prev = node_ptr curr))

/-- The previous node that the slot of node `v` designates: the target of the
valid reference held in the slot, as a cache hit of `node_ref_get` returns it. -/
def prev_node (s : State) (v : Nat) : Option Nat :=
  match node_read s v with
  | .ok x =>
    match x.prev with
    | some q =>
      match ref_read s q with
      | .ok y => if y.flags &&& REF_VALID != 0 then y.n else none
      | .error _ => none
    | none => none
  | .error _ => none

/-- The previous links of the nodes of a sorted tree form one cycle in
iteration order: every node but the first designates the node immediately
before it, and the first designates the last. -/
def prev_links_cyclic (s : State) (vals : List Nat) : Bool :=
  match vals with
  | [] => true
  | first :: rest =>
    (vals.zip rest).all (fun ab => prev_node s ab.2 == some ab.1) &&
      prev_node s first == vals.getLast?

/-- Modelled from the spec: the part of `zone_contents_adjust_full` and
`zone_adjust` that concerns previous links (knot/zone/adjust.c is not part of
the sources at hand): the previous reference of every node of the tree is
resolved with `node_ref_get` and `REF_PREVIOUS`, in iteration order. -/
def adjust_prev (malloc_ok : Bool) (zone_reader : zone_read_t) :
    List Nat → State → Except Fault State
  | [], s => .ok s
  | v :: rest, s => do
    let (_, s1) ← node_ref_get malloc_ok s (some v) .REF_PREVIOUS zone_reader
    adjust_prev malloc_ok zone_reader rest s1

/-- The answer of the zone reader's previous lookup for the node `u`, as
`get_prev` asks for it on behalf of `node_ref_get`: by the owner name of the
node and the type `KNOT_RRTYPE_ANY`. -/
def previous_lookup (s : State) (zr : zone_read_t) (u : Nat) : Option Nat :=
  match node_read s u with
  | .ok x => zr.zone_read_previous_for_type x.owner KNOT_RRTYPE_ANY
  | .error _ => none

/-- The zone reader's previous lookup returns the cyclic canonical predecessor
within the sorted tree: for every node but the first the node immediately
before it in iteration order, and for the first node the last one. -/
def lookup_cyclic (s : State) (zr : zone_read_t) (vals : List Nat) : Bool :=
  match vals with
  | [] => true
  | first :: rest =>
    (vals.zip rest).all (fun ab => previous_lookup s zr ab.2 == some ab.1) &&
      previous_lookup s zr first == vals.getLast?

/-- Every self reference of a node is a live valid reference object whose
target is that node. -/
def self_refs_own (s : State) : Prop :=
  ∀ (m : Nat) (mx : zone_node_t) (q : Nat), node_read s m = .ok mx → mx.self_ref = some q →
    ∃ y : node_ref_t, ref_read s q = .ok y ∧ y.flags &&& REF_VALID ≠ 0 ∧ y.n = some m

/-- Decision procedure for `self_refs_own`. -/
def self_refs_own_check (s : State) : Bool :=
  (List.range s.nodes.length).all (fun m =>
    match s.nodes[m]? with
    | some mx =>
      match mx.self_ref with
      | some q =>
        match s.refs[q]? with
        | some (some y) => (y.flags &&& REF_VALID != 0) && (y.n == some m)
        | _ => false
      | none => true
    | none => true)

/-- The previous slot of every node of the tree is absent (`NULL`). -/
def prev_slots_absent (s : State) (vals : List Nat) : Bool :=
  vals.all (fun u =>
    match node_read s u with
    | .ok x => x.prev == none
    | .error _ => false)

/-! ## Reference count accounting -/

/-- The number of reference slots (previous, parent, NSEC3) of a node that hold
the reference at address `r`. -/
def slots_holding (x : zone_node_t) (r : Nat) : Nat :=
  (if x.prev = some r then 1 else 0) + (if x.parent = some r then 1 else 0) +
    (if x.nsec3_node = some r then 1 else 0)

/-- The holders of the reference at address `r` among the given nodes: 1 when
it is the self reference of some node (else 0), plus the number of slots
holding it. -/
def holders_in (nodes : List zone_node_t) (r : Nat) : Nat :=
  (if nodes.any (fun x => x.self_ref == some r) then 1 else 0) +
    (nodes.map (fun x => slots_holding x r)).sum

/-- The holders of the reference at address `r` in a state. -/
def holders (s : State) (r : Nat) : Nat := holders_in s.nodes r

/-- The accounting equation: the count of every live reference object equals
the number of its holders. -/
def accounted (s : State) : Prop :=
  ∀ (r : Nat) (x : node_ref_t), ref_read s r = .ok x → x.count = holders s r

/-- The accounting equation with one count in transit: the reference `extra`
has been counted once more than it is held. -/
def accounted_with (s : State) (extra : Option Nat) : Prop :=
  ∀ (r : Nat) (x : node_ref_t), ref_read s r = .ok x →
    x.count = holders s r + (if extra = some r then 1 else 0)

/-- The node stores the address `p` in its self reference or in one of its slots. -/
def node_points_to (x : zone_node_t) (p : Nat) : Prop :=
  x.self_ref = some p ∨ x.prev = some p ∨ x.parent = some p ∨ x.nsec3_node = some p

/-- No node holds a dangling pointer: every address stored in a node (self
reference or slot) is the address of a live reference object, not of a freed
one and not of memory that was never allocated. -/
def pointers_live (s : State) : Prop :=
  ∀ x ∈ s.nodes, ∀ p, node_points_to x p → ∃ y : node_ref_t, ref_read s p = .ok y

/-- No counter is at the maximum of the 32-bit type: `ref_inc` does not wrap. -/
def counts_below_max (s : State) : Prop :=
  ∀ (r : Nat) (x : node_ref_t), ref_read s r = .ok x → x.count + 1 < UINT32_MOD

/-- The effect of a cache miss on the reference objects, `old` being the value
of the slot before and `new` its value after: the installed reference has one
count more than before (than the count 1 it was created with, when it did not
exist before), the replaced reference has one count less (and is freed at
zero), every other cell of the heap is unchanged. -/
def resolution_effects (s s1 : State) (old new : Option Nat) : Prop :=
  (∀ q, new = some q → ∃ y1, ref_read s1 q = .ok y1 ∧
    ((∃ y, ref_read s q = .ok y ∧ y1.count = y.count + 1) ∨
      ((∀ y : node_ref_t, ref_read s q ≠ .ok y) ∧ y1.count = 1 + 1))) ∧
  (∀ r x, old = some r → ref_read s r = .ok x → s1.refs[r]? = some (ref_dec_cell x)) ∧
  (∀ p, new ≠ some p → old ≠ some p → s1.refs[p]? = s.refs[p]?)

/-- Decision procedure for the accounting equation. -/
def accounted_check (s : State) : Bool :=
  (List.range s.refs.length).all (fun r =>
    match s.refs[r]? with
    | some (some x) => x.count == holders s r
    | _ => true)

/-- Decision procedure for `pointers_live`. -/
def pointers_live_check (s : State) : Bool :=
  s.nodes.all (fun x =>
    [x.self_ref, x.prev, x.parent, x.nsec3_node].all (fun o =>
      match o with
      | some p =>
        match s.refs[p]? with
        | some (some _) => true
        | _ => false
      | none => true))

/-- Decision procedure for `counts_below_max`. -/
def counts_below_max_check (s : State) : Bool :=
  s.refs.all (fun c =>
    match c with
    | some x => decide (x.count + 1 < UINT32_MOD)
    | none => true)

/-! ## Relations between two states -/

/-- A node without references. -/
def ex_node (owner : knot_dname_t) (rrs : List knot_rrset_t) : zone_node_t :=
  { owner := owner, rrs := rrs, self_ref := none, prev := none, parent := none,
    nsec3_node := none }

/-- The label `test`. -/
def ex_test : List Nat := [116, 101, 115, 116]

/-- The nodes `test.` (SOA), `b.test.`, `e.test.`, `g.test.` (TXT) at addresses 0 to 3. -/
def ex_nodes : List zone_node_t :=
  [ex_node [ex_test] [⟨6, [1]⟩], ex_node [[98], ex_test] [⟨16, [2]⟩],
   ex_node [[101], ex_test] [⟨16, [2]⟩], ex_node [[103], ex_test] [⟨16, [2]⟩]]

/-- The example zone before any reference is resolved. -/
def ex_state : State := { refs := [], nodes := ex_nodes, log := [] }

/-- Node lookup by name in the example zone (plain names only). -/
def ex_node_for_type (owner : knot_dname_t) (type : Nat) : Option Nat :=
  if type = KNOT_RRTYPE_ANY then
    if owner = [ex_test] then some 0
    else if owner = [[98], ex_test] then some 1
    else if owner = [[101], ex_test] then some 2
    else if owner = [[103], ex_test] then some 3
    else none
  else none

/-- Cyclic canonical predecessor in the example zone (plain names only). -/
def ex_previous_for_type (owner : knot_dname_t) (type : Nat) : Option Nat :=
  if type = KNOT_RRTYPE_ANY then
    if owner = [ex_test] then some 3
    else if owner = [[98], ex_test] then some 0
    else if owner = [[101], ex_test] then some 1
    else if owner = [[103], ex_test] then some 2
    else none
  else none

/-- The zone reader of the example zone. -/
def ex_reader : zone_read_t :=
  ⟨[ex_test], ex_previous_for_type, ex_node_for_type, some 0, fun _ _ _ => none⟩

/-- The example zone after `b.test.` has resolved its previous node: the apex
carries its self reference (address 0, count 2) and `b.test.` holds it. -/
def ex_state_hit : State :=
  { refs := [some ⟨some 0, 2, REF_VALID⟩],
    nodes :=
      [{ ex_node [ex_test] [⟨6, [1]⟩] with self_ref := some 0 },
       { ex_node [[98], ex_test] [⟨16, [2]⟩] with prev := some 0 },
       ex_node [[101], ex_test] [⟨16, [2]⟩], ex_node [[103], ex_test] [⟨16, [2]⟩]],
    log := [Call.get_func [[98], ex_test] false,
      Call.previous_for_type [[98], ex_test] KNOT_RRTYPE_ANY] }

/-- The example zone after `f.test.` was added (address 4), at a moment when
`g.test.` still holds the self reference of `e.test.` (address 0) as its
previous node. -/
def ex_state_stale0 : State :=
  { refs := [some ⟨some 2, 2, REF_VALID⟩],
    nodes :=
      [ex_node [ex_test] [⟨6, [1]⟩], ex_node [[98], ex_test] [⟨16, [2]⟩],
       { ex_node [[101], ex_test] [⟨16, [2]⟩] with self_ref := some 0 },
       { ex_node [[103], ex_test] [⟨16, [2]⟩] with prev := some 0 },
       ex_node [[102], ex_test] [⟨16, [2]⟩]],
    log := [] }

/-- The state `ex_state_stale0` after `node_ref_invalidate` on the reference at address 0. -/
def ex_state_stale : State :=
  { ex_state_stale0 with refs := [some ⟨some 2, 2, 0⟩] }

/-- Cyclic canonical predecessor in the example zone with `f.test.` added. -/
def ex_previous_for_type_f (owner : knot_dname_t) (type : Nat) : Option Nat :=
  if type = KNOT_RRTYPE_ANY then
    if owner = [ex_test] then some 3
    else if owner = [[98], ex_test] then some 0
    else if owner = [[101], ex_test] then some 1
    else if owner = [[102], ex_test] then some 2
    else if owner = [[103], ex_test] then some 4
    else none
  else none

/-- The zone reader of the example zone with `f.test.` added. -/
def ex_reader_f : zone_read_t :=
  ⟨[ex_test], ex_previous_for_type_f, ex_node_for_type, some 0, fun _ _ _ => none⟩

/-- An NSEC3 signed zone: apex `test.` with NSEC3PARAM (address 0), `b.test.`
(address 1), and the NSEC3 nodes `0a.test.` (address 2) and `7f.test.`
(address 3) in the NSEC3 tree. -/
def ex_state_nsec3 : State :=
  { refs := [],
    nodes :=
      [ex_node [ex_test] [⟨6, [1]⟩, ⟨51, [1, 0, 10]⟩], ex_node [[98], ex_test] [⟨16, [2]⟩],
       ex_node [[48, 97], ex_test] [⟨50, [3]⟩], ex_node [[55, 102], ex_test] [⟨50, [4]⟩]],
    log := [] }

/-- Node lookup in the NSEC3 signed zone: plain names for ANY, hashed names for NSEC3. -/
def ex_node_for_type_nsec3 (owner : knot_dname_t) (type : Nat) : Option Nat :=
  if type = KNOT_RRTYPE_ANY then
    if owner = [ex_test] then some 0
    else if owner = [[98], ex_test] then some 1
    else none
  else if type = KNOT_RRTYPE_NSEC3 then
    if owner = [[48, 97], ex_test] then some 2
    else if owner = [[55, 102], ex_test] then some 3
    else none
  else none

/-- Previous node in the NSEC3 signed zone: in the plain tree (`test.`,
`b.test.`) for ANY, in the NSEC3 tree (`0a.test.`, `7f.test.`) for NSEC3. -/
def ex_previous_for_type_nsec3 (owner : knot_dname_t) (type : Nat) : Option Nat :=
  if type = KNOT_RRTYPE_ANY then
    if owner = [ex_test] then some 1
    else if owner = [[98], ex_test] then some 0
    else if owner = [[48, 97], ex_test] then some 0
    else if owner = [[55, 102], ex_test] then some 0
    else none
  else if type = KNOT_RRTYPE_NSEC3 then
    if owner = [[48, 97], ex_test] then some 3
    else if owner = [[55, 102], ex_test] then some 2
    else none
  else none

/-- The NSEC3 owner names of the NSEC3 signed zone: `test.` hashes to `7f.test.`,
`b.test.` to `0a.test.`. -/
def ex_create_nsec3_owner (owner zone_name : knot_dname_t) (params : List Nat) :
    Option knot_dname_t :=
  if zone_name = [ex_test] ∧ params = [1, 0, 10] then
    if owner = [ex_test] then some [[55, 102], ex_test]
    else if owner = [[98], ex_test] then some [[48, 97], ex_test]
    else none
  else none

/-- The zone reader of the NSEC3 signed zone. -/
def ex_reader_nsec3 : zone_read_t :=
  ⟨[ex_test], ex_previous_for_type_nsec3, ex_node_for_type_nsec3, some 0, ex_create_nsec3_owner⟩

/-- The state `ex_state_stale` after `g.test.` has resolved its previous node
against the zone with `f.test.` added: the invalidated reference (address 0)
has lost one count, `f.test.` carries a new self reference (address 1). -/
def ex_state_stale_resolved : State :=
  { refs := [some ⟨some 2, 1, 0⟩, some ⟨some 4, 2, REF_VALID⟩],
    nodes :=
      [ex_node [ex_test] [⟨6, [1]⟩], ex_node [[98], ex_test] [⟨16, [2]⟩],
       { ex_node [[101], ex_test] [⟨16, [2]⟩] with self_ref := some 0 },
       { ex_node [[103], ex_test] [⟨16, [2]⟩] with prev := some 1 },
       { ex_node [[102], ex_test] [⟨16, [2]⟩] with self_ref := some 1 }],
    log := [Call.get_func [[103], ex_test] false,
      Call.previous_for_type [[103], ex_test] KNOT_RRTYPE_ANY] }

/-- The example zone after the previous reference of each of its four nodes
has been resolved in iteration order: the self reference of `g.test.` is at
address 0, that of the apex at 1, of `b.test.` at 2, of `e.test.` at 3, and
each node holds the self reference of its cyclic predecessor. -/
def ex_state_adjusted : State :=
  { refs := [some ⟨some 3, 2, REF_VALID⟩, some ⟨some 0, 2, REF_VALID⟩,
      some ⟨some 1, 2, REF_VALID⟩, some ⟨some 2, 2, REF_VALID⟩],
    nodes :=
      [{ ex_node [ex_test] [⟨6, [1]⟩] with self_ref := some 1, prev := some 0 },
       { ex_node [[98], ex_test] [⟨16, [2]⟩] with self_ref := some 2, prev := some 1 },
       { ex_node [[101], ex_test] [⟨16, [2]⟩] with self_ref := some 3, prev := some 2 },
       { ex_node [[103], ex_test] [⟨16, [2]⟩] with self_ref := some 0, prev := some 3 }],
    log := [Call.get_func [ex_test] false,
      Call.previous_for_type [ex_test] KNOT_RRTYPE_ANY,
      Call.get_func [[98], ex_test] false,
      Call.previous_for_type [[98], ex_test] KNOT_RRTYPE_ANY,
      Call.get_func [[101], ex_test] false,
      Call.previous_for_type [[101], ex_test] KNOT_RRTYPE_ANY,
      Call.get_func [[103], ex_test] false,
      Call.previous_for_type [[103], ex_test] KNOT_RRTYPE_ANY] }

/-- A zone in which one reference object is held as often as its 32-bit counter
can express: the self reference of the apex (address 0, count `2^32 - 1`) is
held by the apex itself, by two slots of `e.test.` and by all three slots of
each of `K` further nodes; with `3 * K + 3 = 2^32 - 1` the accounting equation
holds.  The previous slot of `b.test.` (address 1) is still absent. -/
def ex_state_saturated (K : Nat) : State :=
  { refs := [some ⟨some 0, 4294967295, REF_VALID⟩],
    nodes :=
      { ex_node [ex_test] [⟨6, [1]⟩] with self_ref := some 0 } ::
      ex_node [[98], ex_test] [⟨16, [2]⟩] ::
      { ex_node [[101], ex_test] [⟨16, [2]⟩] with prev := some 0, parent := some 0 } ::
      List.replicate K
        { ex_node [[103], ex_test] [⟨16, [2]⟩] with
          prev := some 0, parent := some 0, nsec3_node := some 0 },
    log := [] }

/-- The state `ex_state_saturated K` after `b.test.` has resolved its previous
node: the counter of the reference at address 0 has wrapped to 0. -/
def ex_state_saturated_resolved (K : Nat) : State :=
  { refs := [some ⟨some 0, 0, REF_VALID⟩],
    nodes :=
      { ex_node [ex_test] [⟨6, [1]⟩] with self_ref := some 0 } ::
      { ex_node [[98], ex_test] [⟨16, [2]⟩] with prev := some 0 } ::
      { ex_node [[101], ex_test] [⟨16, [2]⟩] with prev := some 0, parent := some 0 } ::
      List.replicate K
        { ex_node [[103], ex_test] [⟨16, [2]⟩] with
          prev := some 0, parent := some 0, nsec3_node := some 0 },
    log := [Call.get_func [[98], ex_test] false,
      Call.previous_for_type [[98], ex_test] KNOT_RRTYPE_ANY] }

/-- A zone without any live reference object in which the parent slot of
`e.test.` holds a dangling pointer: the address 0 of a reference object that
has been freed. -/
def ex_state_dangling : State :=
  { refs := [none],
    nodes :=
      [ex_node [ex_test] [⟨6, [1]⟩], ex_node [[98], ex_test] [⟨16, [2]⟩],
       { ex_node [[101], ex_test] [⟨16, [2]⟩] with parent := some 0 }],
    log := [] }

/-- The state `ex_state_dangling` after `b.test.` has resolved its previous
node, `malloc` having returned the freed chunk at address 0: the new reference
has count 2, and three pointers hold it. -/
def ex_state_dangling_resolved : State :=
  { refs := [some ⟨some 0, 2, REF_VALID⟩],
    nodes :=
      [{ ex_node [ex_test] [⟨6, [1]⟩] with self_ref := some 0 },
       { ex_node [[98], ex_test] [⟨16, [2]⟩] with prev := some 0 },
       { ex_node [[101], ex_test] [⟨16, [2]⟩] with parent := some 0 }],
    log := [Call.get_func [[98], ex_test] false,
      Call.previous_for_type [[98], ex_test] KNOT_RRTYPE_ANY] }

/-- The example zone with one freed reference object (address 0) to which no
pointer is left. -/
def ex_state_freed : State := { refs := [none], nodes := ex_nodes, log := [] }

/-- The state `ex_state_freed` after `b.test.` has resolved its previous node,
`malloc` having returned the freed chunk at address 0. -/
def ex_state_freed_resolved : State :=
  { refs := [some ⟨some 0, 2, REF_VALID⟩],
    nodes :=
      [{ ex_node [ex_test] [⟨6, [1]⟩] with self_ref := some 0 },
       { ex_node [[98], ex_test] [⟨16, [2]⟩] with prev := some 0 },
       ex_node [[101], ex_test] [⟨16, [2]⟩], ex_node [[103], ex_test] [⟨16, [2]⟩]],
    log := [Call.get_func [[98], ex_test] false,
      Call.previous_for_type [[98], ex_test] KNOT_RRTYPE_ANY] }

/-- The NSEC3 signed zone after `b.test.` has resolved its previous node: the
apex carries its self reference (address 0, count 2) and the previous slot of
`b.test.` holds it; the other slots are absent. -/
def ex_state_nsec3_hit : State :=
  { refs := [some ⟨some 0, 2, REF_VALID⟩],
    nodes :=
      [{ ex_node [ex_test] [⟨6, [1]⟩, ⟨51, [1, 0, 10]⟩] with self_ref := some 0 },
       { ex_node [[98], ex_test] [⟨16, [2]⟩] with prev := some 0 },
       ex_node [[48, 97], ex_test] [⟨50, [3]⟩], ex_node [[55, 102], ex_test] [⟨50, [4]⟩]],
    log := [] }

/-- The example zone in a state in which the parent slot of `b.test.` holds
the valid self reference of the apex (address 0, count 2) and its previous
slot is absent. -/
def ex_state_hit_parent : State :=
  { refs := [some ⟨some 0, 2, REF_VALID⟩],
    nodes :=
      [{ ex_node [ex_test] [⟨6, [1]⟩] with self_ref := some 0 },
       { ex_node [[98], ex_test] [⟨16, [2]⟩] with parent := some 0 },
       ex_node [[101], ex_test] [⟨16, [2]⟩], ex_node [[103], ex_test] [⟨16, [2]⟩]],
    log := [] }

/-- The call `node_ref_get(g.test., REF_PREVIOUS, reader)` in the zone with
`f.test.` added, as the call of `return_node` it makes. -/
def ex_call_g : call_t :=
  { malloc_ok := true, chunk := none, n := 3, k := .prev, get_func := get_prev,
    key := [[103], ex_test], zone_reader := ex_reader_f, nsec3 := false }

/-- The state `ex_state_stale` after two threads have executed the call
`ex_call_g` interleaved, each reading the old reference of the slot before
either has replaced it: the invalidated reference at address 0 was decremented
twice and is freed, although `e.test.` (address 2) still holds it as its self
reference; the reference of `f.test.` (address 1) has count 3 and two holders. -/
def ex_state_raced : State :=
  { refs := [none, some ⟨some 4, 3, REF_VALID⟩],
    nodes :=
      [ex_node [ex_test] [⟨6, [1]⟩], ex_node [[98], ex_test] [⟨16, [2]⟩],
       { ex_node [[101], ex_test] [⟨16, [2]⟩] with self_ref := some 0 },
       { ex_node [[103], ex_test] [⟨16, [2]⟩] with prev := some 1 },
       { ex_node [[102], ex_test] [⟨16, [2]⟩] with self_ref := some 1 }],
    log := [Call.get_func [[103], ex_test] false,
      Call.previous_for_type [[103], ex_test] KNOT_RRTYPE_ANY,
      Call.get_func [[103], ex_test] false,
      Call.previous_for_type [[103], ex_test] KNOT_RRTYPE_ANY] }

/-! ## Memory lemmas -/

theorem ref_read_of_get {s : State} {r : Nat} {x : node_ref_t}
    (h : s.refs[r]? = some (some x)) : ref_read s r = .ok x := by
  simp [ref_read, h]

theorem ref_read_ok_iff {s : State} {r : Nat} {x : node_ref_t} :
    ref_read s r = .ok x ↔ s.refs[r]? = some (some x) := by
  unfold ref_read
  split
  · next y hy => simp [hy]
  · next hne =>
    constructor
    · intro h; cases h
    · intro h; exact absurd h (hne x)

theorem node_read_ok_iff {s : State} {n : Nat} {x : zone_node_t} :
    node_read s n = .ok x ↔ s.nodes[n]? = some x := by
  unfold node_read
  split
  · next y hy => simp [hy]
  · next hy => simp [hy]

theorem ref_read_lt {s : State} {r : Nat} {x : node_ref_t}
    (h : ref_read s r = .ok x) : r < s.refs.length := by
  rw [ref_read_ok_iff] at h
  exact (List.getElem?_eq_some.mp h).1

theorem node_read_lt {s : State} {n : Nat} {x : zone_node_t}
    (h : node_read s n = .ok x) : n < s.nodes.length := by
  rw [node_read_ok_iff] at h
  exact (List.getElem?_eq_some.mp h).1

@[simp] theorem ref_read_node_write (s : State) (n : Nat) (x : zone_node_t) (r : Nat) :
    ref_read (node_write s n x) r = ref_read s r := rfl

@[simp] theorem ref_read_log_calls (s : State) (c : List Call) (r : Nat) :
    ref_read (log_calls s c) r = ref_read s r := rfl

@[simp] theorem node_read_ref_write (s : State) (r : Nat) (v : Option node_ref_t) (n : Nat) :
    node_read (ref_write s r v) n = node_read s n := rfl

@[simp] theorem node_read_ref_alloc (s : State) (v : node_ref_t) (n : Nat) :
    node_read (ref_alloc s v) n = node_read s n := rfl

@[simp] theorem node_read_log_calls (s : State) (c : List Call) (n : Nat) :
    node_read (log_calls s c) n = node_read s n := rfl

theorem ref_read_ref_write_self {s : State} {r : Nat} (x : node_ref_t)
    (h : r < s.refs.length) : ref_read (ref_write s r (some x)) r = .ok x := by
  simp [ref_read, ref_write, h]

theorem ref_read_ref_write_ne {s : State} {r q : Nat} (v : Option node_ref_t)
    (h : r ≠ q) : ref_read (ref_write s r v) q = ref_read s q := by
  simp [ref_read, ref_write, List.getElem?_set_ne h]

theorem ref_read_ref_alloc_new (s : State) (x : node_ref_t) :
    ref_read (ref_alloc s x) s.refs.length = .ok x := by
  simp [ref_read, ref_alloc]

theorem ref_read_ref_alloc_ne {s : State} {q : Nat} (x : node_ref_t)
    (h : q ≠ s.refs.length) : ref_read (ref_alloc s x) q = ref_read s q := by
  unfold ref_read ref_alloc
  rcases Nat.lt_or_gt_of_ne h with h1 | h1
  · simp [List.getElem?_append_left h1]
  · have h2 : (s.refs ++ [some x])[q]? = none := by
      apply List.getElem?_eq_none; simp; omega
    have h3 : s.refs[q]? = none := by
      apply List.getElem?_eq_none; omega
    simp [h2, h3]

theorem node_read_node_write_self {s : State} {n : Nat} (x : zone_node_t)
    (h : n < s.nodes.length) : node_read (node_write s n x) n = .ok x := by
  simp [node_read, node_write, h]

theorem node_read_node_write_ne {s : State} {n m : Nat} (x : zone_node_t)
    (h : n ≠ m) : node_read (node_write s n x) m = node_read s m := by
  simp [node_read, node_write, List.getElem?_set_ne h]

@[simp] theorem refs_length_node_write (s : State) (n : Nat) (x : zone_node_t) :
    (node_write s n x).refs.length = s.refs.length := rfl

@[simp] theorem refs_length_log_calls (s : State) (c : List Call) :
    (log_calls s c).refs.length = s.refs.length := rfl

@[simp] theorem refs_length_ref_write (s : State) (r : Nat) (v : Option node_ref_t) :
    (ref_write s r v).refs.length = s.refs.length := by
  simp [ref_write]

@[simp] theorem refs_length_ref_alloc (s : State) (x : node_ref_t) :
    (ref_alloc s x).refs.length = s.refs.length + 1 := by
  simp [ref_alloc]

@[simp] theorem nodes_length_node_write (s : State) (n : Nat) (x : zone_node_t) :
    (node_write s n x).nodes.length = s.nodes.length := by
  simp [node_write]

@[simp] theorem nodes_length_ref_write (s : State) (r : Nat) (v : Option node_ref_t) :
    (ref_write s r v).nodes.length = s.nodes.length := rfl

@[simp] theorem nodes_length_ref_alloc (s : State) (x : node_ref_t) :
    (ref_alloc s x).nodes.length = s.nodes.length := rfl

@[simp] theorem nodes_length_log_calls (s : State) (c : List Call) :
    (log_calls s c).nodes.length = s.nodes.length := rfl

@[simp] theorem slot_get_slot_set (x : zone_node_t) (k : Slot) (v : Option Nat) :
    slot_get (slot_set x k v) k = v := by
  cases k <;> rfl

theorem valid_bit_cleared (f : Nat) : (f &&& (UINT32_MOD - 1 - REF_VALID)) &&& REF_VALID = 0 := by
  rw [Nat.and_assoc]
  have : (UINT32_MOD - 1 - REF_VALID) &&& REF_VALID = 0 := by decide
  rw [this]
  simp

/-! ## The chunk returned by `malloc` -/

@[simp] theorem malloc_addr_none (s : State) : malloc_addr s none = s.refs.length := rfl

@[simp] theorem ref_store_new_none (s : State) (x : node_ref_t) :
    ref_store_new s x none = ref_alloc s x := rfl

@[simp] theorem malloc_addr_log_calls (s : State) (c : List Call) (chunk : Option Nat) :
    malloc_addr (log_calls s c) chunk = malloc_addr s chunk := rfl

theorem malloc_cases (s : State) (x : node_ref_t) (chunk : Option Nat) :
    (malloc_addr s chunk = s.refs.length ∧ ref_store_new s x chunk = ref_alloc s x) ∨
    (s.refs[malloc_addr s chunk]? = some none ∧
      ref_store_new s x chunk = ref_write s (malloc_addr s chunk) (some x)) := by
  cases chunk with
  | none => exact Or.inl ⟨rfl, rfl⟩
  | some a =>
    by_cases h : s.refs[a]? = some none
    · right
      simp [malloc_addr, ref_store_new, h]
    · left
      simp [malloc_addr, ref_store_new, h]

theorem malloc_addr_free (s : State) (chunk : Option Nat) :
    s.refs[malloc_addr s chunk]? = none ∨ s.refs[malloc_addr s chunk]? = some none := by
  rcases malloc_cases s ⟨none, 0, 0⟩ chunk with ⟨h, _⟩ | ⟨h, _⟩
  · left
    rw [h]
    simp
  · exact Or.inr h

theorem malloc_addr_not_live (s : State) (chunk : Option Nat) (y : node_ref_t) :
    ref_read s (malloc_addr s chunk) ≠ .ok y := by
  intro h
  rw [ref_read_ok_iff] at h
  rcases malloc_addr_free s chunk with h1 | h1
  · rw [h1] at h; cases h
  · rw [h1] at h; cases h

theorem ref_read_ref_store_new_self (s : State) (x : node_ref_t) (chunk : Option Nat) :
    ref_read (ref_store_new s x chunk) (malloc_addr s chunk) = .ok x := by
  rcases malloc_cases s x chunk with ⟨h1, h2⟩ | ⟨h1, h2⟩
  · rw [h1, h2]
    exact ref_read_ref_alloc_new s x
  · rw [h2]
    exact ref_read_ref_write_self x (List.getElem?_eq_some.mp h1).1

theorem refs_get_ref_store_new_ne {s : State} {p : Nat} (x : node_ref_t) (chunk : Option Nat)
    (h : p ≠ malloc_addr s chunk) : (ref_store_new s x chunk).refs[p]? = s.refs[p]? := by
  rcases malloc_cases s x chunk with ⟨h1, h2⟩ | ⟨_, h2⟩
  · rw [h2]
    rw [h1] at h
    rcases Nat.lt_or_gt_of_ne h with h3 | h3
    · simp [ref_alloc, List.getElem?_append_left h3]
    · have h4 : (ref_alloc s x).refs[p]? = none := by
        apply List.getElem?_eq_none; simp [ref_alloc]; omega
      have h5 : s.refs[p]? = none := by
        apply List.getElem?_eq_none; omega
      rw [h4, h5]
  · rw [h2]
    simp [ref_write, List.getElem?_set_ne (Ne.symm h)]

theorem ref_read_ref_store_new_ne {s : State} {p : Nat} (x : node_ref_t) (chunk : Option Nat)
    (h : p ≠ malloc_addr s chunk) : ref_read (ref_store_new s x chunk) p = ref_read s p := by
  simp [ref_read, refs_get_ref_store_new_ne x chunk h]

@[simp] theorem nodes_ref_store_new (s : State) (x : node_ref_t) (chunk : Option Nat) :
    (ref_store_new s x chunk).nodes = s.nodes := by
  rcases malloc_cases s x chunk with ⟨_, h2⟩ | ⟨_, h2⟩ <;> rw [h2] <;> rfl

@[simp] theorem log_ref_store_new (s : State) (x : node_ref_t) (chunk : Option Nat) :
    (ref_store_new s x chunk).log = s.log := by
  rcases malloc_cases s x chunk with ⟨_, h2⟩ | ⟨_, h2⟩ <;> rw [h2] <;> rfl

@[simp] theorem node_read_ref_store_new (s : State) (x : node_ref_t) (chunk : Option Nat)
    (n : Nat) : node_read (ref_store_new s x chunk) n = node_read s n := by
  simp [node_read]

theorem refs_length_le_ref_store_new (s : State) (x : node_ref_t) (chunk : Option Nat) :
    s.refs.length ≤ (ref_store_new s x chunk).refs.length := by
  rcases malloc_cases s x chunk with ⟨_, h2⟩ | ⟨_, h2⟩ <;> rw [h2] <;> simp [ref_alloc, ref_write]

/-! ## Step lemmas for node-ref.c -/

theorem node_ref_valid_of_read {s : State} {r : Nat} {x : node_ref_t}
    (h : ref_read s r = .ok x) :
    node_ref_valid s (some r) = .ok (x.flags &&& REF_VALID != 0) := by
  simp [node_ref_valid, h, bind, Except.bind]

theorem node_ref_valid_null (s : State) : node_ref_valid s none = .ok false := rfl

theorem ref_inc_of_read {s : State} {p : Nat} {x : node_ref_t} (h : ref_read s p = .ok x) :
    ref_inc s (some p)
      = .ok (ref_write s p (some { x with count := (x.count + 1) % UINT32_MOD })) := by
  simp [ref_inc, h, bind, Except.bind]

theorem ref_write_ref_write (s : State) (p : Nat) (a b : Option node_ref_t) :
    ref_write (ref_write s p a) p b = ref_write s p b := by
  simp [ref_write, List.set_set]

theorem ref_dec_of_read {s : State} {p : Nat} {x : node_ref_t} (h : ref_read s p = .ok x) :
    ref_dec s (some p) =
      if x.count = 0 then .error .assertion
      else if x.count = 1 then
        (if x.flags &&& REF_VALID != 0 then .error .assertion else .ok (ref_write s p none))
      else .ok (ref_write s p (some { x with count := x.count - 1 })) := by
  have hlt := ref_read_lt h
  unfold ref_dec
  simp only [h, bind, Except.bind]
  by_cases h0 : x.count = 0
  · simp [h0]
  · by_cases h1 : x.count = 1
    · simp [h1, node_ref_valid_of_read (ref_read_ref_write_self _ hlt), ref_write_ref_write]
    · have h2 : x.count - 1 ≠ 0 := by omega
      simp [h0, h1, h2]

theorem ref_dec_nodes {s s1 : State} {r : Option Nat} (h : ref_dec s r = .ok s1) :
    s1.nodes = s.nodes ∧ s1.log = s.log := by
  cases r with
  | none =>
    simp only [ref_dec, Except.ok.injEq] at h
    subst h
    exact ⟨rfl, rfl⟩
  | some p =>
    cases hx : ref_read s p with
    | error e => simp [ref_dec, hx, bind, Except.bind] at h
    | ok x =>
      rw [ref_dec_of_read hx] at h
      split at h
      · cases h
      · split at h
        · split at h
          · cases h
          · simp only [Except.ok.injEq] at h
            subst h
            exact ⟨rfl, rfl⟩
        · simp only [Except.ok.injEq] at h
          subst h
          exact ⟨rfl, rfl⟩

theorem node_read_of_nodes_eq {s s1 : State} (h : s1.nodes = s.nodes) (n : Nat) :
    node_read s1 n = node_read s n := by
  simp [node_read, h]

theorem switch_ref_of_read {s : State} {n : Nat} {x : zone_node_t} (h : node_read s n = .ok x)
    (src : Option Nat) (k : Slot) :
    switch_ref s src n k = .ok (node_write s n (slot_set x k src)) := by
  simp [switch_ref, h, bind, Except.bind]

theorem fetch_node_ref_null {chunk : Option Nat} (malloc_ok : Bool) (s : State) :
    fetch_node_ref malloc_ok s none chunk = .ok (none, s) := rfl

theorem fetch_node_ref_new_at {s : State} {t : Nat} {tx : zone_node_t} (chunk : Option Nat)
    (ht : node_read s t = .ok tx) (hself : tx.self_ref = none) :
    fetch_node_ref true s (some t) chunk =
      .ok (some (malloc_addr s chunk),
        node_write (ref_store_new s { n := some t, count := 1, flags := REF_VALID } chunk) t
          { tx with self_ref := some (malloc_addr s chunk) }) := by
  have hv : node_ref_valid
      (node_write (ref_store_new s { n := some t, count := 1, flags := REF_VALID } chunk) t
        { tx with self_ref := some (malloc_addr s chunk) }) (some (malloc_addr s chunk))
        = .ok true := by
    rw [node_ref_valid_of_read (x := { n := some t, count := 1, flags := REF_VALID })]
    · simp [REF_VALID]
    · rw [ref_read_node_write]; exact ref_read_ref_store_new_self _ _ _
  simp only [fetch_node_ref, ht, hself, node_ref_new, bind, Except.bind]
  simp [hv]

theorem fetch_node_ref_new {s : State} {t : Nat} {tx : zone_node_t}
    (ht : node_read s t = .ok tx) (hself : tx.self_ref = none) :
    fetch_node_ref true s (some t) =
      .ok (some s.refs.length,
        node_write (ref_alloc s { n := some t, count := 1, flags := REF_VALID }) t
          { tx with self_ref := some s.refs.length }) :=
  fetch_node_ref_new_at none ht hself

theorem fetch_node_ref_malloc_failed {chunk : Option Nat} {s : State} {t : Nat} {tx : zone_node_t}
    (ht : node_read s t = .ok tx) (hself : tx.self_ref = none) :
    fetch_node_ref false s (some t) chunk = .ok (none, s) := by
  simp [fetch_node_ref, ht, hself, node_ref_new, bind, Except.bind]

theorem fetch_node_ref_existing {chunk : Option Nat}
    {s : State} {t q : Nat} {tx : zone_node_t} {y : node_ref_t}
    (malloc_ok : Bool) (ht : node_read s t = .ok tx) (hself : tx.self_ref = some q)
    (hq : ref_read s q = .ok y) :
    fetch_node_ref malloc_ok s (some t) chunk =
      if y.flags &&& REF_VALID != 0 then .ok (some q, s) else .error .assertion := by
  simp [fetch_node_ref, ht, hself, node_ref_valid_of_read hq, bind, Except.bind]

theorem return_node_hit {chunk : Option Nat}
    {s : State} {n p : Nat} {k : Slot} {nx : zone_node_t} {x : node_ref_t}
    (malloc_ok : Bool) (get_func : ref_get_t) (key : knot_dname_t) (zr : zone_read_t)
    (nsec3 : Bool)
    (hn : node_read s n = .ok nx) (hslot : slot_get nx k = some p)
    (hp : ref_read s p = .ok x) (hv : x.flags &&& REF_VALID ≠ 0) :
    return_node malloc_ok s n k get_func key zr nsec3 chunk = .ok (x.n, s) := by
  simp [return_node, hn, hslot, node_ref_valid_of_read hp, hp, hv, bind, Except.bind]

theorem return_node_miss_some {chunk : Option Nat}
    {s s2 s3 s5 : State} {n p : Nat} {k : Slot} {nx x3 : zone_node_t}
    {ref : node_ref_t}
    {malloc_ok : Bool} {get_func : ref_get_t} {key : knot_dname_t} {zr : zone_read_t}
    {nsec3 : Bool} {target : Option Nat} {calls : List Call}
    (hn : node_read s n = .ok nx)
    (hv : node_ref_valid s (slot_get nx k) = .ok false)
    (hres : get_func s zr key nsec3 = .ok (target, calls))
    (hfetch : fetch_node_ref malloc_ok (log_calls s (Call.get_func key nsec3 :: calls)) target
      chunk = .ok (some p, s2))
    (hinc : ref_inc s2 (some p) = .ok s3)
    (hn3 : node_read s3 n = .ok x3)
    (hdec : ref_dec (node_write s3 n (slot_set x3 k (some p))) (slot_get x3 k) = .ok s5)
    (hp : ref_read s5 p = .ok ref) :
    return_node malloc_ok s n k get_func key zr nsec3 chunk = .ok (ref.n, s5) := by
  have hsw := switch_ref_of_read hn3 (some p) k
  have hlt := node_read_lt hn3
  have hn5 : node_read s5 n = .ok (slot_set x3 k (some p)) := by
    rw [node_read_of_nodes_eq (ref_dec_nodes hdec).1]
    exact node_read_node_write_self _ hlt
  simp only [return_node, hn, hv, hres, hfetch, hinc, hn3, hsw, hdec, hn5, bind, Except.bind]
  simp [hp]

theorem return_node_miss_none {chunk : Option Nat}
    {s s2 s3 s5 : State} {n : Nat} {k : Slot} {nx x3 : zone_node_t}
    {malloc_ok : Bool} {get_func : ref_get_t} {key : knot_dname_t} {zr : zone_read_t}
    {nsec3 : Bool} {target : Option Nat} {calls : List Call}
    (hn : node_read s n = .ok nx)
    (hv : node_ref_valid s (slot_get nx k) = .ok false)
    (hres : get_func s zr key nsec3 = .ok (target, calls))
    (hfetch : fetch_node_ref malloc_ok (log_calls s (Call.get_func key nsec3 :: calls)) target
      chunk = .ok (none, s2))
    (hinc : ref_inc s2 none = .ok s3)
    (hn3 : node_read s3 n = .ok x3)
    (hdec : ref_dec (node_write s3 n (slot_set x3 k none)) (slot_get x3 k) = .ok s5) :
    return_node malloc_ok s n k get_func key zr nsec3 chunk = .ok (none, s5) := by
  have hsw := switch_ref_of_read hn3 none k
  have hlt := node_read_lt hn3
  have hn5 : node_read s5 n = .ok (slot_set x3 k none) := by
    rw [node_read_of_nodes_eq (ref_dec_nodes hdec).1]
    exact node_read_node_write_self _ hlt
  simp only [return_node, hn, hv, hres, hfetch, hinc, hn3, hsw, hdec, hn5, bind, Except.bind]
  simp

@[simp] theorem self_ref_slot_set (x : zone_node_t) (k : Slot) (v : Option Nat) :
    (slot_set x k v).self_ref = x.self_ref := by
  cases k <;> rfl

@[simp] theorem owner_slot_set (x : zone_node_t) (k : Slot) (v : Option Nat) :
    (slot_set x k v).owner = x.owner := by
  cases k <;> rfl

@[simp] theorem rrs_slot_set (x : zone_node_t) (k : Slot) (v : Option Nat) :
    (slot_set x k v).rrs = x.rrs := by
  cases k <;> rfl

theorem node_ref_get_eq {chunk : Option Nat}
    {s : State} {n : Nat} {nx : zone_node_t} (malloc_ok : Bool)
    (k : node_ref_type) (zr : zone_read_t) (hn : node_read s n = .ok nx) :
    node_ref_get malloc_ok s (some n) k zr chunk =
      return_node malloc_ok s n (node_ref_get_slot k) (node_ref_get_func k) nx.owner zr
        false chunk := by
  simp [node_ref_get, hn, bind, Except.bind]

/-! ## Cache miss on an absent slot -/

theorem node_ref_get_miss_fresh (s : State) (zr : zone_read_t) (chunk : Option Nat) (n t : Nat)
    (k : node_ref_type) (nx tx : zone_node_t) (calls : List Call)
    (hn : node_read s n = .ok nx)
    (hslot : slot_get nx (node_ref_get_slot k) = none)
    (hres : node_ref_get_func k s zr nx.owner false = .ok (some t, calls))
    (ht : node_read s t = .ok tx)
    (hself : tx.self_ref = none) :
    ∃ s' q, node_ref_get true s (some n) k zr chunk = .ok (some t, s') ∧
      (∃ nx', node_read s' n = .ok nx' ∧ slot_get nx' (node_ref_get_slot k) = some q) ∧
      (∃ tx', node_read s' t = .ok tx' ∧ tx'.self_ref = some q) ∧
      ref_read s' q = .ok { n := some t, count := 2, flags := REF_VALID } ∧
      node_ref_valid s' (some q) = .ok true := by
  have hnlt := node_read_lt hn
  have htlt := node_read_lt ht
  let q := malloc_addr s chunk
  let r1 : node_ref_t := { n := some t, count := 1, flags := REF_VALID }
  let r2 : node_ref_t := { n := some t, count := 2, flags := REF_VALID }
  let tx1 : zone_node_t := { tx with self_ref := some q }
  let s1 := log_calls s (Call.get_func nx.owner false :: calls)
  let s2 := node_write (ref_store_new s1 r1 chunk) t tx1
  let s3 := ref_write s2 q (some r2)
  have hfetch : fetch_node_ref true s1 (some t) chunk = .ok (some q, s2) :=
    fetch_node_ref_new_at (s := s1) chunk ht hself
  have hq2 : ref_read s2 q = .ok r1 := by
    show ref_read (node_write _ _ _) _ = _
    rw [ref_read_node_write]
    exact ref_read_ref_store_new_self s1 r1 chunk
  have hinc : ref_inc s2 (some q) = .ok s3 := by
    rw [ref_inc_of_read hq2]
    rfl
  have hqlt : q < s2.refs.length := ref_read_lt hq2
  have hq3 : ref_read s3 q = .ok r2 := ref_read_ref_write_self r2 hqlt
  have ht3 : node_read s3 t = .ok tx1 := by
    show node_read (ref_write _ _ _) _ = _
    rw [node_read_ref_write]
    exact node_read_node_write_self _ (by simpa using htlt)
  have hvalid2 : (r2.flags &&& REF_VALID != 0) = true := by simp [r2, REF_VALID]
  by_cases hnt : n = t
  · subst hnt
    have hxx : nx = tx := by
      have := hn.symm.trans ht
      simpa using this
    subst hxx
    have hslot3 : slot_get tx1 (node_ref_get_slot k) = none := by
      rw [← hslot]; cases k <;> rfl
    have hdec : ref_dec (node_write s3 n (slot_set tx1 (node_ref_get_slot k) (some q)))
        (slot_get tx1 (node_ref_get_slot k))
        = .ok (node_write s3 n (slot_set tx1 (node_ref_get_slot k) (some q))) := by
      rw [hslot3]; rfl
    have hmiss := return_node_miss_some hn (by rw [hslot]; rfl) hres hfetch hinc ht3 hdec
      (by rw [ref_read_node_write]; exact hq3)
    refine ⟨node_write s3 n (slot_set tx1 (node_ref_get_slot k) (some q)), q, ?_, ?_, ?_, ?_, ?_⟩
    · rw [node_ref_get_eq true k zr hn, hmiss]
    · exact ⟨_, node_read_node_write_self _ (node_read_lt ht3), by simp⟩
    · exact ⟨_, node_read_node_write_self _ (node_read_lt ht3), by simp [tx1]⟩
    · rw [ref_read_node_write]; exact hq3
    · rw [node_ref_valid_of_read (x := r2) (by rw [ref_read_node_write]; exact hq3), hvalid2]
  · have hn3 : node_read s3 n = .ok nx := by
      show node_read (ref_write _ _ _) _ = _
      rw [node_read_ref_write]
      show node_read (node_write _ _ _) _ = _
      rw [node_read_node_write_ne _ (Ne.symm hnt), node_read_ref_store_new]
      exact hn
    have hdec : ref_dec (node_write s3 n (slot_set nx (node_ref_get_slot k) (some q)))
        (slot_get nx (node_ref_get_slot k))
        = .ok (node_write s3 n (slot_set nx (node_ref_get_slot k) (some q))) := by
      rw [hslot]; rfl
    have hmiss := return_node_miss_some hn (by rw [hslot]; rfl) hres hfetch hinc hn3 hdec
      (by rw [ref_read_node_write]; exact hq3)
    refine ⟨node_write s3 n (slot_set nx (node_ref_get_slot k) (some q)), q, ?_, ?_, ?_, ?_, ?_⟩
    · rw [node_ref_get_eq true k zr hn, hmiss]
    · exact ⟨_, node_read_node_write_self _ (node_read_lt hn3), by simp⟩
    · refine ⟨tx1, ?_, rfl⟩
      rw [node_read_node_write_ne _ hnt]
      exact ht3
    · rw [ref_read_node_write]; exact hq3
    · rw [node_ref_valid_of_read (x := r2) (by rw [ref_read_node_write]; exact hq3), hvalid2]

/-- C1: cache miss on an absent slot.  Let `slot` be the slot of the kind `k`
(`prev` for `REF_PREVIOUS`, `parent` for `REF_PARENT`, `nsec3_node` for
`REF_NSEC3`) and `get_func` the resolution function of `k` (`get_prev`,
`get_parent`, `get_nsec3`).  If that slot of node `n` is `NULL`, the
allocation succeeds (whichever chunk `malloc` returns) and the resolution
function yields a node `t` that has no self reference yet, then `node_ref_get`
returns `t`, and afterwards that slot of `n` and the self reference of `t` are
one and the same reference, which targets `t`, is valid and has count 2. -/
theorem C1_cache_miss_installs_fresh_reference (s : State) (zr : zone_read_t)
    (chunk : Option Nat) (n t : Nat) (k : node_ref_type) (slot : Slot) (get_func : ref_get_t)
    (nx tx : zone_node_t) (calls : List Call)
    (hk : (k = .REF_PREVIOUS ∧ slot = .prev ∧ get_func = get_prev) ∨
      (k = .REF_PARENT ∧ slot = .parent ∧ get_func = get_parent) ∨
      (k = .REF_NSEC3 ∧ slot = .nsec3_node ∧ get_func = get_nsec3))
    (hn : node_read s n = .ok nx)
    (hslot : slot_get nx slot = none)
    (hres : get_func s zr nx.owner false = .ok (some t, calls))
    (ht : node_read s t = .ok tx)
    (hself : tx.self_ref = none) :
    ∃ s' q, node_ref_get true s (some n) k zr chunk = .ok (some t, s') ∧
      (∃ nx', node_read s' n = .ok nx' ∧ slot_get nx' slot = some q) ∧
      (∃ tx', node_read s' t = .ok tx' ∧ tx'.self_ref = some q) ∧
      ref_read s' q = .ok { n := some t, count := 2, flags := REF_VALID } ∧
      node_ref_valid s' (some q) = .ok true := by
  rcases hk with ⟨rfl, rfl, rfl⟩ | ⟨rfl, rfl, rfl⟩ | ⟨rfl, rfl, rfl⟩
  · exact node_ref_get_miss_fresh s zr chunk n t .REF_PREVIOUS nx tx calls hn hslot hres ht hself
  · exact node_ref_get_miss_fresh s zr chunk n t .REF_PARENT nx tx calls hn hslot hres ht hself
  · exact node_ref_get_miss_fresh s zr chunk n t .REF_NSEC3 nx tx calls hn hslot hres ht hself

/-- Witness of C1: `b.test.` of the example zone resolves its previous node,
the apex; and `b.test.` of the NSEC3 signed zone, whose previous slot already
holds a valid reference, resolves its NSEC3 node `0a.test.` into the NSEC3
slot. -/
theorem C1_cache_miss_installs_fresh_reference_witness :
    (∃ s' q, node_ref_get true ex_state (some 1) .REF_PREVIOUS ex_reader = .ok (some 0, s') ∧
      (∃ nx', node_read s' 1 = .ok nx' ∧ slot_get nx' .prev = some q) ∧
      (∃ tx', node_read s' 0 = .ok tx' ∧ tx'.self_ref = some q) ∧
      ref_read s' q = .ok { n := some 0, count := 2, flags := REF_VALID } ∧
      node_ref_valid s' (some q) = .ok true) ∧
    (∃ s' q, node_ref_get true ex_state_nsec3_hit (some 1) .REF_NSEC3 ex_reader_nsec3
        = .ok (some 2, s') ∧
      (∃ nx', node_read s' 1 = .ok nx' ∧ slot_get nx' .nsec3_node = some q) ∧
      (∃ tx', node_read s' 2 = .ok tx' ∧ tx'.self_ref = some q) ∧
      ref_read s' q = .ok { n := some 2, count := 2, flags := REF_VALID } ∧
      node_ref_valid s' (some q) = .ok true) :=
  ⟨C1_cache_miss_installs_fresh_reference ex_state ex_reader none 1 0 .REF_PREVIOUS .prev
      get_prev (ex_node [[98], ex_test] [⟨16, [2]⟩]) (ex_node [ex_test] [⟨6, [1]⟩])
      [Call.previous_for_type [[98], ex_test] KNOT_RRTYPE_ANY] (Or.inl ⟨rfl, rfl, rfl⟩)
      rfl rfl rfl rfl rfl,
    C1_cache_miss_installs_fresh_reference ex_state_nsec3_hit ex_reader_nsec3 none 1 2
      .REF_NSEC3 .nsec3_node get_nsec3
      { ex_node [[98], ex_test] [⟨16, [2]⟩] with prev := some 0 }
      (ex_node [[48, 97], ex_test] [⟨50, [3]⟩])
      [Call.read_apex, Call.create_nsec3_owner [[98], ex_test] [ex_test] [1, 0, 10],
        Call.node_for_type [[48, 97], ex_test] KNOT_RRTYPE_NSEC3]
      (Or.inr (Or.inr ⟨rfl, rfl, rfl⟩)) rfl rfl rfl rfl rfl⟩

/-! ## Cache hit, and the steps of a cache miss -/

theorem ref_dec_of_invalid {s : State} {r : Nat} {x : node_ref_t} (hr : ref_read s r = .ok x)
    (hinv : x.flags &&& REF_VALID = 0) (hc : 0 < x.count) :
    ref_dec s (some r) = .ok (ref_write s r (ref_dec_cell x)) := by
  rw [ref_dec_of_read hr]
  have h0 : x.count ≠ 0 := by omega
  by_cases h1 : x.count = 1
  · simp [h1, hinv, ref_dec_cell]
  · simp [h0, h1, ref_dec_cell]

theorem node_ref_valid_of_invalid {s : State} {r : Nat} {x : node_ref_t}
    (hr : ref_read s r = .ok x) (hinv : x.flags &&& REF_VALID = 0) :
    node_ref_valid s (some r) = .ok false := by
  rw [node_ref_valid_of_read hr]
  simp [hinv]

theorem return_node_install_some {chunk : Option Nat} {s s2 : State} {n p : Nat} {k : Slot}
    {nx x2 : zone_node_t} {y : node_ref_t}
    {malloc_ok : Bool} {get_func : ref_get_t} {key : knot_dname_t} {zr : zone_read_t}
    {nsec3 : Bool} {target : Option Nat} {calls : List Call}
    (hn : node_read s n = .ok nx)
    (hv : node_ref_valid s (slot_get nx k) = .ok false)
    (hres : get_func s zr key nsec3 = .ok (target, calls))
    (hfetch : fetch_node_ref malloc_ok (log_calls s (Call.get_func key nsec3 :: calls)) target chunk
      = .ok (some p, s2))
    (hn2 : node_read s2 n = .ok x2) (hp : ref_read s2 p = .ok y)
    (hold : slot_get x2 k = none) :
    return_node malloc_ok s n k get_func key zr nsec3 chunk =
      .ok (y.n, node_write (ref_write s2 p (some (ref_inc_cell y))) n (slot_set x2 k (some p))) := by
  have hinc : ref_inc s2 (some p) = .ok (ref_write s2 p (some (ref_inc_cell y))) :=
    ref_inc_of_read hp
  have hn3 : node_read (ref_write s2 p (some (ref_inc_cell y))) n = .ok x2 := by
    rw [node_read_ref_write]; exact hn2
  have hdec : ref_dec (node_write (ref_write s2 p (some (ref_inc_cell y))) n
      (slot_set x2 k (some p))) (slot_get x2 k)
      = .ok (node_write (ref_write s2 p (some (ref_inc_cell y))) n (slot_set x2 k (some p))) := by
    rw [hold]; rfl
  have hp5 : ref_read (node_write (ref_write s2 p (some (ref_inc_cell y))) n
      (slot_set x2 k (some p))) p = .ok (ref_inc_cell y) := by
    rw [ref_read_node_write]; exact ref_read_ref_write_self _ (ref_read_lt hp)
  have h := return_node_miss_some hn hv hres hfetch hinc hn3 hdec hp5
  exact h

theorem return_node_install_some_old {chunk : Option Nat} {s s2 : State} {n p r : Nat} {k : Slot}
    {nx x2 : zone_node_t} {x y : node_ref_t}
    {malloc_ok : Bool} {get_func : ref_get_t} {key : knot_dname_t} {zr : zone_read_t}
    {nsec3 : Bool} {target : Option Nat} {calls : List Call}
    (hn : node_read s n = .ok nx)
    (hv : node_ref_valid s (slot_get nx k) = .ok false)
    (hres : get_func s zr key nsec3 = .ok (target, calls))
    (hfetch : fetch_node_ref malloc_ok (log_calls s (Call.get_func key nsec3 :: calls)) target chunk
      = .ok (some p, s2))
    (hn2 : node_read s2 n = .ok x2) (hp : ref_read s2 p = .ok y)
    (hold : slot_get x2 k = some r) (hr : ref_read s2 r = .ok x) (hrp : r ≠ p)
    (hinv : x.flags &&& REF_VALID = 0) (hc : 0 < x.count) :
    return_node malloc_ok s n k get_func key zr nsec3 chunk =
      .ok (y.n, ref_write (node_write (ref_write s2 p (some (ref_inc_cell y))) n
        (slot_set x2 k (some p))) r (ref_dec_cell x)) := by
  have hinc : ref_inc s2 (some p) = .ok (ref_write s2 p (some (ref_inc_cell y))) :=
    ref_inc_of_read hp
  have hn3 : node_read (ref_write s2 p (some (ref_inc_cell y))) n = .ok x2 := by
    rw [node_read_ref_write]; exact hn2
  have hr4 : ref_read (node_write (ref_write s2 p (some (ref_inc_cell y))) n
      (slot_set x2 k (some p))) r = .ok x := by
    rw [ref_read_node_write, ref_read_ref_write_ne _ (Ne.symm hrp)]; exact hr
  have hdec : ref_dec (node_write (ref_write s2 p (some (ref_inc_cell y))) n
      (slot_set x2 k (some p))) (slot_get x2 k)
      = .ok (ref_write (node_write (ref_write s2 p (some (ref_inc_cell y))) n
        (slot_set x2 k (some p))) r (ref_dec_cell x)) := by
    rw [hold]; exact ref_dec_of_invalid hr4 hinv hc
  have hp5 : ref_read (ref_write (node_write (ref_write s2 p (some (ref_inc_cell y))) n
      (slot_set x2 k (some p))) r (ref_dec_cell x)) p = .ok (ref_inc_cell y) := by
    rw [ref_read_ref_write_ne _ hrp, ref_read_node_write]
    exact ref_read_ref_write_self _ (ref_read_lt hp)
  have h := return_node_miss_some hn hv hres hfetch hinc hn3 hdec hp5
  exact h

theorem return_node_install_none {chunk : Option Nat} {s s2 : State} {n : Nat} {k : Slot}
    {nx x2 : zone_node_t}
    {malloc_ok : Bool} {get_func : ref_get_t} {key : knot_dname_t} {zr : zone_read_t}
    {nsec3 : Bool} {target : Option Nat} {calls : List Call}
    (hn : node_read s n = .ok nx)
    (hv : node_ref_valid s (slot_get nx k) = .ok false)
    (hres : get_func s zr key nsec3 = .ok (target, calls))
    (hfetch : fetch_node_ref malloc_ok (log_calls s (Call.get_func key nsec3 :: calls)) target chunk
      = .ok (none, s2))
    (hn2 : node_read s2 n = .ok x2)
    (hold : slot_get x2 k = none) :
    return_node malloc_ok s n k get_func key zr nsec3 chunk =
      .ok (none, node_write s2 n (slot_set x2 k none)) := by
  have hdec : ref_dec (node_write s2 n (slot_set x2 k none)) (slot_get x2 k)
      = .ok (node_write s2 n (slot_set x2 k none)) := by
    rw [hold]; rfl
  exact return_node_miss_none hn hv hres hfetch rfl hn2 hdec

theorem return_node_install_none_old {chunk : Option Nat} {s s2 : State} {n r : Nat} {k : Slot}
    {nx x2 : zone_node_t} {x : node_ref_t}
    {malloc_ok : Bool} {get_func : ref_get_t} {key : knot_dname_t} {zr : zone_read_t}
    {nsec3 : Bool} {target : Option Nat} {calls : List Call}
    (hn : node_read s n = .ok nx)
    (hv : node_ref_valid s (slot_get nx k) = .ok false)
    (hres : get_func s zr key nsec3 = .ok (target, calls))
    (hfetch : fetch_node_ref malloc_ok (log_calls s (Call.get_func key nsec3 :: calls)) target chunk
      = .ok (none, s2))
    (hn2 : node_read s2 n = .ok x2)
    (hold : slot_get x2 k = some r) (hr : ref_read s2 r = .ok x)
    (hinv : x.flags &&& REF_VALID = 0) (hc : 0 < x.count) :
    return_node malloc_ok s n k get_func key zr nsec3 chunk =
      .ok (none, ref_write (node_write s2 n (slot_set x2 k none)) r (ref_dec_cell x)) := by
  have hr4 : ref_read (node_write s2 n (slot_set x2 k none)) r = .ok x := by
    rw [ref_read_node_write]; exact hr
  have hdec : ref_dec (node_write s2 n (slot_set x2 k none)) (slot_get x2 k)
      = .ok (ref_write (node_write s2 n (slot_set x2 k none)) r (ref_dec_cell x)) := by
    rw [hold]; exact ref_dec_of_invalid hr4 hinv hc
  exact return_node_miss_none hn hv hres hfetch rfl hn2 hdec

theorem node_ref_get_repeat_hit {s : State} {malloc_ok : Bool} {n : Nat} {k : node_ref_type}
    {zr : zone_read_t} {v : Option Nat}
    (h : node_ref_get malloc_ok s (some n) k zr = .ok (v, s)) (m : Nat) :
    node_ref_get_repeat malloc_ok (some n) k zr m s = .ok (List.replicate m v, s) := by
  induction m with
  | zero => rfl
  | succ m ih =>
    simp [node_ref_get_repeat, h, ih, bind, Except.bind, List.replicate_succ]

theorem node_ref_get_hit {chunk : Option Nat} {s : State} {zr : zone_read_t} {n p : Nat}
    {nx : zone_node_t} {x : node_ref_t} (malloc_ok : Bool) (k : node_ref_type)
    (hn : node_read s n = .ok nx)
    (hslot : slot_get nx (node_ref_get_slot k) = some p)
    (hp : ref_read s p = .ok x)
    (hv : x.flags &&& REF_VALID ≠ 0) :
    node_ref_get malloc_ok s (some n) k zr chunk = .ok (x.n, s) := by
  rw [node_ref_get_eq malloc_ok k zr hn]
  exact return_node_hit malloc_ok _ _ zr false hn hslot hp hv

/-- C2: cache hit.  Let `slot` be the slot of the kind `k` (`prev` for
`REF_PREVIOUS`, `parent` for `REF_PARENT`, `nsec3_node` for `REF_NSEC3`).  If
that slot of node `n` holds a reference whose valid bit is set, `node_ref_get`
returns the target of that reference and the state it returns is the state it
was called in: no slot, no reference object and not the call log has changed,
so the resolution function was not invoked.  The same holds for any number `m`
of calls in a row. -/
theorem C2_cache_hit_returns_target_and_changes_nothing (s : State) (zr : zone_read_t)
    (malloc_ok : Bool) (chunk : Option Nat) (n p : Nat) (k : node_ref_type) (slot : Slot)
    (nx : zone_node_t) (x : node_ref_t)
    (hk : (k = .REF_PREVIOUS ∧ slot = .prev) ∨ (k = .REF_PARENT ∧ slot = .parent) ∨
      (k = .REF_NSEC3 ∧ slot = .nsec3_node))
    (hn : node_read s n = .ok nx)
    (hslot : slot_get nx slot = some p)
    (hp : ref_read s p = .ok x)
    (hv : x.flags &&& REF_VALID ≠ 0) :
    node_ref_get malloc_ok s (some n) k zr chunk = .ok (x.n, s) ∧
    ∀ m, node_ref_get_repeat malloc_ok (some n) k zr m s = .ok (List.replicate m x.n, s) := by
  have hslot1 : slot_get nx (node_ref_get_slot k) = some p := by
    rcases hk with ⟨rfl, rfl⟩ | ⟨rfl, rfl⟩ | ⟨rfl, rfl⟩ <;> exact hslot
  exact ⟨node_ref_get_hit malloc_ok k hn hslot1 hp hv,
    node_ref_get_repeat_hit (node_ref_get_hit malloc_ok k hn hslot1 hp hv)⟩

/-- Witness of C2: `b.test.` holds the valid self reference of the apex in its
previous slot; and, in another state, in its parent slot while its previous
slot is absent. -/
theorem C2_cache_hit_returns_target_and_changes_nothing_witness :
    (node_ref_get true ex_state_hit (some 1) .REF_PREVIOUS ex_reader
        = .ok (some 0, ex_state_hit) ∧
      ∀ m, node_ref_get_repeat true (some 1) .REF_PREVIOUS ex_reader m ex_state_hit
        = .ok (List.replicate m (some 0), ex_state_hit)) ∧
    (node_ref_get true ex_state_hit_parent (some 1) .REF_PARENT ex_reader
        = .ok (some 0, ex_state_hit_parent) ∧
      ∀ m, node_ref_get_repeat true (some 1) .REF_PARENT ex_reader m ex_state_hit_parent
        = .ok (List.replicate m (some 0), ex_state_hit_parent)) :=
  ⟨C2_cache_hit_returns_target_and_changes_nothing ex_state_hit ex_reader true none 1 0
      .REF_PREVIOUS .prev { ex_node [[98], ex_test] [⟨16, [2]⟩] with prev := some 0 }
      ⟨some 0, 2, REF_VALID⟩ (Or.inl ⟨rfl, rfl⟩) rfl rfl rfl (by decide),
    C2_cache_hit_returns_target_and_changes_nothing ex_state_hit_parent ex_reader true none 1 0
      .REF_PARENT .parent { ex_node [[98], ex_test] [⟨16, [2]⟩] with parent := some 0 }
      ⟨some 0, 2, REF_VALID⟩ (Or.inr (Or.inl ⟨rfl, rfl⟩)) rfl rfl rfl (by decide)⟩

theorem node_ref_invalidate_spec {s0 s : State} {r : Nat}
    (h : node_ref_invalidate s0 (some r) = .ok s) :
    ∃ x0, ref_read s0 r = .ok x0 ∧
      s = ref_write s0 r (some { x0 with flags := x0.flags &&& (UINT32_MOD - 1 - REF_VALID) }) := by
  cases hx : ref_read s0 r with
  | error e => simp [node_ref_invalidate, hx, bind, Except.bind] at h
  | ok x0 =>
    simp only [node_ref_invalidate, hx, bind, Except.bind, Except.ok.injEq] at h
    exact ⟨x0, rfl, h.symm⟩

theorem node_ref_invalidate_clears {s0 s : State} {r : Nat} {x : node_ref_t}
    (h : node_ref_invalidate s0 (some r) = .ok s) (hr : ref_read s r = .ok x) :
    x.flags &&& REF_VALID = 0 := by
  obtain ⟨x0, hx0, hs⟩ := node_ref_invalidate_spec h
  subst hs
  rw [ref_read_ref_write_self _ (ref_read_lt hx0)] at hr
  simp only [Except.ok.injEq] at hr
  subst hr
  exact valid_bit_cleared x0.flags

theorem refs_get_ref_write_self {s : State} {r : Nat} (v : Option node_ref_t)
    (h : r < s.refs.length) : (ref_write s r v).refs[r]? = some v := by
  simp [ref_write, h]

theorem node_read_inj {s : State} {n : Nat} {a b : zone_node_t}
    (ha : node_read s n = .ok a) (hb : node_read s n = .ok b) : a = b := by
  have := ha.symm.trans hb
  simpa using this

theorem ref_read_inj {s : State} {r : Nat} {a b : node_ref_t}
    (ha : ref_read s r = .ok a) (hb : ref_read s r = .ok b) : a = b := by
  have := ha.symm.trans hb
  simpa using this

/-! ## Cache miss that resolves to a node, in general -/

theorem return_node_install {chunk : Option Nat} {s s2 : State} {n p : Nat} {k : Slot}
    {nx x2 : zone_node_t} {y : node_ref_t}
    {malloc_ok : Bool} {get_func : ref_get_t} {key : knot_dname_t} {zr : zone_read_t}
    {nsec3 : Bool} {target : Option Nat} {calls : List Call}
    (hn : node_read s n = .ok nx)
    (hv : node_ref_valid s (slot_get nx k) = .ok false)
    (hres : get_func s zr key nsec3 = .ok (target, calls))
    (hfetch : fetch_node_ref malloc_ok (log_calls s (Call.get_func key nsec3 :: calls)) target chunk
      = .ok (some p, s2))
    (hn2 : node_read s2 n = .ok x2) (hp : ref_read s2 p = .ok y)
    (hold : slot_get x2 k = none ∨
      ∃ r x, slot_get x2 k = some r ∧ ref_read s2 r = .ok x ∧ r ≠ p ∧
        x.flags &&& REF_VALID = 0 ∧ 0 < x.count) :
    ∃ s', return_node malloc_ok s n k get_func key zr nsec3 chunk = .ok (y.n, s') ∧
      s'.log = s2.log ∧
      node_read s' n = .ok (slot_set x2 k (some p)) ∧
      (∀ m, m ≠ n → node_read s' m = node_read s2 m) ∧
      ref_read s' p = .ok (ref_inc_cell y) ∧
      (∀ r x, slot_get x2 k = some r → ref_read s2 r = .ok x →
        s'.refs[r]? = some (ref_dec_cell x)) ∧
      (∀ q, q ≠ p → slot_get x2 k ≠ some q → ref_read s' q = ref_read s2 q) := by
  have hnlt := node_read_lt hn2
  have hplt := ref_read_lt hp
  rcases hold with hnone | ⟨r, x, hsome, hr, hrp, hinv, hc⟩
  · refine ⟨_, return_node_install_some hn hv hres hfetch hn2 hp hnone, rfl, ?_, ?_, ?_, ?_, ?_⟩
    · exact node_read_node_write_self _ (by simpa using hnlt)
    · intro m hm
      rw [node_read_node_write_ne _ (Ne.symm hm), node_read_ref_write]
    · rw [ref_read_node_write]; exact ref_read_ref_write_self _ hplt
    · intro r x h
      rw [hnone] at h
      cases h
    · intro q hq _
      rw [ref_read_node_write, ref_read_ref_write_ne _ (Ne.symm hq)]
  · refine ⟨_, return_node_install_some_old hn hv hres hfetch hn2 hp hsome hr hrp hinv hc, rfl,
      ?_, ?_, ?_, ?_, ?_⟩
    · rw [node_read_ref_write]
      exact node_read_node_write_self _ (by simpa using hnlt)
    · intro m hm
      rw [node_read_ref_write, node_read_node_write_ne _ (Ne.symm hm), node_read_ref_write]
    · rw [ref_read_ref_write_ne _ hrp, ref_read_node_write]
      exact ref_read_ref_write_self _ hplt
    · intro r' x' h hr'
      rw [hsome] at h
      cases h
      have hxx := ref_read_inj hr hr'
      subst hxx
      exact refs_get_ref_write_self _ (by simpa using ref_read_lt hr)
    · intro q hq hqr
      have hrq : r ≠ q := fun h => hqr (by rw [hsome, h])
      rw [ref_read_ref_write_ne _ hrq, ref_read_node_write, ref_read_ref_write_ne _ (Ne.symm hq)]

theorem node_ref_get_some {chunk : Option Nat}
    {s : State} {n t : Nat} {nx tx : zone_node_t} {k : node_ref_type}
    {zr : zone_read_t} {calls : List Call} {malloc_ok : Bool}
    (hn : node_read s n = .ok nx)
    (hold : slot_get nx (node_ref_get_slot k) = none ∨
      ∃ r x, slot_get nx (node_ref_get_slot k) = some r ∧ ref_read s r = .ok x ∧
        x.flags &&& REF_VALID = 0 ∧ 0 < x.count)
    (hres : node_ref_get_func k s zr nx.owner false = .ok (some t, calls))
    (ht : node_read s t = .ok tx)
    (hself : (tx.self_ref = none ∧ malloc_ok = true) ∨
      (∃ q y, tx.self_ref = some q ∧ ref_read s q = .ok y ∧ y.flags &&& REF_VALID ≠ 0 ∧
        y.n = some t)) :
    ∃ s' q y', node_ref_get malloc_ok s (some n) k zr chunk = .ok (some t, s') ∧
      s'.log = s.log ++ Call.get_func nx.owner false :: calls ∧
      (∃ nx', node_read s' n = .ok nx' ∧ slot_get nx' (node_ref_get_slot k) = some q) ∧
      (∃ tx', node_read s' t = .ok tx' ∧ tx'.self_ref = some q) ∧
      ref_read s' q = .ok y' ∧ y'.n = some t ∧ y'.flags &&& REF_VALID ≠ 0 ∧
      (∀ r x, slot_get nx (node_ref_get_slot k) = some r → ref_read s r = .ok x →
        q ≠ r ∧ s'.refs[r]? = some (ref_dec_cell x)) := by
  have hv : node_ref_valid s (slot_get nx (node_ref_get_slot k)) = .ok false := by
    rcases hold with hnone | ⟨r, x, hsome, hr, hinv, _⟩
    · rw [hnone]; rfl
    · rw [hsome]; exact node_ref_valid_of_invalid hr hinv
  have hnlt := node_read_lt hn
  have htlt := node_read_lt ht
  let s1 := log_calls s (Call.get_func nx.owner false :: calls)
  rcases hself with ⟨hnone, hm⟩ | ⟨q, y, hsome, hq, hyv, hyn⟩
  · subst hm
    let q := malloc_addr s chunk
    let r1 : node_ref_t := { n := some t, count := 1, flags := REF_VALID }
    let tx1 : zone_node_t := { tx with self_ref := some q }
    let s2 := node_write (ref_store_new s1 r1 chunk) t tx1
    have hfetch : fetch_node_ref true s1 (some t) chunk = .ok (some q, s2) :=
      fetch_node_ref_new_at (s := s1) chunk ht hnone
    have hq2 : ref_read s2 q = .ok r1 := by
      show ref_read (node_write _ _ _) _ = _
      rw [ref_read_node_write]
      exact ref_read_ref_store_new_self s1 r1 chunk
    have hrefs2 : ∀ r, r ≠ q → ref_read s2 r = ref_read s r := by
      intro r hrq
      show ref_read (node_write _ _ _) _ = _
      rw [ref_read_node_write, ref_read_ref_store_new_ne (s := s1) r1 chunk hrq]
      rfl
    have ht2 : node_read s2 t = .ok tx1 := node_read_node_write_self _ (by simpa using htlt)
    have hvalid : (ref_inc_cell r1).flags &&& REF_VALID ≠ 0 := by
      simp [ref_inc_cell, r1, REF_VALID]
    have hx2 : ∃ x2, node_read s2 n = .ok x2 ∧
        slot_get x2 (node_ref_get_slot k) = slot_get nx (node_ref_get_slot k) ∧
        (n = t → x2.self_ref = some q) := by
      by_cases hnt : n = t
      · subst hnt
        have hxx : nx = tx := node_read_inj hn ht
        subst hxx
        exact ⟨tx1, ht2, by cases k <;> rfl, fun _ => rfl⟩
      · refine ⟨nx, ?_, rfl, fun h => absurd h hnt⟩
        show node_read (node_write _ _ _) _ = _
        rw [node_read_node_write_ne _ (Ne.symm hnt), node_read_ref_store_new]
        exact hn
    obtain ⟨x2, hn2, hslot2, hself2⟩ := hx2
    have hold2 : slot_get x2 (node_ref_get_slot k) = none ∨
        ∃ r x, slot_get x2 (node_ref_get_slot k) = some r ∧ ref_read s2 r = .ok x ∧ r ≠ q ∧
          x.flags &&& REF_VALID = 0 ∧ 0 < x.count := by
      rcases hold with hnone | ⟨r, x, hsome, hr, hinv, hc⟩
      · exact Or.inl (hslot2.trans hnone)
      · have hrq : r ≠ q := by
          intro h
          rw [h] at hr
          exact malloc_addr_not_live s chunk x hr
        exact Or.inr ⟨r, x, hslot2.trans hsome, (hrefs2 r hrq).trans hr, hrq, hinv, hc⟩
    obtain ⟨s', hret, hlog, hn', hnodes', hq', hdec', _⟩ :=
      return_node_install hn hv hres hfetch hn2 hq2 hold2
    have hlog2 : s2.log = s.log ++ Call.get_func nx.owner false :: calls := by
      show (node_write (ref_store_new s1 r1 chunk) t tx1).log = _
      simp [node_write, s1, log_calls]
    refine ⟨s', q, ref_inc_cell r1, ?_, hlog.trans hlog2, ⟨_, hn', slot_get_slot_set _ _ _⟩, ?_,
      hq', rfl, hvalid, ?_⟩
    · rw [node_ref_get_eq true k zr hn, hret]
    · by_cases hnt : n = t
      · subst hnt
        exact ⟨_, hn', by simpa using hself2 rfl⟩
      · exact ⟨tx1, by rw [hnodes' t (Ne.symm hnt)]; exact ht2, rfl⟩
    · intro r x hsome hr
      have hrq : r ≠ q := by
        intro h
        rw [h] at hr
        exact malloc_addr_not_live s chunk x hr
      exact ⟨Ne.symm hrq, hdec' r x (hslot2.trans hsome) ((hrefs2 r hrq).trans hr)⟩
  · have hyb : (y.flags &&& REF_VALID != 0) = true := by simpa using hyv
    have hfetch : fetch_node_ref malloc_ok s1 (some t) chunk = .ok (some q, s1) := by
      rw [fetch_node_ref_existing malloc_ok (s := s1) ht hsome hq, if_pos hyb]
    have hne : ∀ r x, ref_read s r = .ok x → x.flags &&& REF_VALID = 0 → r ≠ q := by
      intro r x hr hinv h
      subst h
      have := ref_read_inj hr hq
      subst this
      exact hyv hinv
    have hold2 : slot_get nx (node_ref_get_slot k) = none ∨
        ∃ r x, slot_get nx (node_ref_get_slot k) = some r ∧ ref_read s1 r = .ok x ∧ r ≠ q ∧
          x.flags &&& REF_VALID = 0 ∧ 0 < x.count := by
      rcases hold with hnone | ⟨r, x, hsome, hr, hinv, hc⟩
      · exact Or.inl hnone
      · exact Or.inr ⟨r, x, hsome, hr, hne r x hr hinv, hinv, hc⟩
    have hvalid : (ref_inc_cell y).flags &&& REF_VALID ≠ 0 := hyv
    have hn1 : node_read s1 n = .ok nx := hn
    have hq1 : ref_read s1 q = .ok y := hq
    obtain ⟨s', hret, hlog, hn', hnodes', hq', hdec', _⟩ :=
      return_node_install hn hv hres hfetch hn1 hq1 hold2
    refine ⟨s', q, ref_inc_cell y, ?_, hlog, ⟨_, hn', slot_get_slot_set _ _ _⟩, ?_, hq', hyn,
      hvalid, ?_⟩
    · rw [node_ref_get_eq malloc_ok k zr hn, hret, hyn]
    · by_cases hnt : n = t
      · subst hnt
        have hxx : nx = tx := node_read_inj hn ht
        subst hxx
        exact ⟨_, hn', by simpa using hsome⟩
      · exact ⟨tx, by rw [hnodes' t (Ne.symm hnt)]; exact ht, hsome⟩
    · intro r x hsome' hr
      rcases hold with hnone | ⟨r0, x0, hsome0, hr0, hinv0, _⟩
      · rw [hnone] at hsome'
        cases hsome'
      · rw [hsome0] at hsome'
        cases hsome'
        have hxx := ref_read_inj hr0 hr
        subst hxx
        exact ⟨Ne.symm (hne r x0 hr0 hinv0), hdec' r x0 hsome0 hr⟩

/-! ## Invalidated references -/

theorem node_ref_invalidate_of_read {sb : State} {r : Nat} {xb : node_ref_t}
    (h : ref_read sb r = .ok xb) :
    ∃ sa, node_ref_invalidate sb (some r) = .ok sa ∧ node_ref_valid sa (some r) = .ok false := by
  refine ⟨ref_write sb r
    (some { xb with flags := xb.flags &&& (UINT32_MOD - 1 - REF_VALID) }), ?_, ?_⟩
  · simp [node_ref_invalidate, h, bind, Except.bind]
  · exact node_ref_valid_of_invalid (ref_read_ref_write_self _ (ref_read_lt h))
      (valid_bit_cleared xb.flags)

/-- C3 (as amended): an invalidated reference is never returned as a cache
hit.  `node_ref_invalidate` on a live reference returns and leaves
`node_ref_valid` false for it.  Let the slot of kind `k` of node `n` hold a
reference `r` whose valid bit is clear and which is counted at least once.
Then `node_ref_valid r` is false, and if the resolution function yields a node
`t` whose self reference is absent (and the allocation of a new one succeeds)
or valid (and targets `t`), `node_ref_get` invokes the resolution function,
returns `t`, installs the self reference of `t` (a reference other than `r`)
in the slot, and takes exactly one count from `r`, freeing it at zero. -/
theorem C3_invalidated_reference_is_resolved_again (s : State) (zr : zone_read_t)
    (malloc_ok : Bool) (n r t : Nat) (k : node_ref_type) (nx tx : zone_node_t) (x : node_ref_t)
    (calls : List Call)
    (hn : node_read s n = .ok nx)
    (hslot : slot_get nx (node_ref_get_slot k) = some r)
    (hr : ref_read s r = .ok x)
    (hxinv : x.flags &&& REF_VALID = 0)
    (hc : 0 < x.count)
    (hres : node_ref_get_func k s zr nx.owner false = .ok (some t, calls))
    (ht : node_read s t = .ok tx)
    (hself : (tx.self_ref = none ∧ malloc_ok = true) ∨
      (∃ q y, tx.self_ref = some q ∧ ref_read s q = .ok y ∧ y.flags &&& REF_VALID ≠ 0 ∧
        y.n = some t)) :
    (∀ sb xb, ref_read sb r = .ok xb →
      ∃ sa, node_ref_invalidate sb (some r) = .ok sa ∧
        node_ref_valid sa (some r) = .ok false) ∧
    node_ref_valid s (some r) = .ok false ∧
    ∃ s' q y', node_ref_get malloc_ok s (some n) k zr = .ok (some t, s') ∧
      s'.log = s.log ++ Call.get_func nx.owner false :: calls ∧
      q ≠ r ∧
      (∃ nx', node_read s' n = .ok nx' ∧ slot_get nx' (node_ref_get_slot k) = some q) ∧
      (∃ tx', node_read s' t = .ok tx' ∧ tx'.self_ref = some q) ∧
      ref_read s' q = .ok y' ∧ y'.n = some t ∧ y'.flags &&& REF_VALID ≠ 0 ∧
      s'.refs[r]? = some (ref_dec_cell x) := by
  refine ⟨fun sb xb h => node_ref_invalidate_of_read h, node_ref_valid_of_invalid hr hxinv, ?_⟩
  obtain ⟨s', q, y', hget, hlog, hslot', hself', hq', hyn, hyv, hold'⟩ :=
    node_ref_get_some hn (Or.inr ⟨r, x, hslot, hr, hxinv, hc⟩) hres ht hself
  exact ⟨s', q, y', hget, hlog, (hold' r x hslot hr).1, hslot', hself', hq', hyn, hyv,
    (hold' r x hslot hr).2⟩

/-- Witness of C3 (as amended): `g.test.` holds the self reference of
`e.test.`, invalidated by `node_ref_invalidate`, and resolves its new previous
node `f.test.`. -/
theorem C3_invalidated_reference_is_resolved_again_witness :
    (∃ sa, node_ref_invalidate ex_state_stale0 (some 0) = .ok sa ∧
      node_ref_valid sa (some 0) = .ok false) ∧
    node_ref_valid ex_state_stale (some 0) = .ok false ∧
    ∃ s' q y', node_ref_get true ex_state_stale (some 3) .REF_PREVIOUS ex_reader_f
        = .ok (some 4, s') ∧
      s'.log = ex_state_stale.log ++ Call.get_func [[103], ex_test] false ::
        [Call.previous_for_type [[103], ex_test] KNOT_RRTYPE_ANY] ∧
      q ≠ 0 ∧
      (∃ nx', node_read s' 3 = .ok nx' ∧ slot_get nx' (node_ref_get_slot .REF_PREVIOUS) = some q) ∧
      (∃ tx', node_read s' 4 = .ok tx' ∧ tx'.self_ref = some q) ∧
      ref_read s' q = .ok y' ∧ y'.n = some 4 ∧ y'.flags &&& REF_VALID ≠ 0 ∧
      s'.refs[0]? = some (ref_dec_cell ⟨some 2, 2, 0⟩) :=
  have h := C3_invalidated_reference_is_resolved_again ex_state_stale ex_reader_f true
    3 0 4 .REF_PREVIOUS { ex_node [[103], ex_test] [⟨16, [2]⟩] with prev := some 0 }
    (ex_node [[102], ex_test] [⟨16, [2]⟩]) ⟨some 2, 2, 0⟩
    [Call.previous_for_type [[103], ex_test] KNOT_RRTYPE_ANY]
    rfl rfl rfl (by decide) (by decide) rfl rfl (Or.inl ⟨rfl, rfl⟩)
  ⟨h.1 ex_state_stale0 ⟨some 2, 2, REF_VALID⟩ rfl, h.2⟩

/-- Counterexample to C3 as stated: the slot of `g.test.` holds the invalidated
reference, the resolution function yields `f.test.`, a node without self
reference, and `malloc` fails: `node_ref_get` returns `NULL`, not `f.test.`. -/
theorem C3_counterexample_malloc_failure :
    node_ref_invalidate ex_state_stale0 (some 0) = .ok ex_state_stale ∧
    node_ref_get_func .REF_PREVIOUS ex_state_stale ex_reader_f [[103], ex_test] false
      = .ok (some 4, [Call.previous_for_type [[103], ex_test] KNOT_RRTYPE_ANY]) ∧
    (node_read ex_state_stale 4).map (fun x => x.self_ref) = .ok none ∧
    (node_ref_get false ex_state_stale (some 3) .REF_PREVIOUS ex_reader_f).map Prod.fst
      = .ok none := by
  decide

/-! ## Empty resolution results -/

theorem node_ref_get_none_absent {chunk : Option Nat}
    {s : State} {n : Nat} {nx : zone_node_t} {k : node_ref_type}
    {zr : zone_read_t} {calls : List Call} (malloc_ok : Bool)
    (hn : node_read s n = .ok nx)
    (hslot : slot_get nx (node_ref_get_slot k) = none)
    (hres : node_ref_get_func k s zr nx.owner false = .ok (none, calls)) :
    node_ref_get malloc_ok s (some n) k zr chunk =
      .ok (none, node_write (log_calls s (Call.get_func nx.owner false :: calls)) n
        (slot_set nx (node_ref_get_slot k) none)) := by
  rw [node_ref_get_eq malloc_ok k zr hn]
  exact return_node_install_none hn (by rw [hslot]; rfl) hres (fetch_node_ref_null _ _) hn hslot

theorem node_ref_get_none_old {chunk : Option Nat}
    {s : State} {n r : Nat} {nx : zone_node_t} {x : node_ref_t}
    {k : node_ref_type} {zr : zone_read_t} {calls : List Call} (malloc_ok : Bool)
    (hn : node_read s n = .ok nx)
    (hslot : slot_get nx (node_ref_get_slot k) = some r)
    (hr : ref_read s r = .ok x) (hinv : x.flags &&& REF_VALID = 0) (hc : 0 < x.count)
    (hres : node_ref_get_func k s zr nx.owner false = .ok (none, calls)) :
    node_ref_get malloc_ok s (some n) k zr chunk =
      .ok (none, ref_write (node_write (log_calls s (Call.get_func nx.owner false :: calls)) n
        (slot_set nx (node_ref_get_slot k) none)) r (ref_dec_cell x)) := by
  rw [node_ref_get_eq malloc_ok k zr hn]
  exact return_node_install_none_old hn
    (by rw [hslot]; exact node_ref_valid_of_invalid hr hinv) hres (fetch_node_ref_null _ _)
    hn hslot hr hinv hc

theorem node_rdataset_of_nodes_eq {s s1 : State} (h : s1.nodes = s.nodes) (a : Option Nat)
    (ty : Nat) : node_rdataset s1 a ty = node_rdataset s a ty := by
  cases a with
  | none => rfl
  | some p => simp [node_rdataset, node_read_of_nodes_eq h]

theorem node_rdataset_node_write_slot_set {s : State} {n : Nat} {nx : zone_node_t}
    (hn : node_read s n = .ok nx) (k : Slot) (v : Option Nat) (a : Option Nat) (ty : Nat) :
    node_rdataset (node_write s n (slot_set nx k v)) a ty = node_rdataset s a ty := by
  cases a with
  | none => rfl
  | some p =>
    by_cases hp : n = p
    · subst hp
      simp [node_rdataset, node_read_node_write_self _ (node_read_lt hn), hn, bind, Except.bind]
    · simp [node_rdataset, node_read_node_write_ne _ hp]

theorem node_ref_get_func_congr {s s1 : State} {zr : zone_read_t}
    (h : node_rdataset s1 zr.zone_read_apex KNOT_RRTYPE_NSEC3PARAM
      = node_rdataset s zr.zone_read_apex KNOT_RRTYPE_NSEC3PARAM)
    (k : node_ref_type) (owner : knot_dname_t) (nsec3 : Bool) :
    node_ref_get_func k s1 zr owner nsec3 = node_ref_get_func k s zr owner nsec3 := by
  cases k with
  | REF_PREVIOUS => rfl
  | REF_PARENT => rfl
  | REF_NSEC3 => simp only [node_ref_get_func, get_nsec3, h]

theorem node_ref_get_none_twice (s : State) (zr : zone_read_t) (malloc_ok : Bool)
    (chunk chunk1 : Option Nat)
    (n : Nat) (k : node_ref_type) (nx : zone_node_t) (calls : List Call)
    (hn : node_read s n = .ok nx)
    (hold : slot_get nx (node_ref_get_slot k) = none ∨
      ∃ r x, slot_get nx (node_ref_get_slot k) = some r ∧ ref_read s r = .ok x ∧
        x.flags &&& REF_VALID = 0 ∧ 0 < x.count)
    (hres : node_ref_get_func k s zr nx.owner false = .ok (none, calls)) :
    ∃ s1 s2, node_ref_get malloc_ok s (some n) k zr chunk = .ok (none, s1) ∧
      s1.log = s.log ++ Call.get_func nx.owner false :: calls ∧
      (∃ nx1, node_read s1 n = .ok nx1 ∧ slot_get nx1 (node_ref_get_slot k) = none) ∧
      node_ref_get malloc_ok s1 (some n) k zr chunk1 = .ok (none, s2) ∧
      s2.log = s1.log ++ Call.get_func nx.owner false :: calls ∧
      (∃ nx2, node_read s2 n = .ok nx2 ∧ slot_get nx2 (node_ref_get_slot k) = none) := by
  have hnlt := node_read_lt hn
  let sl := log_calls s (Call.get_func nx.owner false :: calls)
  let nx1 := slot_set nx (node_ref_get_slot k) none
  let sw := node_write sl n nx1
  have hnw : node_read sw n = .ok nx1 := node_read_node_write_self _ hnlt
  have hrdw : node_rdataset sw zr.zone_read_apex KNOT_RRTYPE_NSEC3PARAM
      = node_rdataset s zr.zone_read_apex KNOT_RRTYPE_NSEC3PARAM := by
    rw [node_rdataset_node_write_slot_set (s := sl) hn]
    exact node_rdataset_of_nodes_eq rfl _ _
  have hsecond : ∀ s1 : State, s1.nodes = sw.nodes →
      node_ref_get malloc_ok s1 (some n) k zr chunk1 = .ok (none,
        node_write (log_calls s1 (Call.get_func nx.owner false :: calls)) n
          (slot_set nx1 (node_ref_get_slot k) none)) := by
    intro s1 hs1
    have hn1 : node_read s1 n = .ok nx1 := by rw [node_read_of_nodes_eq hs1]; exact hnw
    have hres1 : node_ref_get_func k s1 zr nx1.owner false = .ok (none, calls) := by
      rw [node_ref_get_func_congr ((node_rdataset_of_nodes_eq hs1 _ _).trans hrdw)]
      simpa [nx1] using hres
    have h := @node_ref_get_none_absent chunk1 _ _ _ _ _ _ malloc_ok hn1
      (slot_get_slot_set _ _ _) hres1
    simpa [nx1] using h
  rcases hold with hnone | ⟨r, x, hsome, hr, hinv, hc⟩
  · refine ⟨sw, node_write (log_calls sw (Call.get_func nx.owner false :: calls)) n
      (slot_set nx1 (node_ref_get_slot k) none), ?_, rfl, ⟨nx1, hnw, slot_get_slot_set _ _ _⟩,
      hsecond sw rfl, rfl, ⟨_, node_read_node_write_self _ (node_read_lt hnw), slot_get_slot_set _ _ _⟩⟩
    exact node_ref_get_none_absent malloc_ok hn hnone hres
  · let s1 := ref_write sw r (ref_dec_cell x)
    have hn1 : node_read s1 n = .ok nx1 := hnw
    refine ⟨s1, node_write (log_calls s1 (Call.get_func nx.owner false :: calls)) n
      (slot_set nx1 (node_ref_get_slot k) none), ?_, rfl, ⟨nx1, hn1, slot_get_slot_set _ _ _⟩,
      hsecond s1 rfl, rfl, ⟨_, node_read_node_write_self _ (node_read_lt hn1), slot_get_slot_set _ _ _⟩⟩
    exact node_ref_get_none_old malloc_ok hn hsome hr hinv hc hres

/-- C4 (as amended): an empty resolution result is not cached.  Let `slot` be
the slot of the kind `k` (`prev` for `REF_PREVIOUS`, `parent` for
`REF_PARENT`, `nsec3_node` for `REF_NSEC3`) and `get_func` the resolution
function of `k` (`get_prev`, `get_parent`, `get_nsec3`).  If that slot of node
`n` is absent, or holds an invalid reference counted at least once, and the
resolution function yields no node, then `node_ref_get` returns `NULL` and
leaves the slot `NULL`; an immediately following `node_ref_get` finds the slot
absent, invokes the resolution function again (the call log grows by that
invocation and its external calls) and returns `NULL` again. -/
theorem C4_empty_result_is_resolved_again (s : State) (zr : zone_read_t) (malloc_ok : Bool)
    (chunk chunk1 : Option Nat) (n : Nat) (k : node_ref_type) (slot : Slot)
    (get_func : ref_get_t) (nx : zone_node_t) (calls : List Call)
    (hk : (k = .REF_PREVIOUS ∧ slot = .prev ∧ get_func = get_prev) ∨
      (k = .REF_PARENT ∧ slot = .parent ∧ get_func = get_parent) ∨
      (k = .REF_NSEC3 ∧ slot = .nsec3_node ∧ get_func = get_nsec3))
    (hn : node_read s n = .ok nx)
    (hold : slot_get nx slot = none ∨
      ∃ r x, slot_get nx slot = some r ∧ ref_read s r = .ok x ∧
        x.flags &&& REF_VALID = 0 ∧ 0 < x.count)
    (hres : get_func s zr nx.owner false = .ok (none, calls)) :
    ∃ s1 s2, node_ref_get malloc_ok s (some n) k zr chunk = .ok (none, s1) ∧
      s1.log = s.log ++ Call.get_func nx.owner false :: calls ∧
      (∃ nx1, node_read s1 n = .ok nx1 ∧ slot_get nx1 slot = none) ∧
      node_ref_get malloc_ok s1 (some n) k zr chunk1 = .ok (none, s2) ∧
      s2.log = s1.log ++ Call.get_func nx.owner false :: calls ∧
      (∃ nx2, node_read s2 n = .ok nx2 ∧ slot_get nx2 slot = none) := by
  rcases hk with ⟨rfl, rfl, rfl⟩ | ⟨rfl, rfl, rfl⟩ | ⟨rfl, rfl, rfl⟩
  · exact node_ref_get_none_twice s zr malloc_ok chunk chunk1 n .REF_PREVIOUS nx calls hn hold
      hres
  · exact node_ref_get_none_twice s zr malloc_ok chunk chunk1 n .REF_PARENT nx calls hn hold
      hres
  · exact node_ref_get_none_twice s zr malloc_ok chunk chunk1 n .REF_NSEC3 nx calls hn hold
      hres

/-- Witness of C4 (as amended): the NSEC3 counterpart of `b.test.` in the zone
of the example, which has no NSEC3 parameters, in the state in which the
previous slot of `b.test.` holds a valid reference to the apex. -/
theorem C4_empty_result_is_resolved_again_witness :
    ∃ s1 s2, node_ref_get true ex_state_hit (some 1) .REF_NSEC3 ex_reader = .ok (none, s1) ∧
      s1.log = ex_state_hit.log ++ Call.get_func [[98], ex_test] false :: [Call.read_apex] ∧
      (∃ nx1, node_read s1 1 = .ok nx1 ∧ slot_get nx1 .nsec3_node = none) ∧
      node_ref_get true s1 (some 1) .REF_NSEC3 ex_reader = .ok (none, s2) ∧
      s2.log = s1.log ++ Call.get_func [[98], ex_test] false :: [Call.read_apex] ∧
      (∃ nx2, node_read s2 1 = .ok nx2 ∧ slot_get nx2 .nsec3_node = none) :=
  C4_empty_result_is_resolved_again ex_state_hit ex_reader true none none 1 .REF_NSEC3
    .nsec3_node get_nsec3 { ex_node [[98], ex_test] [⟨16, [2]⟩] with prev := some 0 }
    [Call.read_apex] (Or.inr (Or.inr ⟨rfl, rfl, rfl⟩)) rfl (Or.inl rfl) rfl

/-- Counterexample to C4 as stated: in the example zone (no NSEC3 parameters)
the NSEC3 counterpart of the apex resolves to `NULL`; the immediately following
`node_ref_get` is not a cache hit, the resolution function is invoked a second
time, as the call log after the two calls shows. -/
theorem C4_counterexample_second_call_resolves_again :
    (node_ref_get true ex_state (some 0) .REF_NSEC3 ex_reader).map Prod.fst = .ok none ∧
    ((node_ref_get true ex_state (some 0) .REF_NSEC3 ex_reader).bind
        (fun r => node_ref_get true r.2 (some 0) .REF_NSEC3 ex_reader)).map
        (fun r => (r.1, r.2.log))
      = .ok (none, [Call.get_func [ex_test] false, Call.read_apex,
          Call.get_func [ex_test] false, Call.read_apex]) := by
  decide

/-! ## Parent resolution -/

theorem get_parent_of_non_root_non_apex (s : State) (zr : zone_read_t) (owner : knot_dname_t)
    (nsec3 : Bool) (hroot : owner ≠ []) (hapex : zr.zone_name ≠ owner) :
    get_parent s zr owner nsec3 = .ok (none, []) := by
  have h1 : owner.isEmpty = false := by
    cases owner with
    | nil => exact absurd rfl hroot
    | cons a l => rfl
  have h2 : knot_dname_is_equal zr.zone_name owner = false := by
    simp [knot_dname_is_equal, hapex]
  simp [get_parent, h1, h2]

theorem get_parent_of_non_root_apex (s : State) (zr : zone_read_t) (label : List Nat)
    (rest : knot_dname_t) (nsec3 : Bool) (hapex : zr.zone_name = label :: rest) :
    get_parent s zr (label :: rest) nsec3 =
      .ok (zr.zone_read_node_for_type rest KNOT_RRTYPE_ANY,
        [Call.wire_next_label (label :: rest), Call.node_for_type rest KNOT_RRTYPE_ANY]) := by
  simp [get_parent, knot_dname_is_equal, hapex, knot_wire_next_label]

/-- C5 (the code at the failing input): in the example zone `test.` the node
`b.test.` is not the apex, stripping its leftmost label gives `test.`, and the
zone reader finds the apex for that name; yet `get_parent` returns no node
without consulting the reader, and `node_ref_get` with `REF_PARENT` returns `NULL`. -/
theorem C5_parent_of_non_apex_node_is_null :
    knot_dname_is_equal ex_reader.zone_name [[98], ex_test] = false ∧
    knot_wire_next_label [[98], ex_test] = some [ex_test] ∧
    ex_reader.zone_read_node_for_type [ex_test] KNOT_RRTYPE_ANY = some 0 ∧
    get_parent ex_state ex_reader [[98], ex_test] false = .ok (none, []) ∧
    (node_ref_get true ex_state (some 1) .REF_PARENT ex_reader).map Prod.fst = .ok none := by
  decide

/-- C6 (the code at the failing input): in the example zone `test.`, whose apex
name is not the root name, `get_parent` of the apex strips the leftmost label
and asks the zone reader for the root name; `node_ref_get` returns what the
reader answers (here `NULL`, the reader has no such node), and the call log
records the stripped label and the lookup. -/
theorem C6_parent_of_non_root_apex_consults_reader :
    knot_dname_is_equal ex_reader.zone_name [ex_test] = true ∧
    get_parent ex_state ex_reader [ex_test] false =
      .ok (ex_reader.zone_read_node_for_type [] KNOT_RRTYPE_ANY,
        [Call.wire_next_label [ex_test], Call.node_for_type [] KNOT_RRTYPE_ANY]) ∧
    (node_ref_get true ex_state (some 0) .REF_PARENT ex_reader).map (fun r => (r.1, r.2.log))
      = .ok (none, [Call.get_func [ex_test] false, Call.wire_next_label [ex_test],
          Call.node_for_type [] KNOT_RRTYPE_ANY]) := by
  decide

/-! ## NSEC3 counterpart -/

theorem get_nsec3_without_params {s : State} {zr : zone_read_t} (owner : knot_dname_t)
    (nsec3 : Bool)
    (h : node_rdataset s zr.zone_read_apex KNOT_RRTYPE_NSEC3PARAM = .ok none) :
    get_nsec3 s zr owner nsec3 = .ok (none, [Call.read_apex]) := by
  simp [get_nsec3, h, bind, Except.bind]

theorem get_nsec3_with_params {s : State} {zr : zone_read_t} {params : List Nat}
    (owner : knot_dname_t) (nsec3 : Bool)
    (h : node_rdataset s zr.zone_read_apex KNOT_RRTYPE_NSEC3PARAM = .ok (some params)) :
    get_nsec3 s zr owner nsec3 =
      .ok ((zr.knot_create_nsec3_owner owner zr.zone_name params).bind
          (fun hashed => zr.zone_read_node_for_type hashed KNOT_RRTYPE_NSEC3),
        Call.read_apex :: Call.create_nsec3_owner owner zr.zone_name params ::
          (match zr.knot_create_nsec3_owner owner zr.zone_name params with
           | some hashed => [Call.node_for_type hashed KNOT_RRTYPE_NSEC3]
           | none => [])) := by
  simp only [get_nsec3, h, bind, Except.bind]
  cases zr.knot_create_nsec3_owner owner zr.zone_name params <;> rfl

theorem node_ref_get_none {chunk : Option Nat}
    {s : State} {n : Nat} {nx : zone_node_t} {k : node_ref_type}
    {zr : zone_read_t} {calls : List Call} (malloc_ok : Bool)
    (hn : node_read s n = .ok nx)
    (hold : slot_get nx (node_ref_get_slot k) = none ∨
      ∃ r x, slot_get nx (node_ref_get_slot k) = some r ∧ ref_read s r = .ok x ∧
        x.flags &&& REF_VALID = 0 ∧ 0 < x.count)
    (hres : node_ref_get_func k s zr nx.owner false = .ok (none, calls)) :
    ∃ s1, node_ref_get malloc_ok s (some n) k zr chunk = .ok (none, s1) ∧
      s1.log = s.log ++ Call.get_func nx.owner false :: calls ∧
      ∃ nx1, node_read s1 n = .ok nx1 ∧ slot_get nx1 (node_ref_get_slot k) = none := by
  have hnlt := node_read_lt hn
  rcases hold with hnone | ⟨r, x, hsome, hr, hinv, hc⟩
  · exact ⟨_, node_ref_get_none_absent malloc_ok hn hnone hres, rfl, _,
      node_read_node_write_self _ hnlt, slot_get_slot_set _ _ _⟩
  · refine ⟨_, node_ref_get_none_old malloc_ok hn hsome hr hinv hc hres, rfl,
      slot_set nx (node_ref_get_slot k) none, ?_, slot_get_slot_set _ _ _⟩
    rw [node_read_ref_write]
    exact node_read_node_write_self _ hnlt

/-- C7 (as amended): NSEC3 counterpart.  Let the NSEC3 slot of node `n` (the
field `nsec3_node`) be absent, or hold an invalid reference counted at least
once.  If the apex carries no NSEC3PARAM record set, `node_ref_get` with
`REF_NSEC3` returns `NULL` (no fault), leaves the slot `NULL`, and the call log
grows by the invocation of the resolution function and its reading of the apex
only: neither the NSEC3 hashing nor a node lookup is called.  If the apex
carries NSEC3PARAM with record data `params`, the resolution function
`get_nsec3` yields the node the reader finds for type NSEC3 under the hashed
owner name, and no node if hashing fails; when it yields no node,
`node_ref_get` returns `NULL` and leaves the slot `NULL`; when it yields a node
`t` whose self reference is valid and targets `t`, or which has no self
reference while the allocation of one succeeds, `node_ref_get` returns `t` and
the NSEC3 slot holds a valid reference to `t`. -/
theorem C7_nsec3_counterpart (s : State) (zr : zone_read_t) (malloc_ok : Bool)
    (chunk : Option Nat) (n : Nat) (nx : zone_node_t)
    (hn : node_read s n = .ok nx)
    (hold : nx.nsec3_node = none ∨
      ∃ r x, nx.nsec3_node = some r ∧ ref_read s r = .ok x ∧
        x.flags &&& REF_VALID = 0 ∧ 0 < x.count) :
    (node_rdataset s zr.zone_read_apex KNOT_RRTYPE_NSEC3PARAM = .ok none →
      ∃ s1, node_ref_get malloc_ok s (some n) .REF_NSEC3 zr chunk = .ok (none, s1) ∧
        s1.log = s.log ++ [Call.get_func nx.owner false, Call.read_apex] ∧
        ∃ nx1, node_read s1 n = .ok nx1 ∧ nx1.nsec3_node = none) ∧
    (∀ params, node_rdataset s zr.zone_read_apex KNOT_RRTYPE_NSEC3PARAM = .ok (some params) →
      (get_nsec3 s zr nx.owner false).map Prod.fst =
        .ok ((zr.knot_create_nsec3_owner nx.owner zr.zone_name params).bind
          (fun hashed => zr.zone_read_node_for_type hashed KNOT_RRTYPE_NSEC3)) ∧
      (zr.knot_create_nsec3_owner nx.owner zr.zone_name params = none →
        (get_nsec3 s zr nx.owner false).map Prod.fst = .ok none) ∧
      ((zr.knot_create_nsec3_owner nx.owner zr.zone_name params).bind
          (fun hashed => zr.zone_read_node_for_type hashed KNOT_RRTYPE_NSEC3) = none →
        ∃ s1, node_ref_get malloc_ok s (some n) .REF_NSEC3 zr chunk = .ok (none, s1) ∧
          ∃ nx1, node_read s1 n = .ok nx1 ∧ nx1.nsec3_node = none) ∧
      (∀ t tx, (zr.knot_create_nsec3_owner nx.owner zr.zone_name params).bind
          (fun hashed => zr.zone_read_node_for_type hashed KNOT_RRTYPE_NSEC3) = some t →
        node_read s t = .ok tx →
        ((tx.self_ref = none ∧ malloc_ok = true) ∨
          (∃ q y, tx.self_ref = some q ∧ ref_read s q = .ok y ∧ y.flags &&& REF_VALID ≠ 0 ∧
            y.n = some t)) →
        ∃ s1 q y1, node_ref_get malloc_ok s (some n) .REF_NSEC3 zr chunk = .ok (some t, s1) ∧
          (∃ nx1, node_read s1 n = .ok nx1 ∧ nx1.nsec3_node = some q) ∧
          ref_read s1 q = .ok y1 ∧ y1.n = some t ∧ y1.flags &&& REF_VALID ≠ 0)) := by
  have hold1 : slot_get nx (node_ref_get_slot .REF_NSEC3) = none ∨
      ∃ r x, slot_get nx (node_ref_get_slot .REF_NSEC3) = some r ∧ ref_read s r = .ok x ∧
        x.flags &&& REF_VALID = 0 ∧ 0 < x.count := hold
  refine ⟨?_, ?_⟩
  · intro h
    exact node_ref_get_none malloc_ok hn hold1 (get_nsec3_without_params nx.owner false h)
  · intro params h
    have hg := get_nsec3_with_params nx.owner false h
    refine ⟨?_, ?_, ?_, ?_⟩
    · rw [hg]; rfl
    · intro hh
      rw [hg, hh]; rfl
    · intro hl
      rw [hl] at hg
      obtain ⟨s1, h1, _, h2⟩ := node_ref_get_none (k := .REF_NSEC3) malloc_ok hn hold1 hg
      exact ⟨s1, h1, h2⟩
    · intro t tx hl ht hself
      rw [hl] at hg
      obtain ⟨s1, q, y1, h1, _, h2, _, h3, h4, h5, _⟩ :=
        node_ref_get_some (k := .REF_NSEC3) hn hold1 hg ht hself
      exact ⟨s1, q, y1, h1, h2, h3, h4, h5⟩

/-- Witness of C7 (as amended): `b.test.`, whose previous slot holds a valid
reference, in the example zone without NSEC3 parameters, and in the NSEC3
signed zone, where its hashed owner name is `0a.test.`. -/
theorem C7_nsec3_counterpart_witness :
    (∃ s1, node_ref_get true ex_state_hit (some 1) .REF_NSEC3 ex_reader = .ok (none, s1) ∧
      s1.log = ex_state_hit.log ++ [Call.get_func [[98], ex_test] false, Call.read_apex] ∧
      ∃ nx1, node_read s1 1 = .ok nx1 ∧ nx1.nsec3_node = none) ∧
    (get_nsec3 ex_state_nsec3_hit ex_reader_nsec3 [[98], ex_test] false).map Prod.fst
      = .ok (some 2) ∧
    (∃ s1 q y1, node_ref_get true ex_state_nsec3_hit (some 1) .REF_NSEC3 ex_reader_nsec3
        = .ok (some 2, s1) ∧
      (∃ nx1, node_read s1 1 = .ok nx1 ∧ nx1.nsec3_node = some q) ∧
      ref_read s1 q = .ok y1 ∧ y1.n = some 2 ∧ y1.flags &&& REF_VALID ≠ 0) :=
  ⟨(C7_nsec3_counterpart ex_state_hit ex_reader true none 1
      { ex_node [[98], ex_test] [⟨16, [2]⟩] with prev := some 0 } rfl (Or.inl rfl)).1 rfl,
   ((C7_nsec3_counterpart ex_state_nsec3_hit ex_reader_nsec3 true none 1
      { ex_node [[98], ex_test] [⟨16, [2]⟩] with prev := some 0 } rfl (Or.inl rfl)).2
      [1, 0, 10] rfl).1,
   ((C7_nsec3_counterpart ex_state_nsec3_hit ex_reader_nsec3 true none 1
      { ex_node [[98], ex_test] [⟨16, [2]⟩] with prev := some 0 } rfl (Or.inl rfl)).2
      [1, 0, 10] rfl).2.2.2
      2 (ex_node [[48, 97], ex_test] [⟨50, [3]⟩]) rfl rfl (Or.inl ⟨rfl, rfl⟩)⟩

/-- Counterexample to C7 as stated: in the NSEC3 signed zone the apex carries
NSEC3PARAM and the node looked up under the hashed owner name of `b.test.` is
`0a.test.` (address 2), which has no self reference yet; when the allocation
of one fails, `node_ref_get` with `REF_NSEC3` returns `NULL`, not that node. -/
theorem C7_counterexample_malloc_failure :
    node_rdataset ex_state_nsec3 ex_reader_nsec3.zone_read_apex KNOT_RRTYPE_NSEC3PARAM
      = .ok (some [1, 0, 10]) ∧
    (get_nsec3 ex_state_nsec3 ex_reader_nsec3 [[98], ex_test] false).map Prod.fst
      = .ok (some 2) ∧
    (node_read ex_state_nsec3 1).map (fun x => x.nsec3_node) = .ok none ∧
    (node_ref_get false ex_state_nsec3 (some 1) .REF_NSEC3 ex_reader_nsec3).map Prod.fst
      = .ok none := by
  decide

/-! ## Type bitmap -/

theorem bitmap_fold_iff (rrsets : List knot_rrset_t) (b : bitmap_t) (t : Nat) :
    rrsets.foldl
        (fun bm rr =>
          if rr.type != KNOT_RRTYPE_NSEC && rr.type != KNOT_RRTYPE_RRSIG then
            bitmap_add_type bm rr.type
          else bm)
        b t = true ↔
      (b t = true ∨
        ((∃ rr ∈ rrsets, rr.type = t) ∧ t ≠ KNOT_RRTYPE_NSEC ∧ t ≠ KNOT_RRTYPE_RRSIG)) := by
  induction rrsets generalizing b with
  | nil => simp
  | cons rr rest ih =>
    rw [List.foldl_cons, ih]
    by_cases hx : (rr.type != KNOT_RRTYPE_NSEC && rr.type != KNOT_RRTYPE_RRSIG) = true
    · rw [if_pos hx]
      simp only [Bool.and_eq_true, bne_iff_ne, ne_eq] at hx
      simp only [bitmap_add_type, Bool.or_eq_true, beq_iff_eq, List.mem_cons, exists_eq_or_imp]
      constructor
      · rintro ((h | h) | h)
        · subst h
          exact Or.inr ⟨Or.inl rfl, hx.1, hx.2⟩
        · exact Or.inl h
        · exact Or.inr ⟨Or.inr h.1, h.2⟩
      · rintro (h | ⟨h | h, h2⟩)
        · exact Or.inl (Or.inr h)
        · exact Or.inl (Or.inl h.symm)
        · exact Or.inr ⟨h, h2⟩
    · rw [if_neg hx]
      simp only [Bool.and_eq_true, bne_iff_ne, ne_eq, not_and_or, not_not] at hx
      simp only [List.mem_cons, exists_eq_or_imp]
      constructor
      · rintro (h | h)
        · exact Or.inl h
        · exact Or.inr ⟨Or.inr h.1, h.2⟩
      · rintro (h | ⟨h | h, h2⟩)
        · exact Or.inl h
        · subst h
          rcases hx with hx | hx
          · exact absurd hx h2.1
          · exact absurd hx h2.2
        · exact Or.inr ⟨h, h2⟩

/-- C8: bitmap accuracy.  After `bitmap_add_node_rrsets(b, node)` the bit of a
record type `t` is set exactly when it was set in `b` or the node holds a
record set of type `t` with `t` neither NSEC nor RRSIG; from the empty bitmap
the result is exactly the set of record types on the node minus NSEC and RRSIG. -/
theorem C8_bitmap_add_node_rrsets_accuracy (b : bitmap_t) (node : knot_node_t) (t : Nat) :
    (bitmap_add_node_rrsets b node t = true ↔
      (b t = true ∨
        ((∃ rr ∈ node.rrsets, rr.type = t) ∧ t ≠ KNOT_RRTYPE_NSEC ∧ t ≠ KNOT_RRTYPE_RRSIG))) ∧
    (bitmap_add_node_rrsets bitmap_empty node t = true ↔
      ((∃ rr ∈ node.rrsets, rr.type = t) ∧ t ≠ KNOT_RRTYPE_NSEC ∧ t ≠ KNOT_RRTYPE_RRSIG)) := by
  refine ⟨bitmap_fold_iff node.rrsets b t, ?_⟩
  have h := bitmap_fold_iff node.rrsets bitmap_empty t
  simpa [bitmap_add_node_rrsets, bitmap_empty] using h


/-! ## Previous node in the NSEC3 tree -/

/-- C9 (the code at the failing input): in the NSEC3 signed zone the NSEC3 node
`7f.test.` has the NSEC3 node `0a.test.` (address 2) as its previous node in
the NSEC3 ordering, and the plain tree answers the apex (address 0) for its
name.  `node_ref_get` asks for type ANY, as the claim says; but
`node_ref_get_nsec3` passes `nsec3 = false` to `get_prev` as well, asks for
type ANY and returns the apex. -/
theorem C9_node_ref_get_nsec3_previous_uses_plain_ordering :
    ex_reader_nsec3.zone_read_previous_for_type [[55, 102], ex_test] KNOT_RRTYPE_NSEC3 = some 2 ∧
    ex_reader_nsec3.zone_read_previous_for_type [[55, 102], ex_test] KNOT_RRTYPE_ANY = some 0 ∧
    (node_ref_get true ex_state_nsec3 (some 1) .REF_PREVIOUS ex_reader_nsec3).map
        (fun r => (r.1, r.2.log))
      = .ok (some 0, [Call.get_func [[98], ex_test] false,
          Call.previous_for_type [[98], ex_test] KNOT_RRTYPE_ANY]) ∧
    (node_ref_get_nsec3 true ex_state_nsec3 (some 3) .REF_PREVIOUS ex_reader_nsec3).map
        (fun r => (r.1, r.2.log))
      = .ok (some 0, [Call.get_func [[55, 102], ex_test] false,
          Call.previous_for_type [[55, 102], ex_test] KNOT_RRTYPE_ANY]) := by
  decide

/-! ## Release -/

/-- C10: `node_ref_release` on a live reference `r` fails an assertion exactly
when the count of `r` is 0, or is 1 while `r` is valid; in every other case it
returns, and the only change of the state is the heap cell of `r`: freed when
the count was 1 (`r` is then invalid), else the same object (target and flags
unchanged) with the count decremented by one.  `node_ref_release(NULL)`
returns the state unchanged. -/
theorem C10_node_ref_release (s : State) (r : Nat) (x : node_ref_t)
    (hr : ref_read s r = .ok x) :
    (node_ref_release s (some r) = .error .assertion ↔
      (x.count = 0 ∨ (x.count = 1 ∧ x.flags &&& REF_VALID ≠ 0))) ∧
    (¬ (x.count = 0 ∨ (x.count = 1 ∧ x.flags &&& REF_VALID ≠ 0)) →
      node_ref_release s (some r) =
        .ok (ref_write s r
          (if x.count - 1 = 0 then none else some { x with count := x.count - 1 })) ∧
      (x.count - 1 = 0 → x.flags &&& REF_VALID = 0)) ∧
    node_ref_release s none = .ok s := by
  unfold node_ref_release
  rw [ref_dec_of_read hr]
  refine ⟨?_, ?_, rfl⟩
  · by_cases h0 : x.count = 0
    · simp [h0]
    · by_cases h1 : x.count = 1
      · by_cases hv : x.flags &&& REF_VALID = 0
        · simp [h1, hv]
        · simp [h1, hv]
      · simp [h0, h1]
  · intro h
    simp only [not_or, not_and, not_not] at h
    obtain ⟨h0, h1⟩ := h
    by_cases hc : x.count = 1
    · have hv := h1 hc
      simp [hc, hv]
    · have h2 : x.count - 1 ≠ 0 := by omega
      simp [h0, hc, h2]

/-- Witness of C10: releasing one hold on the self reference of the apex
(count 2, valid) leaves it with count 1. -/
theorem C10_node_ref_release_witness :
    node_ref_release ex_state_hit (some 0)
      = .ok (ref_write ex_state_hit 0 (some ⟨some 0, 1, REF_VALID⟩)) :=
  ((C10_node_ref_release ex_state_hit 0 ⟨some 0, 2, REF_VALID⟩ rfl).2.1 (by decide)).1

/-! ## Inversion of the steps of node-ref.c -/

theorem ref_inc_inv {s s1 : State} {r : Option Nat} (h : ref_inc s r = .ok s1) :
    (r = none ∧ s1 = s) ∨
      ∃ p x, r = some p ∧ ref_read s p = .ok x ∧ s1 = ref_write s p (some (ref_inc_cell x)) := by
  cases r with
  | none =>
    simp only [ref_inc, Except.ok.injEq] at h
    exact Or.inl ⟨rfl, h.symm⟩
  | some p =>
    cases hx : ref_read s p with
    | error e => simp [ref_inc, hx, bind, Except.bind] at h
    | ok x =>
      rw [ref_inc_of_read hx] at h
      simp only [Except.ok.injEq] at h
      exact Or.inr ⟨p, x, rfl, hx, h.symm⟩

theorem ref_dec_inv {s s1 : State} {r : Option Nat} (h : ref_dec s r = .ok s1) :
    (r = none ∧ s1 = s) ∨
      ∃ p x, r = some p ∧ ref_read s p = .ok x ∧ 0 < x.count ∧
        (x.count = 1 → x.flags &&& REF_VALID = 0) ∧ s1 = ref_write s p (ref_dec_cell x) := by
  cases r with
  | none =>
    simp only [ref_dec, Except.ok.injEq] at h
    exact Or.inl ⟨rfl, h.symm⟩
  | some p =>
    cases hx : ref_read s p with
    | error e => simp [ref_dec, hx, bind, Except.bind] at h
    | ok x =>
      rw [ref_dec_of_read hx] at h
      refine Or.inr ⟨p, x, rfl, hx, ?_⟩
      by_cases h0 : x.count = 0
      · simp [h0] at h
      · by_cases h1 : x.count = 1
        · by_cases hv : x.flags &&& REF_VALID = 0
          · simp [h1, hv] at h
            exact ⟨by omega, fun _ => hv, by simp [ref_dec_cell, h1, h]⟩
          · simp [h1, hv] at h
        · simp [h0, h1] at h
          exact ⟨by omega, fun hh => absurd hh h1, by simp [ref_dec_cell, h1, h]⟩

theorem fetch_node_ref_inv_at {chunk : Option Nat} {malloc_ok : Bool} {s s1 : State}
    {n found : Option Nat}
    (h : fetch_node_ref malloc_ok s n chunk = .ok (found, s1)) :
    (found = none ∧ s1 = s ∧
      (n = none ∨ ∃ t tx, n = some t ∧ node_read s t = .ok tx ∧ tx.self_ref = none ∧
        malloc_ok = false)) ∨
    (∃ t tx, n = some t ∧ node_read s t = .ok tx ∧ tx.self_ref = none ∧ malloc_ok = true ∧
      found = some (malloc_addr s chunk) ∧
      s1 = node_write (ref_store_new s { n := some t, count := 1, flags := REF_VALID } chunk) t
        { tx with self_ref := some (malloc_addr s chunk) }) ∨
    (∃ t tx q y, n = some t ∧ node_read s t = .ok tx ∧ tx.self_ref = some q ∧
      ref_read s q = .ok y ∧ y.flags &&& REF_VALID ≠ 0 ∧ found = some q ∧ s1 = s) := by
  cases n with
  | none =>
    simp only [fetch_node_ref, Except.ok.injEq, Prod.mk.injEq] at h
    exact Or.inl ⟨h.1.symm, h.2.symm, Or.inl rfl⟩
  | some t =>
    cases ht : node_read s t with
    | error e => simp [fetch_node_ref, ht, bind, Except.bind] at h
    | ok tx =>
      cases hself : tx.self_ref with
      | none =>
        cases malloc_ok with
        | false =>
          rw [fetch_node_ref_malloc_failed ht hself] at h
          simp only [Except.ok.injEq, Prod.mk.injEq] at h
          exact Or.inl ⟨h.1.symm, h.2.symm, Or.inr ⟨t, tx, rfl, ht, hself, rfl⟩⟩
        | true =>
          rw [fetch_node_ref_new_at chunk ht hself] at h
          simp only [Except.ok.injEq, Prod.mk.injEq] at h
          exact Or.inr (Or.inl ⟨t, tx, rfl, ht, hself, rfl, h.1.symm, h.2.symm⟩)
      | some q =>
        cases hq : ref_read s q with
        | error e =>
          simp [fetch_node_ref, ht, hself, node_ref_valid, hq, bind, Except.bind] at h
        | ok y =>
          rw [fetch_node_ref_existing malloc_ok ht hself hq] at h
          by_cases hv : y.flags &&& REF_VALID = 0
          · simp [hv] at h
          · have hb : (y.flags &&& REF_VALID != 0) = true := by simpa using hv
            rw [if_pos hb] at h
            simp only [Except.ok.injEq, Prod.mk.injEq] at h
            exact Or.inr (Or.inr ⟨t, tx, q, y, rfl, ht, hself, hq, hv, h.1.symm, h.2.symm⟩)

theorem fetch_node_ref_inv {malloc_ok : Bool} {s s1 : State} {n found : Option Nat}
    (h : fetch_node_ref malloc_ok s n = .ok (found, s1)) :
    (found = none ∧ s1 = s ∧
      (n = none ∨ ∃ t tx, n = some t ∧ node_read s t = .ok tx ∧ tx.self_ref = none ∧
        malloc_ok = false)) ∨
    (∃ t tx, n = some t ∧ node_read s t = .ok tx ∧ tx.self_ref = none ∧ malloc_ok = true ∧
      found = some s.refs.length ∧
      s1 = node_write (ref_alloc s { n := some t, count := 1, flags := REF_VALID }) t
        { tx with self_ref := some s.refs.length }) ∨
    (∃ t tx q y, n = some t ∧ node_read s t = .ok tx ∧ tx.self_ref = some q ∧
      ref_read s q = .ok y ∧ y.flags &&& REF_VALID ≠ 0 ∧ found = some q ∧ s1 = s) :=
  fetch_node_ref_inv_at h

theorem return_node_inv {chunk : Option Nat} {malloc_ok : Bool} {s s1 : State} {n : Nat}
    {k : Slot}
    {get_func : ref_get_t} {key : knot_dname_t} {zr : zone_read_t} {nsec3 : Bool}
    {v : Option Nat}
    (h : return_node malloc_ok s n k get_func key zr nsec3 chunk = .ok (v, s1)) :
    ∃ nx, node_read s n = .ok nx ∧
      ((∃ p x, slot_get nx k = some p ∧ ref_read s p = .ok x ∧ x.flags &&& REF_VALID ≠ 0 ∧
          v = x.n ∧ s1 = s) ∨
       (node_ref_valid s (slot_get nx k) = .ok false ∧
        ∃ target calls found s2 s3 x3,
          get_func s zr key nsec3 = .ok (target, calls) ∧
          fetch_node_ref malloc_ok (log_calls s (Call.get_func key nsec3 :: calls)) target chunk
            = .ok (found, s2) ∧
          ref_inc s2 found = .ok s3 ∧
          node_read s3 n = .ok x3 ∧
          ref_dec (node_write s3 n (slot_set x3 k found)) (slot_get x3 k) = .ok s1 ∧
          (found = none → v = none) ∧
          (∀ p, found = some p → ∃ y, ref_read s1 p = .ok y ∧ v = y.n))) := by
  cases hn : node_read s n with
  | error e => simp [return_node, hn, bind, Except.bind] at h
  | ok nx =>
    refine ⟨nx, rfl, ?_⟩
    cases hv : node_ref_valid s (slot_get nx k) with
    | error e => simp [return_node, hn, hv, bind, Except.bind] at h
    | ok b =>
      cases b with
      | true =>
        left
        cases hslot : slot_get nx k with
        | none => rw [hslot] at hv; cases hv
        | some p =>
          rw [hslot] at hv
          cases hp : ref_read s p with
          | error e => simp [node_ref_valid, hp, bind, Except.bind] at hv
          | ok x =>
            rw [node_ref_valid_of_read hp] at hv
            have hx : x.flags &&& REF_VALID ≠ 0 := by simpa using hv
            rw [return_node_hit malloc_ok get_func key zr nsec3 hn hslot hp hx] at h
            simp only [Except.ok.injEq, Prod.mk.injEq] at h
            exact ⟨p, x, rfl, hp, hx, h.1.symm, h.2.symm⟩
      | false =>
        right
        refine ⟨rfl, ?_⟩
        cases hg : get_func s zr key nsec3 with
        | error e => simp [return_node, hn, hv, hg, bind, Except.bind] at h
        | ok tc =>
          obtain ⟨target, calls⟩ := tc
          cases hf : fetch_node_ref malloc_ok (log_calls s (Call.get_func key nsec3 :: calls))
              target chunk with
          | error e => simp [return_node, hn, hv, hg, hf, bind, Except.bind] at h
          | ok fs =>
            obtain ⟨found, s2⟩ := fs
            cases hi : ref_inc s2 found with
            | error e => simp [return_node, hn, hv, hg, hf, hi, bind, Except.bind] at h
            | ok s3 =>
              cases hn3 : node_read s3 n with
              | error e => simp [return_node, hn, hv, hg, hf, hi, hn3, bind, Except.bind] at h
              | ok x3 =>
                have hsw := switch_ref_of_read hn3 found k
                cases hd : ref_dec (node_write s3 n (slot_set x3 k found)) (slot_get x3 k) with
                | error e =>
                  simp [return_node, hn, hv, hg, hf, hi, hn3, hsw, hd, bind, Except.bind] at h
                | ok s5 =>
                  have hn5 : node_read s5 n = .ok (slot_set x3 k found) := by
                    rw [node_read_of_nodes_eq (ref_dec_nodes hd).1]
                    exact node_read_node_write_self _ (node_read_lt hn3)
                  simp only [return_node, hn, hv, hg, hf, hi, hn3, hsw, hd, hn5, bind,
                    Except.bind, slot_get_slot_set] at h
                  cases found with
                  | none =>
                    simp at h
                    refine ⟨target, calls, none, s2, s3, x3, ?_, ?_, ?_, ?_, ?_, ?_, ?_⟩
                    · rfl
                    · first | rfl | exact hf
                    · first | rfl | exact hi
                    · first | rfl | exact hn3
                    · first | (rw [h.2]) | (rw [hd, h.2])
                    · exact fun _ => h.1.symm
                    · intro p hp
                      cases hp
                  | some p =>
                    cases hp : ref_read s5 p with
                    | error e => simp [hp] at h
                    | ok y =>
                      simp [hp] at h
                      refine ⟨target, calls, some p, s2, s3, x3, ?_, ?_, ?_, ?_, ?_, ?_, ?_⟩
                      · rfl
                      · first | rfl | exact hf
                      · first | rfl | exact hi
                      · first | rfl | exact hn3
                      · first | (rw [h.2]) | (rw [hd, h.2])
                      · intro hh
                        cases hh
                      · intro p' hp'
                        cases hp'
                        exact ⟨y, by rw [← h.2]; exact hp, h.1.symm⟩

/-! ## Validity is never restored -/

theorem fetch_node_ref_of_invalid {chunk : Option Nat}
    {s : State} {t q : Nat} {tx : zone_node_t} {y : node_ref_t}
    (malloc_ok : Bool) (ht : node_read s t = .ok tx) (hself : tx.self_ref = some q)
    (hq : ref_read s q = .ok y) (hinv : y.flags &&& REF_VALID = 0) :
    fetch_node_ref malloc_ok s (some t) chunk = .error .assertion := by
  rw [fetch_node_ref_existing malloc_ok ht hself hq]
  simp [hinv]

/-- C12 (what the code does where the claim expects a fresh reference): let
`slot` be the slot of the kind `k` and `get_func` its resolution function.  If
that slot of node `n` is absent or invalid, the resolution function yields a
node `t`, and the self reference of `t` is a live reference object whose valid
bit is clear (it has been invalidated), then no reference is created:
`fetch_node_ref` keeps that self reference and fails its own assertion
`node_ref_valid(n->self_ref)`, whether an allocation would succeed or not, and
`node_ref_get` does not return. -/
theorem C12_invalidated_self_reference_fails_assertion (s : State) (zr : zone_read_t)
    (malloc_ok : Bool) (chunk : Option Nat) (n t q : Nat) (k : node_ref_type) (slot : Slot)
    (get_func : ref_get_t) (nx tx : zone_node_t) (y : node_ref_t) (calls : List Call)
    (hk : (k = .REF_PREVIOUS ∧ slot = .prev ∧ get_func = get_prev) ∨
      (k = .REF_PARENT ∧ slot = .parent ∧ get_func = get_parent) ∨
      (k = .REF_NSEC3 ∧ slot = .nsec3_node ∧ get_func = get_nsec3))
    (hn : node_read s n = .ok nx)
    (hv : node_ref_valid s (slot_get nx slot) = .ok false)
    (hres : get_func s zr nx.owner false = .ok (some t, calls))
    (ht : node_read s t = .ok tx)
    (hself : tx.self_ref = some q)
    (hq : ref_read s q = .ok y)
    (hinv : y.flags &&& REF_VALID = 0) :
    fetch_node_ref malloc_ok (log_calls s (Call.get_func nx.owner false :: calls)) (some t)
      chunk = .error .assertion ∧
    node_ref_get malloc_ok s (some n) k zr chunk = .error .assertion := by
  have hf : fetch_node_ref malloc_ok (log_calls s (Call.get_func nx.owner false :: calls))
      (some t) chunk = .error .assertion :=
    fetch_node_ref_of_invalid malloc_ok ht hself hq hinv
  refine ⟨hf, ?_⟩
  rw [node_ref_get_eq malloc_ok k zr hn]
  rcases hk with ⟨rfl, rfl, rfl⟩ | ⟨rfl, rfl, rfl⟩ | ⟨rfl, rfl, rfl⟩ <;>
    simp [return_node, node_ref_get_slot, node_ref_get_func, hn, hv, hres, hf, bind,
      Except.bind]

/-- C12, the failing input: the self reference of `e.test.` (address 0), which
`g.test.` holds in its previous slot, is invalidated by `node_ref_invalidate`;
`g.test.` then resolves its previous node against the unchanged zone, the
resolution function yields `e.test.`, and `node_ref_get` fails the assertion of
`fetch_node_ref` instead of returning `e.test.` with a new reference, also
when the allocation would succeed. -/
theorem C12_invalidated_self_reference_fails_assertion_witness :
    node_ref_invalidate ex_state_stale0 (some 0) = .ok ex_state_stale ∧
    get_prev ex_state_stale ex_reader [[103], ex_test] false
      = .ok (some 2, [Call.previous_for_type [[103], ex_test] KNOT_RRTYPE_ANY]) ∧
    (node_read ex_state_stale 2).map (fun x => x.self_ref) = .ok (some 0) ∧
    node_ref_valid ex_state_stale (some 0) = .ok false ∧
    fetch_node_ref true
        (log_calls ex_state_stale (Call.get_func [[103], ex_test] false ::
          [Call.previous_for_type [[103], ex_test] KNOT_RRTYPE_ANY])) (some 2)
      = .error .assertion ∧
    node_ref_get true ex_state_stale (some 3) .REF_PREVIOUS ex_reader = .error .assertion :=
  have h := C12_invalidated_self_reference_fails_assertion ex_state_stale ex_reader true none
    3 2 0 .REF_PREVIOUS .prev get_prev
    { ex_node [[103], ex_test] [⟨16, [2]⟩] with prev := some 0 }
    { ex_node [[101], ex_test] [⟨16, [2]⟩] with self_ref := some 0 } ⟨some 2, 2, 0⟩
    [Call.previous_for_type [[103], ex_test] KNOT_RRTYPE_ANY] (Or.inl ⟨rfl, rfl, rfl⟩)
    rfl (by decide) rfl rfl rfl rfl (by decide)
  ⟨by decide, rfl, by decide, by decide, h.1, h.2⟩

/-! ## The test of the previous links -/

theorem ref_ptr_ne_node (o : Option Nat) (p : Nat) : ref_ptr o ≠ Ptr.node p := by
  cases o <;> simp [ref_ptr]

theorem ref_ptr_eq_node_ptr_some (o : Option Nat) (p : Nat) :
    decide (ref_ptr o = node_ptr (some p)) = false := by
  simp [node_ptr, ref_ptr_ne_node]

theorem test_prev_for_tree_never_true (s : State) (first : Nat) (rest : List Nat) :
    test_prev_for_tree s (some (first :: rest)) ≠ .ok true := by
  cases rest with
  | nil =>
    simp only [test_prev_for_tree, test_prev_loop, bind, Except.bind]
    cases node_read s first with
    | error e => simp
    | ok x => simp [ref_ptr_eq_node_ptr_some]
  | cons v rest =>
    simp only [test_prev_for_tree, test_prev_loop, bind, Except.bind]
    cases node_read s v with
    | error e => simp
    | ok x => simp [ref_ptr_ne_node]

/-! ## Reference count accounting: holders -/

theorem sum_map_set {α : Type} (f : α → Nat) (l : List α) (n : Nat) (a b : α)
    (h : l[n]? = some a) : ((l.set n b).map f).sum + f a = (l.map f).sum + f b := by
  induction l generalizing n with
  | nil => simp at h
  | cons c l ih =>
    cases n with
    | zero =>
      simp only [List.getElem?_cons_zero, Option.some.injEq] at h
      subst h
      simp only [List.set_cons_zero, List.map_cons, List.sum_cons]
      omega
    | succ n =>
      simp only [List.getElem?_cons_succ] at h
      have := ih n h
      simp only [List.set_cons_succ, List.map_cons, List.sum_cons]
      omega

theorem any_set_of_eq {α : Type} (p : α → Bool) (l : List α) (n : Nat) (a b : α)
    (h : l[n]? = some a) (hp : p b = p a) : (l.set n b).any p = l.any p := by
  induction l generalizing n with
  | nil => simp at h
  | cons c l ih =>
    cases n with
    | zero =>
      simp only [List.getElem?_cons_zero, Option.some.injEq] at h
      subst h
      simp [hp]
    | succ n =>
      simp only [List.getElem?_cons_succ] at h
      simp [ih n h]

theorem slots_holding_slot_set (a : zone_node_t) (k : Slot) (v : Option Nat) (r : Nat) :
    slots_holding (slot_set a k v) r + (if slot_get a k = some r then 1 else 0)
      = slots_holding a r + (if v = some r then 1 else 0) := by
  cases k <;> simp only [slots_holding, slot_set, slot_get] <;> omega

theorem holders_in_set_slot {l : List zone_node_t} {n : Nat} {a : zone_node_t}
    (h : l[n]? = some a) (k : Slot) (v : Option Nat) (r : Nat) :
    holders_in (l.set n (slot_set a k v)) r + (if slot_get a k = some r then 1 else 0)
      = holders_in l r + (if v = some r then 1 else 0) := by
  have h1 := sum_map_set (fun x => slots_holding x r) l n a (slot_set a k v) h
  have h2 := any_set_of_eq (fun x => x.self_ref == some r) l n a (slot_set a k v) h
    (by simp)
  have h3 := slots_holding_slot_set a k v r
  simp only [holders_in, h2]
  simp only at h1
  omega

theorem holders_node_write_slot {s : State} {n : Nat} {a : zone_node_t}
    (h : node_read s n = .ok a) (k : Slot) (v : Option Nat) (r : Nat) :
    holders (node_write s n (slot_set a k v)) r + (if slot_get a k = some r then 1 else 0)
      = holders s r + (if v = some r then 1 else 0) :=
  holders_in_set_slot (node_read_ok_iff.mp h) k v r

theorem holders_of_nodes_eq {s s1 : State} (h : s1.nodes = s.nodes) (r : Nat) :
    holders s1 r = holders s r := by
  simp [holders, h]

theorem sum_map_eq_zero {α : Type} (f : α → Nat) (l : List α) (h : ∀ x ∈ l, f x = 0) :
    (l.map f).sum = 0 := by
  induction l with
  | nil => rfl
  | cons c l ih =>
    simp only [List.map_cons, List.sum_cons]
    rw [h c (List.mem_cons_self _ _), ih (fun x hx => h x (List.mem_cons_of_mem _ hx))]

theorem holders_eq_zero_of_no_pointer {s : State} {q : Nat}
    (hno : ∀ x ∈ s.nodes, ¬ node_points_to x q) : holders s q = 0 := by
  have hany : s.nodes.any (fun x => x.self_ref == some q) = false := by
    rw [List.any_eq_false]
    intro x hx
    have := hno x hx
    simp only [node_points_to, not_or] at this
    simpa using this.1
  have hsum : (s.nodes.map (fun x => slots_holding x q)).sum = 0 := by
    apply sum_map_eq_zero
    intro x hx
    have := hno x hx
    simp only [node_points_to, not_or] at this
    simp [slots_holding, this.2.1, this.2.2.1, this.2.2.2]
  simp [holders, holders_in, hany, hsum]

theorem holders_eq_zero_of_not_live {s : State} (hptr : pointers_live s) {q : Nat}
    (hq : ∀ y : node_ref_t, ref_read s q ≠ .ok y) : holders s q = 0 := by
  apply holders_eq_zero_of_no_pointer
  intro x hx hp
  obtain ⟨y, hy⟩ := hptr x hx q hp
  exact hq y hy

theorem slots_holding_le_sum (l : List zone_node_t) (a : zone_node_t) (r : Nat) (h : a ∈ l) :
    slots_holding a r ≤ (l.map (fun x => slots_holding x r)).sum := by
  induction l with
  | nil => cases h
  | cons c l ih =>
    simp only [List.map_cons, List.sum_cons]
    rcases List.mem_cons.mp h with h1 | h1
    · subst h1; omega
    · have := ih h1; omega

theorem holders_pos_of_slot {s : State} {n r : Nat} {a : zone_node_t} {k : Slot}
    (h : node_read s n = .ok a) (hs : slot_get a k = some r) : 0 < holders s r := by
  have hmem : a ∈ s.nodes := List.getElem?_mem (node_read_ok_iff.mp h)
  have h1 := slots_holding_le_sum s.nodes a r hmem
  have h2 : 0 < slots_holding a r := by
    cases k <;> simp only [slot_get] at hs <;> simp [slots_holding, hs]
  simp only [holders, holders_in]
  omega

/-! ## Reference count accounting: the steps of a cache miss -/

theorem accounted_with_none_iff (s : State) : accounted_with s none ↔ accounted s := by
  simp [accounted_with, accounted]

theorem accounted_of_refs_nodes_eq {s s1 : State} (hr : s1.refs = s.refs)
    (hn : s1.nodes = s.nodes) (h : accounted s) : accounted s1 := by
  intro r x hx
  have hx' : ref_read s r = .ok x := by
    simpa [ref_read, hr] using hx
  rw [holders_of_nodes_eq hn]
  exact h r x hx'

theorem accounted_step_inc {s : State} {q : Nat} {y : node_ref_t} (h : accounted s)
    (hq : ref_read s q = .ok y) (hmax : y.count + 1 < UINT32_MOD) :
    accounted_with (ref_write s q (some (ref_inc_cell y))) (some q) := by
  intro r x hx
  show x.count = holders s r + (if some q = some r then 1 else 0)
  by_cases hrq : q = r
  · subst hrq
    rw [ref_read_ref_write_self _ (ref_read_lt hq)] at hx
    cases hx
    simp only [ref_inc_cell, if_true]
    rw [Nat.mod_eq_of_lt hmax, h q y hq]
  · rw [ref_read_ref_write_ne _ hrq] at hx
    have hne : ¬ (some q = some r) := by simpa using hrq
    simp only [hne, if_false, Nat.add_zero]
    exact h r x hx

theorem accounted_step_switch {s : State} {n : Nat} {a : zone_node_t} {found : Option Nat}
    (h : accounted_with s found) (hn : node_read s n = .ok a) (k : Slot) :
    accounted_with (node_write s n (slot_set a k found)) (slot_get a k) := by
  intro r x hx
  rw [ref_read_node_write] at hx
  have h1 := h r x hx
  have h2 := holders_node_write_slot hn k found r
  omega

theorem accounted_step_dec {s s1 : State} {old : Option Nat} (h : accounted_with s old)
    (hd : ref_dec s old = .ok s1) : accounted s1 := by
  rcases ref_dec_inv hd with ⟨ho, hs⟩ | ⟨p, x, ho, hx, _, _, hs⟩
  · subst ho
    subst hs
    exact (accounted_with_none_iff _).mp h
  · subst ho
    subst hs
    intro r x1 hx1
    show x1.count = holders s r
    by_cases hrp : p = r
    · subst hrp
      have hp := h p x hx
      simp only [if_true] at hp
      by_cases hc : x.count = 1
      · have : (ref_write s p (ref_dec_cell x)).refs[p]? = some none := by
          rw [refs_get_ref_write_self _ (ref_read_lt hx)]
          simp [ref_dec_cell, hc]
        rw [ref_read_ok_iff, this] at hx1
        cases hx1
      · have hcell : ref_dec_cell x = some { x with count := x.count - 1 } := by
          simp [ref_dec_cell, hc]
        rw [hcell, ref_read_ref_write_self _ (ref_read_lt hx)] at hx1
        cases hx1
        show x.count - 1 = holders s p
        omega
    · rw [ref_read_ref_write_ne _ hrp] at hx1
      have h1 := h r x1 hx1
      have hne : ¬ (some p = some r) := by simpa using hrp
      simpa [hne] using h1

theorem slots_holding_pos_of_points {x : zone_node_t} {r : Nat}
    (h : x.prev = some r ∨ x.parent = some r ∨ x.nsec3_node = some r) :
    0 < slots_holding x r := by
  rcases h with h | h | h <;> simp [slots_holding, h]

theorem holders_pos_of_pointer {s : State} {x : zone_node_t} {r : Nat} (hx : x ∈ s.nodes)
    (hp : node_points_to x r) : 0 < holders s r := by
  rcases hp with h | h
  · have hany : s.nodes.any (fun z => z.self_ref == some r) = true := by
      rw [List.any_eq_true]
      exact ⟨x, hx, by simp [h]⟩
    simp only [holders, holders_in, hany, if_true]
    omega
  · have h1 := slots_holding_le_sum s.nodes x r hx
    have h2 := slots_holding_pos_of_points h
    simp only [holders, holders_in]
    omega

theorem pointers_live_of_reads {s s1 : State} (hn : s1.nodes = s.nodes)
    (hr : ∀ (p : Nat) (y : node_ref_t), ref_read s p = .ok y →
      ∃ y1 : node_ref_t, ref_read s1 p = .ok y1)
    (h : pointers_live s) : pointers_live s1 := by
  intro x hx p hp
  rw [hn] at hx
  obtain ⟨y, hy⟩ := h x hx p hp
  exact hr p y hy

theorem node_points_to_slot_set {a : zone_node_t} {k : Slot} {v : Option Nat} {p : Nat}
    (h : node_points_to (slot_set a k v) p) : node_points_to a p ∨ v = some p := by
  cases k <;> simp only [node_points_to, slot_set] at h ⊢ <;> tauto

theorem pointers_live_node_write_slot {s : State} {n : Nat} {a : zone_node_t}
    (h : pointers_live s) (hn : node_read s n = .ok a) (k : Slot) (v : Option Nat)
    (hv : ∀ q, v = some q → ∃ y : node_ref_t, ref_read s q = .ok y) :
    pointers_live (node_write s n (slot_set a k v)) := by
  intro x hx p hp
  have hmem : a ∈ s.nodes := List.getElem?_mem (node_read_ok_iff.mp hn)
  rw [ref_read_node_write]
  rcases List.mem_or_eq_of_mem_set hx with h1 | h1
  · exact h x h1 p hp
  · subst h1
    rcases node_points_to_slot_set hp with h2 | h2
    · exact h a hmem p h2
    · exact hv p h2

theorem pointers_live_ref_dec {s s1 : State} {old : Option Nat} (hp : pointers_live s)
    (hacc : accounted_with s old) (hd : ref_dec s old = .ok s1) : pointers_live s1 := by
  rcases ref_dec_inv hd with ⟨_, hs⟩ | ⟨r, x, ho, hx, _, _, hs⟩
  · rw [hs]; exact hp
  · subst ho
    rw [hs]
    intro z hz p hpz
    have hz0 : z ∈ s.nodes := hz
    obtain ⟨y, hy⟩ := hp z hz0 p hpz
    by_cases hrp : r = p
    · subst hrp
      have hc := hacc r x hx
      simp only [if_true] at hc
      have hpos := holders_pos_of_pointer hz0 hpz
      have hne : x.count ≠ 1 := by omega
      refine ⟨{ x with count := x.count - 1 }, ?_⟩
      have hcell : ref_dec_cell x = some { x with count := x.count - 1 } := by
        simp [ref_dec_cell, hne]
      rw [hcell]
      exact ref_read_ref_write_self _ (ref_read_lt hx)
    · exact ⟨y, by rw [ref_read_ref_write_ne _ hrp]; exact hy⟩

theorem node_points_to_self_ref_set {tx : zone_node_t} {q p : Nat}
    (h : node_points_to { tx with self_ref := some q } p) : p = q ∨ node_points_to tx p := by
  rcases h with h | h | h | h
  · left
    simp only [Option.some.injEq] at h
    exact h.symm
  · exact Or.inr (Or.inr (Or.inl h))
  · exact Or.inr (Or.inr (Or.inr (Or.inl h)))
  · exact Or.inr (Or.inr (Or.inr (Or.inr h)))

theorem fetch_node_ref_accounted {chunk : Option Nat} {malloc_ok : Bool} {s s1 : State}
    {n found : Option Nat}
    (hf : fetch_node_ref malloc_ok s n chunk = .ok (found, s1))
    (hacc : accounted s) (hptr : pointers_live s) (hmax : counts_below_max s) :
    accounted s1 ∧ pointers_live s1 ∧ counts_below_max s1 := by
  rcases fetch_node_ref_inv_at hf with ⟨_, hs, _⟩ | ⟨t, tx, _, ht, hself, _, _, hs⟩ |
    ⟨t, tx, q, y, _, _, _, _, _, _, hs⟩
  · subst hs; exact ⟨hacc, hptr, hmax⟩
  · subst hs
    have htl := node_read_ok_iff.mp ht
    have hmem : tx ∈ s.nodes := List.getElem?_mem htl
    have hnodes : (node_write (ref_store_new s ⟨some t, 1, REF_VALID⟩ chunk) t
        { tx with self_ref := some (malloc_addr s chunk) }).nodes
        = s.nodes.set t { tx with self_ref := some (malloc_addr s chunk) } := by
      simp [node_write]
    have hread : ∀ r x, ref_read (node_write (ref_store_new s ⟨some t, 1, REF_VALID⟩ chunk) t
        { tx with self_ref := some (malloc_addr s chunk) }) r = .ok x →
        (r = malloc_addr s chunk ∧ x = ⟨some t, 1, REF_VALID⟩) ∨
          (r ≠ malloc_addr s chunk ∧ ref_read s r = .ok x) := by
      intro r x hx
      rw [ref_read_node_write] at hx
      by_cases hr : r = malloc_addr s chunk
      · subst hr
        rw [ref_read_ref_store_new_self] at hx
        cases hx
        exact Or.inl ⟨rfl, rfl⟩
      · rw [ref_read_ref_store_new_ne _ _ hr] at hx
        exact Or.inr ⟨hr, hx⟩
    refine ⟨?_, ?_, ?_⟩
    · intro r x hx
      have hsum : ((s.nodes.set t { tx with self_ref := some (malloc_addr s chunk) }).map
          (fun z => slots_holding z r)).sum = (s.nodes.map (fun z => slots_holding z r)).sum := by
        have := sum_map_set (fun z => slots_holding z r) s.nodes t tx
          { tx with self_ref := some (malloc_addr s chunk) } htl
        have he : slots_holding { tx with self_ref := some (malloc_addr s chunk) } r
            = slots_holding tx r := rfl
        simp only [he] at this
        omega
      simp only [holders, hnodes]
      rcases hread r x hx with ⟨hr, hxe⟩ | ⟨hr, hx1⟩
      · subst hr
        subst hxe
        have h0 := holders_eq_zero_of_not_live hptr (malloc_addr_not_live s chunk)
        simp only [holders, holders_in] at h0
        have hany : (s.nodes.set t { tx with self_ref := some (malloc_addr s chunk) }).any
            (fun z => z.self_ref == some (malloc_addr s chunk)) = true := by
          rw [List.any_eq_true]
          exact ⟨_, List.mem_set _ _ (node_read_lt ht) _, by simp⟩
        simp only [holders_in, hany, hsum, if_true]
        omega
      · have hany : (s.nodes.set t { tx with self_ref := some (malloc_addr s chunk) }).any
            (fun z => z.self_ref == some r) = s.nodes.any (fun z => z.self_ref == some r) := by
          apply any_set_of_eq _ _ _ _ _ htl
          have h1 : ¬ (malloc_addr s chunk = r) := fun h => hr h.symm
          simp [hself, h1]
        simp only [holders_in, hany, hsum]
        exact hacc r x hx1
    · intro x hx p hp
      rw [hnodes] at hx
      rw [ref_read_node_write]
      have hold : ∀ p1, (∃ z ∈ s.nodes, node_points_to z p1) →
          ∃ y : node_ref_t, ref_read (ref_store_new s ⟨some t, 1, REF_VALID⟩ chunk) p1
            = .ok y := by
        intro p1 hz
        obtain ⟨z, hz1, hz2⟩ := hz
        obtain ⟨y, hy⟩ := hptr z hz1 p1 hz2
        have hne : p1 ≠ malloc_addr s chunk := by
          intro h
          rw [h] at hy
          exact malloc_addr_not_live s chunk y hy
        exact ⟨y, by rw [ref_read_ref_store_new_ne _ _ hne]; exact hy⟩
      rcases List.mem_or_eq_of_mem_set hx with h1 | h1
      · exact hold p ⟨x, h1, hp⟩
      · subst h1
        rcases node_points_to_self_ref_set hp with h2 | h2
        · subst h2
          exact ⟨_, ref_read_ref_store_new_self _ _ _⟩
        · exact hold p ⟨tx, hmem, h2⟩
    · intro r x hx
      rcases hread r x hx with ⟨_, hxe⟩ | ⟨_, hx1⟩
      · subst hxe
        show 1 + 1 < UINT32_MOD
        decide
      · exact hmax r x hx1
  · subst hs; exact ⟨hacc, hptr, hmax⟩

/-! ## Reference count accounting: the heap cells over a cache miss -/

theorem refs_get_ref_write_ne {s : State} {r p : Nat} (v : Option node_ref_t) (h : r ≠ p) :
    (ref_write s r v).refs[p]? = s.refs[p]? := by
  simp [ref_write, List.getElem?_set_ne h]

theorem refs_get_ref_alloc_ne {s : State} {p : Nat} (x : node_ref_t) (h : p ≠ s.refs.length) :
    (ref_alloc s x).refs[p]? = s.refs[p]? := by
  rcases Nat.lt_or_gt_of_ne h with h1 | h1
  · simp [ref_alloc, List.getElem?_append_left h1]
  · have h2 : (ref_alloc s x).refs[p]? = none := by
      apply List.getElem?_eq_none; simp; omega
    have h3 : s.refs[p]? = none := by
      apply List.getElem?_eq_none; omega
    rw [h2, h3]

theorem fetch_node_ref_cells {chunk : Option Nat} {malloc_ok : Bool} {s s2 : State}
    {n found : Option Nat}
    (hf : fetch_node_ref malloc_ok s n chunk = .ok (found, s2)) :
    (∀ p, found ≠ some p → s2.refs[p]? = s.refs[p]?) ∧
    (∀ q, found = some q → ∃ y2, ref_read s2 q = .ok y2 ∧ y2.flags &&& REF_VALID ≠ 0 ∧
      (ref_read s q = .ok y2 ∨ ((∀ y : node_ref_t, ref_read s q ≠ .ok y) ∧ y2.count = 1))) ∧
    (∀ m mx, node_read s m = .ok mx →
      ∃ x2, node_read s2 m = .ok x2 ∧ ∀ k, slot_get x2 k = slot_get mx k) ∧
    s2.log = s.log := by
  rcases fetch_node_ref_inv_at hf with ⟨hfound, hs, _⟩ |
    ⟨t, tx, _, ht, hself, _, hfound, hs⟩ | ⟨t, tx, q, y, _, _, _, hq, hv, hfound, hs⟩
  · subst hs
    subst hfound
    refine ⟨fun _ _ => rfl, ?_, ?_, rfl⟩
    · intro q h
      cases h
    · intro m mx h
      exact ⟨mx, h, fun _ => rfl⟩
  · subst hs
    subst hfound
    refine ⟨?_, ?_, ?_, by simp [node_write]⟩
    · intro p hp
      have hne : p ≠ malloc_addr s chunk := fun h => hp (by rw [h])
      exact refs_get_ref_store_new_ne _ _ hne
    · intro q hq
      cases hq
      refine ⟨⟨some t, 1, REF_VALID⟩, ?_, by simp [REF_VALID],
        Or.inr ⟨malloc_addr_not_live s chunk, rfl⟩⟩
      rw [ref_read_node_write]
      exact ref_read_ref_store_new_self _ _ _
    · intro m mx hm
      by_cases hmt : t = m
      · subst hmt
        have hxx := node_read_inj ht hm
        subst hxx
        exact ⟨_, node_read_node_write_self _ (by simpa using node_read_lt ht),
          fun k => by cases k <;> rfl⟩
      · exact ⟨mx, by rw [node_read_node_write_ne _ hmt, node_read_ref_store_new]; exact hm,
          fun _ => rfl⟩
  · subst hs
    subst hfound
    refine ⟨fun _ _ => rfl, ?_, ?_, rfl⟩
    · intro q' hq'
      cases hq'
      exact ⟨y, hq, hv, Or.inl hq⟩
    · intro m mx h
      exact ⟨mx, h, fun _ => rfl⟩

theorem ref_inc_cells {s2 s3 : State} {found : Option Nat} (hi : ref_inc s2 found = .ok s3) :
    s3.nodes = s2.nodes ∧ s3.log = s2.log ∧ s3.refs.length = s2.refs.length ∧
    (∀ p, found ≠ some p → s3.refs[p]? = s2.refs[p]?) ∧
    (∀ q y2, found = some q → ref_read s2 q = .ok y2 →
      ref_read s3 q = .ok (ref_inc_cell y2)) := by
  rcases ref_inc_inv hi with ⟨hfound, hs⟩ | ⟨p, x, hfound, hx, hs⟩
  · subst hs
    subst hfound
    refine ⟨rfl, rfl, rfl, fun _ _ => rfl, ?_⟩
    intro q y2 h
    cases h
  · subst hs
    subst hfound
    refine ⟨rfl, rfl, by simp, ?_, ?_⟩
    · intro q hq
      have hne : p ≠ q := fun h => hq (by rw [h])
      exact refs_get_ref_write_ne _ hne
    · intro q y2 hq hy2
      cases hq
      have := ref_read_inj hx hy2
      subst this
      exact ref_read_ref_write_self _ (ref_read_lt hx)

theorem ref_dec_cells {s4 s5 : State} {old : Option Nat} (hd : ref_dec s4 old = .ok s5) :
    s5.refs.length = s4.refs.length ∧
    (∀ p, old ≠ some p → s5.refs[p]? = s4.refs[p]?) ∧
    (∀ r x4, old = some r → ref_read s4 r = .ok x4 → s5.refs[r]? = some (ref_dec_cell x4)) := by
  rcases ref_dec_inv hd with ⟨hold, hs⟩ | ⟨p, x, hold, hx, _, _, hs⟩
  · subst hs
    subst hold
    refine ⟨rfl, fun _ _ => rfl, ?_⟩
    intro r x4 h
    cases h
  · subst hs
    subst hold
    refine ⟨by simp, ?_, ?_⟩
    · intro q hq
      have hne : p ≠ q := fun h => hq (by rw [h])
      exact refs_get_ref_write_ne _ hne
    · intro r x4 hr hx4
      cases hr
      have := ref_read_inj hx hx4
      subst this
      exact refs_get_ref_write_self _ (ref_read_lt hx)

theorem ref_read_of_refs_get_eq {s s1 : State} {p : Nat} (h : s1.refs[p]? = s.refs[p]?) :
    ref_read s1 p = ref_read s p := by
  simp [ref_read, h]

/-! ## Reference count accounting: `return_node` -/

theorem node_ref_valid_false_inv {s : State} {o : Option Nat}
    (h : node_ref_valid s o = .ok false) :
    o = none ∨ ∃ r x, o = some r ∧ ref_read s r = .ok x ∧ x.flags &&& REF_VALID = 0 := by
  cases o with
  | none => exact Or.inl rfl
  | some r =>
    right
    cases hx : ref_read s r with
    | error e => simp [node_ref_valid, hx, bind, Except.bind] at h
    | ok x =>
      rw [node_ref_valid_of_read hx] at h
      refine ⟨r, x, rfl, hx, ?_⟩
      simpa using h

theorem ref_inc_keeps {s2 s3 : State} {found : Option Nat} (hi : ref_inc s2 found = .ok s3)
    {p : Nat} {y : node_ref_t} (hp : ref_read s2 p = .ok y) :
    ∃ y1, ref_read s3 p = .ok y1 ∧ y1.n = y.n ∧ y1.flags = y.flags := by
  obtain ⟨_, _, _, hIa, hIb⟩ := ref_inc_cells hi
  by_cases hfp : found = some p
  · exact ⟨ref_inc_cell y, hIb p y hfp hp, rfl, rfl⟩
  · exact ⟨y, by rw [ref_read_of_refs_get_eq (hIa p hfp)]; exact hp, rfl, rfl⟩

theorem found_ne_old {chunk : Option Nat} {malloc_ok : Bool} {s s2 : State}
    {target : Option Nat} {calls : List Call} {r q : Nat}
    (hf : fetch_node_ref malloc_ok (log_calls s calls) target chunk = .ok (some q, s2))
    (hv : node_ref_valid s (some r) = .ok false) : r ≠ q := by
  intro hrq
  subst hrq
  obtain ⟨_, hFb, _, _⟩ := fetch_node_ref_cells hf
  rcases node_ref_valid_false_inv hv with h0 | ⟨r1, x, hr1, hx, hinv⟩
  · cases h0
  · cases hr1
    obtain ⟨y2, _, hval, hor⟩ := hFb r rfl
    rcases hor with h1 | ⟨h1, _⟩
    · have h1' : ref_read s r = .ok y2 := h1
      have := ref_read_inj hx h1'
      subst this
      exact hval hinv
    · exact h1 x hx

theorem return_node_accounted {chunk : Option Nat} {malloc_ok : Bool} {s s1 : State}
    {n : Nat} {k : Slot}
    {get_func : ref_get_t} {key : knot_dname_t} {zr : zone_read_t} {nsec3 : Bool}
    {v : Option Nat} {nx : zone_node_t}
    (hacc : accounted s) (hptr : pointers_live s) (hmax : counts_below_max s)
    (hn : node_read s n = .ok nx)
    (h : return_node malloc_ok s n k get_func key zr nsec3 chunk = .ok (v, s1)) :
    accounted s1 ∧ pointers_live s1 ∧
    (node_ref_valid s (slot_get nx k) = .ok true → s1 = s) ∧
    (node_ref_valid s (slot_get nx k) = .ok false →
      ∃ nx1, node_read s1 n = .ok nx1 ∧
        resolution_effects s s1 (slot_get nx k) (slot_get nx1 k)) := by
  obtain ⟨nx0, hn0, hcase⟩ := return_node_inv h
  have hnx := node_read_inj hn0 hn
  subst hnx
  rcases hcase with ⟨p, x, hslot, hp, hx, _, hs⟩ |
    ⟨hv, target, calls, found, s2, s3, x3, _, hf, hi, hn3, hd, _, _⟩
  · rw [hs]
    refine ⟨hacc, hptr, fun _ => rfl, ?_⟩
    intro hv
    rw [hslot, node_ref_valid_of_read hp] at hv
    simp [hx] at hv
  · have hacc1 : accounted (log_calls s (Call.get_func key nsec3 :: calls)) :=
      accounted_of_refs_nodes_eq rfl rfl hacc
    have hptr1 : pointers_live (log_calls s (Call.get_func key nsec3 :: calls)) :=
      pointers_live_of_reads rfl (fun p y hp => ⟨y, hp⟩) hptr
    have hmax1 : counts_below_max (log_calls s (Call.get_func key nsec3 :: calls)) :=
      fun r x hx => hmax r x hx
    obtain ⟨hacc2, hptr2, hmax2⟩ := fetch_node_ref_accounted hf hacc1 hptr1 hmax1
    obtain ⟨hFa, hFb, hFn, _⟩ := fetch_node_ref_cells hf
    obtain ⟨hIn, _, hIl, hIa, hIb⟩ := ref_inc_cells hi
    obtain ⟨hDl, hDa, hDb⟩ := ref_dec_cells hd
    obtain ⟨x2, hn2, hslots⟩ := hFn n nx0 hn
    have hn3' : node_read s3 n = .ok x2 := by
      rw [node_read_of_nodes_eq hIn]; exact hn2
    have hx32 := node_read_inj hn3' hn3
    subst hx32
    have hold : slot_get x2 k = slot_get nx0 k := hslots k
    have hacc3 : accounted_with s3 found := by
      rcases ref_inc_inv hi with ⟨hfound, hs⟩ | ⟨q, y, hfound, hy, hs⟩
      · rw [hs, hfound]; exact (accounted_with_none_iff _).mpr hacc2
      · rw [hs, hfound]; exact accounted_step_inc hacc2 hy (hmax2 q y hy)
    have hacc4 := accounted_step_switch hacc3 hn3 k
    have hacc5 : accounted s1 := accounted_step_dec hacc4 hd
    have hptr3 : pointers_live s3 :=
      pointers_live_of_reads hIn (fun p y hp => by
        obtain ⟨y1, hy1, _⟩ := ref_inc_keeps hi hp
        exact ⟨y1, hy1⟩) hptr2
    have hfound_live : ∀ q, found = some q → ∃ y : node_ref_t, ref_read s3 q = .ok y := by
      intro q hq
      obtain ⟨y2, hy2, _⟩ := hFb q hq
      exact ⟨ref_inc_cell y2, hIb q y2 hq hy2⟩
    have hptr4 := pointers_live_node_write_slot hptr3 hn3 k found hfound_live
    have hptr5 : pointers_live s1 := pointers_live_ref_dec hptr4 hacc4 hd
    refine ⟨hacc5, hptr5, ?_, ?_⟩
    · intro hv1
      rw [hv] at hv1
      cases hv1
    · intro _
      have hnode1 : node_read s1 n = .ok (slot_set x2 k found) := by
        rw [node_read_of_nodes_eq (ref_dec_nodes hd).1]
        exact node_read_node_write_self _ (node_read_lt hn3)
      refine ⟨slot_set x2 k found, hnode1, ?_⟩
      rw [slot_get_slot_set]
      have hne : ∀ r q, slot_get nx0 k = some r → found = some q → r ≠ q := by
        intro r q hr hq
        rw [hr] at hv
        rw [hq] at hf
        exact found_ne_old hf hv
      refine ⟨?_, ?_, ?_⟩
      · intro q hq
        obtain ⟨y2, hy2, hval, hor⟩ := hFb q hq
        have h3 : ref_read s3 q = .ok (ref_inc_cell y2) := hIb q y2 hq hy2
        have hoq : slot_get x2 k ≠ some q := by
          intro hc; rw [hold] at hc; exact hne q q hc hq rfl
        have h5 : s1.refs[q]? = s3.refs[q]? := hDa q hoq
        have h5' : ref_read s1 q = .ok (ref_inc_cell y2) := by
          rw [ref_read_of_refs_get_eq h5]; exact h3
        refine ⟨ref_inc_cell y2, h5', ?_⟩
        have hc : (ref_inc_cell y2).count = y2.count + 1 := by
          simp only [ref_inc_cell]; exact Nat.mod_eq_of_lt (hmax2 q y2 hy2)
        rcases hor with h1 | ⟨h1, h1c⟩
        · exact Or.inl ⟨y2, h1, hc⟩
        · exact Or.inr ⟨h1, by rw [hc, h1c]⟩
      · intro r x hr hx
        have hrf : found ≠ some r := fun hc => hne r r hr hc rfl
        have h2 : ref_read s2 r = .ok x := by
          rw [ref_read_of_refs_get_eq (hFa r hrf)]; exact hx
        have h3 : ref_read s3 r = .ok x := by
          rw [ref_read_of_refs_get_eq (hIa r hrf)]; exact h2
        exact hDb r x (by rw [hold]; exact hr) (by rw [ref_read_node_write]; exact h3)
      · intro p hpf hpo
        have h5 : s1.refs[p]? = s3.refs[p]? := hDa p (by rw [hold]; exact hpo)
        rw [h5, hIa p hpf]; exact hFa p hpf

theorem return_node_returns {chunk : Option Nat} {malloc_ok : Bool} {s s2 : State} {n : Nat}
    {k : Slot}
    {get_func : ref_get_t} {key : knot_dname_t} {zr : zone_read_t} {nsec3 : Bool}
    {nx : zone_node_t} {target found : Option Nat} {calls : List Call}
    (hacc : accounted s) (hn : node_read s n = .ok nx)
    (hv : node_ref_valid s (slot_get nx k) = .ok false)
    (hres : get_func s zr key nsec3 = .ok (target, calls))
    (hfetch : fetch_node_ref malloc_ok (log_calls s (Call.get_func key nsec3 :: calls)) target
      chunk = .ok (found, s2)) :
    ∃ v s1, return_node malloc_ok s n k get_func key zr nsec3 chunk = .ok (v, s1) := by
  obtain ⟨hFa, hFb, hFn, _⟩ := fetch_node_ref_cells hfetch
  obtain ⟨x2, hn2, hslots⟩ := hFn n nx hn
  have hold : slot_get x2 k = slot_get nx k := hslots k
  rcases node_ref_valid_false_inv hv with h0 | ⟨r, x, hr, hx, hinv⟩
  · cases found with
    | none => exact ⟨_, _, return_node_install_none hn hv hres hfetch hn2 (hold.trans h0)⟩
    | some p =>
      obtain ⟨y2, hy2, _⟩ := hFb p rfl
      exact ⟨_, _, return_node_install_some hn hv hres hfetch hn2 hy2 (hold.trans h0)⟩
  · have hc : 0 < x.count := by
      rw [hacc r x hx]; exact holders_pos_of_slot hn hr
    cases found with
    | none =>
      have hr2 : ref_read s2 r = .ok x := by
        rw [ref_read_of_refs_get_eq (hFa r (by simp))]; exact hx
      exact ⟨_, _, return_node_install_none_old hn hv hres hfetch hn2 (hold.trans hr) hr2
        hinv hc⟩
    | some p =>
      obtain ⟨y2, hy2, _⟩ := hFb p rfl
      have hrp : r ≠ p := by
        rw [hr] at hv
        exact found_ne_old hfetch hv
      have hr2 : ref_read s2 r = .ok x := by
        rw [ref_read_of_refs_get_eq (hFa r (fun hc => hrp (by cases hc; rfl)))]; exact hx
      exact ⟨_, _, return_node_install_some_old hn hv hres hfetch hn2 hy2 (hold.trans hr) hr2
        hrp hinv hc⟩

/-! ## Reference count accounting: deciding the hypotheses, and two states
in which the accounting is lost -/

theorem accounted_of_check {s : State} (h : accounted_check s = true) : accounted s := by
  intro r x hx
  have hlt := ref_read_lt hx
  have hget := ref_read_ok_iff.mp hx
  unfold accounted_check at h
  rw [List.all_eq_true] at h
  have h1 := h r (List.mem_range.mpr hlt)
  simp only [hget] at h1
  simpa using h1

theorem live_of_check {s : State} {p : Nat}
    (h : (match s.refs[p]? with
      | some (some _) => true
      | _ => false) = true) : ∃ y : node_ref_t, ref_read s p = .ok y := by
  cases hc : s.refs[p]? with
  | none => simp [hc] at h
  | some c =>
    cases c with
    | none => simp [hc] at h
    | some y => exact ⟨y, ref_read_ok_iff.mpr hc⟩

theorem pointers_live_of_check {s : State} (h : pointers_live_check s = true) :
    pointers_live s := by
  intro x hx p hp
  unfold pointers_live_check at h
  rw [List.all_eq_true] at h
  have h1 := h x hx
  simp only [List.all_cons, List.all_nil, Bool.and_true, Bool.and_eq_true] at h1
  obtain ⟨h1, h2, h3, h4⟩ := h1
  rcases hp with hp | hp | hp | hp
  · rw [hp] at h1; exact live_of_check h1
  · rw [hp] at h2; exact live_of_check h2
  · rw [hp] at h3; exact live_of_check h3
  · rw [hp] at h4; exact live_of_check h4

theorem counts_below_max_of_check {s : State} (h : counts_below_max_check s = true) :
    counts_below_max s := by
  intro r x hx
  have hget := ref_read_ok_iff.mp hx
  have hmem : some x ∈ s.refs := List.getElem?_mem hget
  unfold counts_below_max_check at h
  rw [List.all_eq_true] at h
  have h1 := h (some x) hmem
  simpa using h1

theorem ex_state_saturated_accounted (K : Nat) (hK : 3 * K + 3 = 4294967295) :
    accounted (ex_state_saturated K) := by
  intro r x hx
  have hlt := ref_read_lt hx
  have hr : r = 0 := by
    have : r < 1 := hlt
    omega
  subst hr
  have hx0 : x = ⟨some 0, 4294967295, REF_VALID⟩ := by
    have h0 : ref_read (ex_state_saturated K) 0 = .ok ⟨some 0, 4294967295, REF_VALID⟩ := rfl
    exact ref_read_inj hx h0
  subst hx0
  simp [holders, holders_in, ex_state_saturated, slots_holding, ex_node]
  omega

theorem ex_state_saturated_pointers (K : Nat) :
    pointers_live (ex_state_saturated K) := by
  intro x hx p hp
  have hp0 : p = 0 := by
    simp only [ex_state_saturated, List.mem_cons, List.mem_replicate] at hx
    rcases hx with hx | hx | hx | ⟨_, hx⟩ <;> subst hx <;>
      simp [node_points_to, ex_node] at hp <;> omega
  subst hp0
  exact ⟨_, rfl⟩

theorem ex_state_saturated_get (K : Nat) :
    node_ref_get true (ex_state_saturated K) (some 1) .REF_PREVIOUS ex_reader
      = .ok (some 0, ex_state_saturated_resolved K) := rfl

theorem ex_state_saturated_resolved_lost (K : Nat) :
    ¬ accounted (ex_state_saturated_resolved K) := by
  intro h
  have h0 : ref_read (ex_state_saturated_resolved K) 0 = .ok ⟨some 0, 0, REF_VALID⟩ := rfl
  have h1 := h 0 _ h0
  have h2 : node_read (ex_state_saturated_resolved K) 1
      = .ok { ex_node [[98], ex_test] [⟨16, [2]⟩] with prev := some 0 } := rfl
  have h3 : 0 < holders (ex_state_saturated_resolved K) 0 :=
    holders_pos_of_slot (k := Slot.prev) h2 rfl
  have h4 : (0 : Nat) = holders (ex_state_saturated_resolved K) 0 := h1
  omega

theorem ex_state_dangling_resolved_lost : ¬ accounted ex_state_dangling_resolved := by
  intro h
  have h0 : ref_read ex_state_dangling_resolved 0 = .ok ⟨some 0, 2, REF_VALID⟩ := rfl
  have h1 := h 0 _ h0
  have h2 : holders ex_state_dangling_resolved 0 = 3 := by decide
  have h4 : (2 : Nat) = holders ex_state_dangling_resolved 0 := h1
  omega

theorem ex_state_saturated_resolved_count (K : Nat) :
    ref_read (ex_state_saturated_resolved K) 0 = .ok ⟨some 0, 0, REF_VALID⟩ := rfl

theorem node_ref_valid_true_inv {s : State} {o : Option Nat}
    (h : node_ref_valid s o = .ok true) :
    ∃ r x, o = some r ∧ ref_read s r = .ok x ∧ x.flags &&& REF_VALID ≠ 0 := by
  cases o with
  | none => cases h
  | some r =>
    cases hx : ref_read s r with
    | error e => simp [node_ref_valid, hx, bind, Except.bind] at h
    | ok x =>
      rw [node_ref_valid_of_read hx] at h
      refine ⟨r, x, rfl, hx, ?_⟩
      simpa using h

theorem node_ref_get_nsec3_prev_eq {chunk : Option Nat}
    {s : State} {n : Nat} {nx : zone_node_t} (malloc_ok : Bool)
    (zr : zone_read_t) (hn : node_read s n = .ok nx) :
    node_ref_get_nsec3 malloc_ok s (some n) .REF_PREVIOUS zr chunk =
      return_node malloc_ok s n .prev get_prev nx.owner zr false chunk := by
  simp [node_ref_get_nsec3, hn, bind, Except.bind]

theorem node_ref_get_nsec3_parent_eq {chunk : Option Nat} {s : State} {n : Nat} {nx : zone_node_t}
    (malloc_ok : Bool) (zr : zone_read_t) (hn : node_read s n = .ok nx) :
    node_ref_get_nsec3 malloc_ok s (some n) .REF_PARENT zr chunk =
      return_node malloc_ok s n .parent get_apex nx.owner zr false chunk := by
  simp [node_ref_get_nsec3, hn, bind, Except.bind]

/-! ## C15: reference count accounting is preserved by resolution -/

theorem node_ref_get_accounted (malloc_ok : Bool) (chunk : Option Nat) (s : State) (n : Nat)
    (nx : zone_node_t) (type : node_ref_type) (zr : zone_read_t)
    (hacc : accounted s) (hptr : pointers_live s) (hmax : counts_below_max s)
    (hn : node_read s n = .ok nx) :
    (∀ v s1, (node_ref_get malloc_ok s (some n) type zr chunk = .ok (v, s1) ∨
        node_ref_get_nsec3 malloc_ok s (some n) type zr chunk = .ok (v, s1)) →
      accounted s1 ∧ pointers_live s1 ∧
      (node_ref_valid s (slot_get nx (node_ref_get_slot type)) = .ok true → s1 = s) ∧
      (node_ref_valid s (slot_get nx (node_ref_get_slot type)) = .ok false →
        ∃ nx1, node_read s1 n = .ok nx1 ∧
          resolution_effects s s1 (slot_get nx (node_ref_get_slot type))
            (slot_get nx1 (node_ref_get_slot type)))) ∧
    (node_ref_valid s (slot_get nx (node_ref_get_slot type)) = .ok true →
      ∃ v, node_ref_get malloc_ok s (some n) type zr chunk = .ok (v, s)) ∧
    (∀ target calls found s2,
      node_ref_valid s (slot_get nx (node_ref_get_slot type)) = .ok false →
      node_ref_get_func type s zr nx.owner false = .ok (target, calls) →
      fetch_node_ref malloc_ok (log_calls s (Call.get_func nx.owner false :: calls)) target
        chunk = .ok (found, s2) →
      ∃ v s1, node_ref_get malloc_ok s (some n) type zr chunk = .ok (v, s1)) ∧
    (∀ target calls found s2,
      node_ref_valid s (slot_get nx .prev) = .ok false →
      get_prev s zr nx.owner false = .ok (target, calls) →
      fetch_node_ref malloc_ok (log_calls s (Call.get_func nx.owner false :: calls)) target
        chunk = .ok (found, s2) →
      ∃ v s1, node_ref_get_nsec3 malloc_ok s (some n) .REF_PREVIOUS zr chunk = .ok (v, s1)) ∧
    (∀ target calls found s2,
      node_ref_valid s (slot_get nx .parent) = .ok false →
      get_apex s zr nx.owner false = .ok (target, calls) →
      fetch_node_ref malloc_ok (log_calls s (Call.get_func nx.owner false :: calls)) target
        chunk = .ok (found, s2) →
      ∃ v s1, node_ref_get_nsec3 malloc_ok s (some n) .REF_PARENT zr chunk = .ok (v, s1)) := by
  refine ⟨?_, ?_, ?_, ?_, ?_⟩
  · intro v s1 h
    rcases h with h | h
    · rw [node_ref_get_eq malloc_ok type zr hn] at h
      exact return_node_accounted hacc hptr hmax hn h
    · cases type with
      | REF_PREVIOUS =>
        rw [node_ref_get_nsec3_prev_eq malloc_ok zr hn] at h
        exact return_node_accounted hacc hptr hmax hn h
      | REF_PARENT =>
        rw [node_ref_get_nsec3_parent_eq malloc_ok zr hn] at h
        exact return_node_accounted hacc hptr hmax hn h
      | REF_NSEC3 => simp [node_ref_get_nsec3] at h
  · intro hv
    obtain ⟨r, x, hr, hx, hval⟩ := node_ref_valid_true_inv hv
    rw [node_ref_get_eq malloc_ok type zr hn]
    exact ⟨x.n, return_node_hit malloc_ok _ _ zr false hn hr hx hval⟩
  · intro target calls found s2 hv hres hf
    rw [node_ref_get_eq malloc_ok type zr hn]
    exact return_node_returns hacc hn hv hres hf
  · intro target calls found s2 hv hres hf
    rw [node_ref_get_nsec3_prev_eq malloc_ok zr hn]
    exact return_node_returns hacc hn hv hres hf
  · intro target calls found s2 hv hres hf
    rw [node_ref_get_nsec3_parent_eq malloc_ok zr hn]
    exact return_node_returns hacc hn hv hres hf

/-- C15 (with the provisos the code needs): let the accounting equation hold in
`s` (the count of every live reference is 1 if it is some node's self
reference, else 0, plus the number of previous, parent and NSEC3 slots holding
it), let no counter be at `2^32 - 1`, and let no node hold a dangling pointer
(every pointer stored in a node addresses a live reference object).  Let
`slot` be the slot of the kind `type` (previous, parent, NSEC3) and `get_func`
its resolution function.  Then, for a node `n` and whichever chunk `malloc`
returns (a new one or one freed before): whenever `node_ref_get` or
`node_ref_get_nsec3` returns, the accounting equation holds in the state after
the call, and still no node holds a dangling pointer; on a cache hit the state
is unchanged, so no count changes; on a cache miss the installed reference has
exactly one count more than before (2 when it was created by the call), the
replaced reference exactly one less (freed at zero), and every other cell of
the heap is unchanged.  Moreover the call does return: on a hit always, and on
a miss as soon as the resolution function and `fetch_node_ref` return, so
neither assertion of `ref_dec` fails. -/
theorem C15_accounting_preserved_by_resolution (malloc_ok : Bool) (chunk : Option Nat)
    (s : State) (n : Nat) (nx : zone_node_t) (type : node_ref_type) (slot : Slot)
    (get_func : ref_get_t) (zr : zone_read_t)
    (hk : (type = .REF_PREVIOUS ∧ slot = .prev ∧ get_func = get_prev) ∨
      (type = .REF_PARENT ∧ slot = .parent ∧ get_func = get_parent) ∨
      (type = .REF_NSEC3 ∧ slot = .nsec3_node ∧ get_func = get_nsec3))
    (hacc : accounted s) (hptr : pointers_live s) (hmax : counts_below_max s)
    (hn : node_read s n = .ok nx) :
    (∀ v s1, (node_ref_get malloc_ok s (some n) type zr chunk = .ok (v, s1) ∨
        node_ref_get_nsec3 malloc_ok s (some n) type zr chunk = .ok (v, s1)) →
      accounted s1 ∧ pointers_live s1 ∧
      (node_ref_valid s (slot_get nx slot) = .ok true → s1 = s) ∧
      (node_ref_valid s (slot_get nx slot) = .ok false →
        ∃ nx1, node_read s1 n = .ok nx1 ∧
          resolution_effects s s1 (slot_get nx slot) (slot_get nx1 slot))) ∧
    (node_ref_valid s (slot_get nx slot) = .ok true →
      ∃ v, node_ref_get malloc_ok s (some n) type zr chunk = .ok (v, s)) ∧
    (∀ target calls found s2,
      node_ref_valid s (slot_get nx slot) = .ok false →
      get_func s zr nx.owner false = .ok (target, calls) →
      fetch_node_ref malloc_ok (log_calls s (Call.get_func nx.owner false :: calls)) target
        chunk = .ok (found, s2) →
      ∃ v s1, node_ref_get malloc_ok s (some n) type zr chunk = .ok (v, s1)) ∧
    (∀ target calls found s2,
      node_ref_valid s nx.prev = .ok false →
      get_prev s zr nx.owner false = .ok (target, calls) →
      fetch_node_ref malloc_ok (log_calls s (Call.get_func nx.owner false :: calls)) target
        chunk = .ok (found, s2) →
      ∃ v s1, node_ref_get_nsec3 malloc_ok s (some n) .REF_PREVIOUS zr chunk = .ok (v, s1)) ∧
    (∀ target calls found s2,
      node_ref_valid s nx.parent = .ok false →
      get_apex s zr nx.owner false = .ok (target, calls) →
      fetch_node_ref malloc_ok (log_calls s (Call.get_func nx.owner false :: calls)) target
        chunk = .ok (found, s2) →
      ∃ v s1, node_ref_get_nsec3 malloc_ok s (some n) .REF_PARENT zr chunk = .ok (v, s1)) := by
  rcases hk with ⟨rfl, rfl, rfl⟩ | ⟨rfl, rfl, rfl⟩ | ⟨rfl, rfl, rfl⟩
  · exact node_ref_get_accounted malloc_ok chunk s n nx .REF_PREVIOUS zr hacc hptr hmax hn
  · exact node_ref_get_accounted malloc_ok chunk s n nx .REF_PARENT zr hacc hptr hmax hn
  · exact node_ref_get_accounted malloc_ok chunk s n nx .REF_NSEC3 zr hacc hptr hmax hn

/-- C15, witness: in the example zone whose node `g.test.` holds the
invalidated reference 0 (count 2), resolving its previous node against the
zone with `f.test.` added keeps the accounting equation: the new reference 1
has count 2, the replaced reference 0 has count 1.  And in the zone with the
chunk at address 0 freed and no pointer left to it, a resolution for which
`malloc` returns that chunk keeps the equation as well. -/
theorem C15_accounting_preserved_by_resolution_witness :
    (accounted ex_state_stale ∧ pointers_live ex_state_stale ∧
      counts_below_max ex_state_stale ∧
      node_ref_get true ex_state_stale (some 3) .REF_PREVIOUS ex_reader_f
        = .ok (some 4, ex_state_stale_resolved) ∧
      accounted ex_state_stale_resolved ∧ pointers_live ex_state_stale_resolved ∧
      ∃ nx1, node_read ex_state_stale_resolved 3 = .ok nx1 ∧
        resolution_effects ex_state_stale ex_state_stale_resolved (some 0)
          (slot_get nx1 .prev)) ∧
    (accounted ex_state_freed ∧ pointers_live ex_state_freed ∧
      counts_below_max ex_state_freed ∧
      node_ref_get true ex_state_freed (some 1) .REF_PREVIOUS ex_reader (some 0)
        = .ok (some 0, ex_state_freed_resolved) ∧
      ref_read ex_state_freed_resolved 0 = .ok ⟨some 0, 2, REF_VALID⟩ ∧
      accounted ex_state_freed_resolved ∧ pointers_live ex_state_freed_resolved) :=
  have h := (C15_accounting_preserved_by_resolution true none ex_state_stale 3
    { ex_node [[103], ex_test] [⟨16, [2]⟩] with prev := some 0 } .REF_PREVIOUS .prev get_prev
    ex_reader_f (Or.inl ⟨rfl, rfl, rfl⟩)
    (accounted_of_check (by decide)) (pointers_live_of_check (by decide))
    (counts_below_max_of_check (by decide)) (by decide)).1 (some 4) ex_state_stale_resolved
    (Or.inl (by decide))
  have g := (C15_accounting_preserved_by_resolution true (some 0) ex_state_freed 1
    (ex_node [[98], ex_test] [⟨16, [2]⟩]) .REF_PREVIOUS .prev get_prev
    ex_reader (Or.inl ⟨rfl, rfl, rfl⟩)
    (accounted_of_check (by decide)) (pointers_live_of_check (by decide))
    (counts_below_max_of_check (by decide)) (by decide)).1 (some 0) ex_state_freed_resolved
    (Or.inl (by decide))
  ⟨⟨accounted_of_check (by decide), pointers_live_of_check (by decide),
      counts_below_max_of_check (by decide), by decide, h.1, h.2.1, h.2.2.2 (by decide)⟩,
    ⟨accounted_of_check (by decide), pointers_live_of_check (by decide),
      counts_below_max_of_check (by decide), by decide, by decide, g.1, g.2.1⟩⟩

/-- C15, counterexample: the accounting equation alone does not carry over.
(1) In `ex_state_saturated` the reference at address 0 has `2^32 - 1` holders
and count `2^32 - 1`; the equation holds and no node holds a dangling pointer,
yet after `b.test.` has resolved its previous node the counter has wrapped to 0
while the reference has `2^32` holders.  (2) In `ex_state_dangling` there is no
live reference object, so the equation holds and no counter is at its maximum,
but the parent slot of `e.test.` still holds the address of a freed reference
object; `malloc` returns that chunk for the new reference, which after the
resolution has count 2 and three holders. -/
theorem C15_counterexample_accounting_lost :
    (accounted (ex_state_saturated 1431655764) ∧
      pointers_live (ex_state_saturated 1431655764) ∧
      node_ref_get true (ex_state_saturated 1431655764) (some 1) .REF_PREVIOUS ex_reader
        = .ok (some 0, ex_state_saturated_resolved 1431655764) ∧
      ref_read (ex_state_saturated_resolved 1431655764) 0 = .ok ⟨some 0, 0, REF_VALID⟩ ∧
      ¬ accounted (ex_state_saturated_resolved 1431655764)) ∧
    (accounted ex_state_dangling ∧ counts_below_max ex_state_dangling ∧
      node_ref_get true ex_state_dangling (some 1) .REF_PREVIOUS ex_reader (some 0)
        = .ok (some 0, ex_state_dangling_resolved) ∧
      ref_read ex_state_dangling_resolved 0 = .ok ⟨some 0, 2, REF_VALID⟩ ∧
      holders ex_state_dangling_resolved 0 = 3 ∧
      ¬ accounted ex_state_dangling_resolved) :=
  ⟨⟨ex_state_saturated_accounted _ (by norm_num), ex_state_saturated_pointers _,
      ex_state_saturated_get _, ex_state_saturated_resolved_count _,
      ex_state_saturated_resolved_lost _⟩,
    ⟨accounted_of_check (by decide), counts_below_max_of_check (by decide), by decide,
      by decide, by decide, ex_state_dangling_resolved_lost⟩⟩

/-! ## Resolution on an absent slot: what stays as it was -/

theorem fetch_node_ref_nodes {malloc_ok : Bool} {s s2 : State} {target found : Option Nat}
    (hf : fetch_node_ref malloc_ok s target = .ok (found, s2)) :
    s2.nodes.length = s.nodes.length ∧
    ∀ m mx, node_read s m = .ok mx →
      ∃ x2, node_read s2 m = .ok x2 ∧ x2.owner = mx.owner ∧
        (∀ k, slot_get x2 k = slot_get mx k) ∧
        (x2.self_ref = mx.self_ref ∨
          (mx.self_ref = none ∧ x2.self_ref = some s.refs.length ∧
            ref_read s2 s.refs.length = .ok ⟨some m, 1, REF_VALID⟩)) := by
  rcases fetch_node_ref_inv hf with ⟨_, hs, _⟩ | ⟨t, tx, _, ht, hself, _, _, hs⟩ |
    ⟨t, tx, q, y, _, _, _, _, _, _, hs⟩
  · rw [hs]
    exact ⟨rfl, fun m mx h => ⟨mx, h, rfl, fun _ => rfl, Or.inl rfl⟩⟩
  · rw [hs]
    refine ⟨by simp, ?_⟩
    intro m mx hm
    by_cases hmt : t = m
    · subst hmt
      have hxx := node_read_inj ht hm
      subst hxx
      refine ⟨_, node_read_node_write_self _ (by simpa using node_read_lt ht), rfl,
        fun k => by cases k <;> rfl, Or.inr ⟨hself, rfl, ?_⟩⟩
      rw [ref_read_node_write]
      exact ref_read_ref_alloc_new _ _
    · exact ⟨mx, by rw [node_read_node_write_ne _ hmt]; exact hm, rfl, fun _ => rfl,
        Or.inl rfl⟩
  · rw [hs]
    exact ⟨rfl, fun m mx h => ⟨mx, h, rfl, fun _ => rfl, Or.inl rfl⟩⟩

theorem fetch_node_ref_keeps {malloc_ok : Bool} {s s2 : State} {target found : Option Nat}
    (hf : fetch_node_ref malloc_ok s target = .ok (found, s2)) {p : Nat} {y : node_ref_t}
    (hp : ref_read s p = .ok y) : ref_read s2 p = .ok y := by
  obtain ⟨hFa, hFb, _, _⟩ := fetch_node_ref_cells hf
  by_cases hfp : found = some p
  · obtain ⟨y2, hy2, _, hor⟩ := hFb p hfp
    rcases hor with h1 | ⟨h1, _⟩
    · rw [hp] at h1
      rw [hy2]
      exact h1.symm
    · exact absurd hp (h1 y)
  · rw [ref_read_of_refs_get_eq (hFa p hfp)]
    exact hp

theorem return_node_absent_frame {malloc_ok : Bool} {s s1 : State} {n : Nat} {k : Slot}
    {get_func : ref_get_t} {key : knot_dname_t} {zr : zone_read_t} {nsec3 : Bool}
    {v : Option Nat} {nx : zone_node_t}
    (hn : node_read s n = .ok nx) (hslot : slot_get nx k = none)
    (h : return_node malloc_ok s n k get_func key zr nsec3 = .ok (v, s1)) :
    s1.nodes.length = s.nodes.length ∧
    (∀ p y, ref_read s p = .ok y →
      ∃ y1, ref_read s1 p = .ok y1 ∧ y1.n = y.n ∧ y1.flags = y.flags) ∧
    (∀ m mx, node_read s m = .ok mx →
      ∃ mx1, node_read s1 m = .ok mx1 ∧ mx1.owner = mx.owner ∧
        (m ≠ n → ∀ j, slot_get mx1 j = slot_get mx j) ∧
        (mx1.self_ref = mx.self_ref ∨
          (mx.self_ref = none ∧ ∃ q y, mx1.self_ref = some q ∧ ref_read s1 q = .ok y ∧
            y.flags &&& REF_VALID ≠ 0 ∧ y.n = some m))) := by
  obtain ⟨nx0, hn0, hcase⟩ := return_node_inv h
  have hnx := node_read_inj hn0 hn
  subst hnx
  rcases hcase with ⟨p, x, hp, _⟩ |
    ⟨_, target, calls, found, s2, s3, x3, _, hf, hi, hn3, hd, _, _⟩
  · rw [hslot] at hp
    cases hp
  · obtain ⟨hFl, hFn⟩ := fetch_node_ref_nodes hf
    obtain ⟨hIn, _, _, _, _⟩ := ref_inc_cells hi
    obtain ⟨x2, hn2, _, hslots, _⟩ := hFn n nx0 hn
    have hn3' : node_read s3 n = .ok x2 := by
      rw [node_read_of_nodes_eq hIn]; exact hn2
    have hx32 := node_read_inj hn3' hn3
    subst hx32
    have hold : slot_get x2 k = none := (hslots k).trans hslot
    rw [hold] at hd
    have hs1 : s1 = node_write s3 n (slot_set x2 k found) := by
      simp only [ref_dec, Except.ok.injEq] at hd
      exact hd.symm
    have hrefs : ∀ p y, ref_read s2 p = .ok y →
        ∃ y1, ref_read s1 p = .ok y1 ∧ y1.n = y.n ∧ y1.flags = y.flags := by
      intro p y hp
      obtain ⟨y1, hy1, h1, h2⟩ := ref_inc_keeps hi hp
      refine ⟨y1, ?_, h1, h2⟩
      rw [hs1, ref_read_node_write]
      exact hy1
    refine ⟨?_, ?_, ?_⟩
    · rw [hs1]
      simp only [nodes_length_node_write]
      rw [hIn]
      exact hFl
    · intro p y hp
      exact hrefs p y (fetch_node_ref_keeps hf hp)
    · intro m mx hm
      obtain ⟨m2, hm2, hown, hsl, hself⟩ := hFn m mx hm
      have hm3 : node_read s3 m = .ok m2 := by
        rw [node_read_of_nodes_eq hIn]; exact hm2
      have hself1 : ∀ mx1 : zone_node_t, mx1.self_ref = m2.self_ref →
          (mx1.self_ref = mx.self_ref ∨
            (mx.self_ref = none ∧ ∃ q y, mx1.self_ref = some q ∧ ref_read s1 q = .ok y ∧
              y.flags &&& REF_VALID ≠ 0 ∧ y.n = some m)) := by
        intro mx1 h1
        rcases hself with h2 | ⟨h2, h3, h4⟩
        · exact Or.inl (h1.trans h2)
        · right
          obtain ⟨y1, hy1, hy1n, hy1f⟩ := hrefs _ _ h4
          refine ⟨h2, _, y1, h1.trans h3, hy1, ?_, hy1n⟩
          rw [hy1f]
          simp [REF_VALID]
      by_cases hmn : n = m
      · subst hmn
        have := node_read_inj hm3 hn3
        subst this
        refine ⟨slot_set m2 k found, ?_, ?_, fun hne => absurd rfl hne, ?_⟩
        · rw [hs1]; exact node_read_node_write_self _ (node_read_lt hn3)
        · rw [owner_slot_set]; exact hown
        · exact hself1 _ (self_ref_slot_set _ _ _)
      · refine ⟨m2, ?_, hown, fun _ => hsl, hself1 _ rfl⟩
        rw [hs1, node_read_node_write_ne _ hmn]
        exact hm3

/-! ## Resolving the previous reference of every node of a sorted tree -/

theorem prev_node_some_iff {s : State} {u w : Nat} :
    prev_node s u = some w ↔
      ∃ x q y, node_read s u = .ok x ∧ x.prev = some q ∧ ref_read s q = .ok y ∧
        y.flags &&& REF_VALID ≠ 0 ∧ y.n = some w := by
  unfold prev_node
  cases hx : node_read s u with
  | error e => simp
  | ok x =>
    cases hq : x.prev with
    | none => simp [hq]
    | some q =>
      cases hy : ref_read s q with
      | error e => simp [hq, hy]
      | ok y =>
        by_cases hv : y.flags &&& REF_VALID = 0
        · simp [hq, hy, hv]
        · simp [hq, hy, hv]

theorem node_read_of_lt {s : State} {m : Nat} (h : m < s.nodes.length) :
    ∃ mx, node_read s m = .ok mx :=
  ⟨s.nodes[m], node_read_ok_iff.mpr (List.getElem?_eq_getElem h)⟩

theorem previous_lookup_eq {s : State} {zr : zone_read_t} {u : Nat} {x : zone_node_t}
    (h : node_read s u = .ok x) :
    previous_lookup s zr u = zr.zone_read_previous_for_type x.owner KNOT_RRTYPE_ANY := by
  simp [previous_lookup, h]

theorem node_ref_get_prev_step {s : State} {zr : zone_read_t} {v t : Nat}
    {x tx : zone_node_t}
    (hwf : self_refs_own s) (hv : node_read s v = .ok x)
    (hres : zr.zone_read_previous_for_type x.owner KNOT_RRTYPE_ANY = some t)
    (hq : x.prev = none ∨ prev_node s v = some t)
    (ht : node_read s t = .ok tx) :
    ∃ s1, node_ref_get true s (some v) .REF_PREVIOUS zr = .ok (some t, s1) ∧
      self_refs_own s1 ∧ prev_node s1 v = some t ∧
      s1.nodes.length = s.nodes.length ∧
      (∀ u w, prev_node s u = some w → prev_node s1 u = some w) ∧
      (∀ m mx, node_read s m = .ok mx →
        ∃ mx1, node_read s1 m = .ok mx1 ∧ mx1.owner = mx.owner ∧
          (m ≠ v → mx1.prev = mx.prev)) := by
  rcases hq with hnone | hhit
  · have hself : (tx.self_ref = none ∧ true = true) ∨
        (∃ q y, tx.self_ref = some q ∧ ref_read s q = .ok y ∧ y.flags &&& REF_VALID ≠ 0 ∧
          y.n = some t) := by
      cases htself : tx.self_ref with
      | none => exact Or.inl ⟨rfl, rfl⟩
      | some q =>
        obtain ⟨y, hy, hyv, hyn⟩ := hwf t tx q ht htself
        exact Or.inr ⟨q, y, rfl, hy, hyv, hyn⟩
    have hres1 : node_ref_get_func .REF_PREVIOUS s zr x.owner false
        = .ok (some t, [Call.previous_for_type x.owner KNOT_RRTYPE_ANY]) := by
      simp [node_ref_get_func, get_prev, hres]
    have hnone1 : slot_get x (node_ref_get_slot .REF_PREVIOUS) = none := hnone
    obtain ⟨s1, q, y1, hget, _, ⟨nx1, hnx1, hslot1⟩, _, hq1, hyn, hyv, _⟩ :=
      node_ref_get_some hv (Or.inl hnone1) hres1 ht hself
    have hget1 := hget
    rw [node_ref_get_eq true .REF_PREVIOUS zr hv] at hget1
    obtain ⟨hlen, hrefs, hnodes⟩ := return_node_absent_frame hv hnone1 hget1
    refine ⟨s1, hget, ?_, ?_, hlen, ?_, ?_⟩
    · intro m mx1 q1 hm1 hs1
      have hmlt : m < s.nodes.length := by
        rw [← hlen]; exact node_read_lt hm1
      obtain ⟨mx, hm⟩ := node_read_of_lt hmlt
      obtain ⟨mx2, hm2, _, _, hself2⟩ := hnodes m mx hm
      have := node_read_inj hm1 hm2
      subst this
      rcases hself2 with h2 | ⟨_, q2, y2, h2, hy2, hy2v, hy2n⟩
      · obtain ⟨y, hy, hyv0, hyn0⟩ := hwf m mx q1 hm (h2.symm.trans hs1)
        obtain ⟨y3, hy3, hy3n, hy3f⟩ := hrefs q1 y hy
        exact ⟨y3, hy3, by rw [hy3f]; exact hyv0, by rw [hy3n]; exact hyn0⟩
      · have hqq : q2 = q1 := by
          rw [hs1] at h2
          cases h2
          rfl
        subst hqq
        exact ⟨y2, hy2, hy2v, hy2n⟩
    · exact prev_node_some_iff.mpr ⟨nx1, q, y1, hnx1, hslot1, hq1, hyv, hyn⟩
    · intro u w hu
      obtain ⟨ux, uq, uy, hux, huq, huy, huv, hun⟩ := prev_node_some_iff.mp hu
      have huv1 : u ≠ v := by
        intro huv1
        subst huv1
        have := node_read_inj hux hv
        subst this
        rw [hnone] at huq
        cases huq
      obtain ⟨ux1, hux1, _, hsl, _⟩ := hnodes u ux hux
      obtain ⟨uy1, huy1, huy1n, huy1f⟩ := hrefs uq uy huy
      have hp : ux1.prev = some uq := (hsl huv1 Slot.prev).trans huq
      exact prev_node_some_iff.mpr
        ⟨ux1, uq, uy1, hux1, hp, huy1, by rw [huy1f]; exact huv, by rw [huy1n]; exact hun⟩
    · intro m mx hm
      obtain ⟨mx1, hm1, hown, hsl, _⟩ := hnodes m mx hm
      exact ⟨mx1, hm1, hown, fun hne => hsl hne Slot.prev⟩
  · obtain ⟨x1, q, y, hx1, hq1, hy, hyv, hyn⟩ := prev_node_some_iff.mp hhit
    have := node_read_inj hx1 hv
    subst this
    refine ⟨s, ?_, hwf, hhit, rfl, fun _ _ h => h, fun m mx hm => ⟨mx, hm, rfl, fun _ => rfl⟩⟩
    rw [node_ref_get_eq true .REF_PREVIOUS zr hv]
    have h := @return_node_hit none _ _ _ Slot.prev _ _ true (node_ref_get_func .REF_PREVIOUS)
      x1.owner zr false hv hq1 hy hyv
    rw [hyn] at h
    exact h

theorem adjust_prev_resolves (zr : zone_read_t) : ∀ (l : List Nat) (s : State),
    self_refs_own s →
    (∀ u ∈ l, ∃ x t tx, node_read s u = .ok x ∧
      zr.zone_read_previous_for_type x.owner KNOT_RRTYPE_ANY = some t ∧
      node_read s t = .ok tx ∧ (x.prev = none ∨ prev_node s u = some t)) →
    ∃ s1, adjust_prev true zr l s = .ok s1 ∧ self_refs_own s1 ∧
      (∀ u w, prev_node s u = some w → prev_node s1 u = some w) ∧
      (∀ m mx, node_read s m = .ok mx →
        ∃ mx1, node_read s1 m = .ok mx1 ∧ mx1.owner = mx.owner) ∧
      (∀ u ∈ l, prev_node s1 u = previous_lookup s zr u) := by
  intro l
  induction l with
  | nil =>
    intro s hwf _
    exact ⟨s, rfl, hwf, fun _ _ h => h, fun m mx hm => ⟨mx, hm, rfl⟩,
      fun u hu => by cases hu⟩
  | cons v rest ih =>
    intro s hwf hall
    obtain ⟨x, t, tx, hv, hres, ht, hq⟩ := hall v (List.mem_cons_self _ _)
    obtain ⟨s1, hget, hwf1, hpv, _, hmono, hframe⟩ := node_ref_get_prev_step hwf hv hres hq ht
    have hall1 : ∀ u ∈ rest, ∃ x t tx, node_read s1 u = .ok x ∧
        zr.zone_read_previous_for_type x.owner KNOT_RRTYPE_ANY = some t ∧
        node_read s1 t = .ok tx ∧ (x.prev = none ∨ prev_node s1 u = some t) := by
      intro u hu
      obtain ⟨ux, ut, utx, hux, hures, hut, huq⟩ := hall u (List.mem_cons_of_mem _ hu)
      obtain ⟨ux1, hux1, hown, hprev⟩ := hframe u ux hux
      obtain ⟨utx1, hutx1, _, _⟩ := hframe ut utx hut
      refine ⟨ux1, ut, utx1, hux1, by rw [hown]; exact hures, hutx1, ?_⟩
      rcases huq with h0 | h1
      · by_cases huv : u = v
        · subst huv
          have := node_read_inj hux hv
          subst this
          rw [hres] at hures
          cases hures
          exact Or.inr hpv
        · exact Or.inl ((hprev huv).trans h0)
      · exact Or.inr (hmono u ut h1)
    obtain ⟨s2, hadj, hwf2, hmono2, hframe2, hfin⟩ := ih s1 hwf1 hall1
    refine ⟨s2, ?_, hwf2, fun u w h => hmono2 u w (hmono u w h), ?_, ?_⟩
    · simp only [adjust_prev, hget, bind, Except.bind]
      exact hadj
    · intro m mx hm
      obtain ⟨mx1, hm1, hown1, _⟩ := hframe m mx hm
      obtain ⟨mx2, hm2, hown2⟩ := hframe2 m mx1 hm1
      exact ⟨mx2, hm2, hown2.trans hown1⟩
    · intro u hu
      rcases List.mem_cons.mp hu with huv | hur
      · subst huv
        rw [previous_lookup_eq hv, hres]
        exact hmono2 u t hpv
      · obtain ⟨ux, _, _, hux, _, _, _⟩ := hall u hu
        obtain ⟨ux1, hux1, hown, _⟩ := hframe u ux hux
        rw [hfin u hur, previous_lookup_eq hux1, previous_lookup_eq hux, hown]

theorem all_eq_of_forall {α : Type} (l : List α) (f g : α → Bool)
    (h : ∀ a ∈ l, f a = g a) : l.all f = l.all g := by
  induction l with
  | nil => rfl
  | cons a l ih =>
    simp only [List.all_cons]
    rw [h a (List.mem_cons_self _ _), ih (fun b hb => h b (List.mem_cons_of_mem _ hb))]

theorem prev_links_cyclic_of_lookup {s s1 : State} {zr : zone_read_t} {vals : List Nat}
    (h : ∀ u ∈ vals, prev_node s1 u = previous_lookup s zr u) :
    prev_links_cyclic s1 vals = lookup_cyclic s zr vals := by
  cases vals with
  | nil => rfl
  | cons first rest =>
    have hfirst := h first (List.mem_cons_self _ _)
    have hall : ((first :: rest).zip rest).all (fun ab => prev_node s1 ab.2 == some ab.1) =
        ((first :: rest).zip rest).all (fun ab => previous_lookup s zr ab.2 == some ab.1) := by
      apply all_eq_of_forall
      intro ab hab
      have hmem : ab.2 ∈ rest := (List.of_mem_zip (a := ab.1) (b := ab.2) hab).2
      rw [h ab.2 (List.mem_cons_of_mem _ hmem)]
    simp only [prev_links_cyclic, lookup_cyclic, hfirst, hall]

theorem exists_zip_pred (b : Nat) : ∀ (l : List Nat) (a0 : Nat), b ∈ l →
    ∃ a, (a, b) ∈ (a0 :: l).zip l := by
  intro l
  induction l with
  | nil => intro a0 h; cases h
  | cons c l ih =>
    intro a0 h
    rcases List.mem_cons.mp h with hbc | hbl
    · subst hbc
      exact ⟨a0, by simp⟩
    · obtain ⟨a, ha⟩ := ih c hbl
      exact ⟨a, by simp only [List.zip_cons_cons]; exact List.mem_cons_of_mem _ ha⟩

theorem lookup_cyclic_some {s : State} {zr : zone_read_t} {first : Nat} {rest : List Nat}
    (hcyc : lookup_cyclic s zr (first :: rest) = true) :
    ∀ u ∈ first :: rest, ∃ t, t ∈ first :: rest ∧ previous_lookup s zr u = some t := by
  simp only [lookup_cyclic, Bool.and_eq_true, List.all_eq_true, beq_iff_eq] at hcyc
  obtain ⟨hall, hfirst⟩ := hcyc
  intro u hu
  rcases List.mem_cons.mp hu with huf | hur
  · subst huf
    refine ⟨(u :: rest).getLast (by simp), List.getLast_mem _, ?_⟩
    rw [hfirst]
    exact List.getLast?_eq_getLast _ _
  · obtain ⟨a, ha⟩ := exists_zip_pred u rest first hur
    exact ⟨a, (List.of_mem_zip ha).1, hall (a, u) ha⟩

theorem test_prev_for_tree_false {s : State} {first : Nat} {rest : List Nat}
    (h : ∀ u ∈ first :: rest, ∃ x, node_read s u = .ok x) :
    test_prev_for_tree s (some (first :: rest)) = .ok false := by
  cases rest with
  | nil =>
    obtain ⟨x, hx⟩ := h first (List.mem_cons_self _ _)
    simp [test_prev_for_tree, test_prev_loop, bind, Except.bind, hx, ref_ptr_eq_node_ptr_some]
  | cons v rest =>
    obtain ⟨x, hx⟩ := h v (List.mem_cons_of_mem _ (List.mem_cons_self _ _))
    simp [test_prev_for_tree, test_prev_loop, bind, Except.bind, hx, ref_ptr_ne_node]

theorem self_refs_own_of_check {s : State} (h : self_refs_own_check s = true) :
    self_refs_own s := by
  intro m mx q hm hq
  have hlt := node_read_lt hm
  have hget := node_read_ok_iff.mp hm
  unfold self_refs_own_check at h
  rw [List.all_eq_true] at h
  have h1 := h m (List.mem_range.mpr hlt)
  simp only [hget, hq] at h1
  cases hy : s.refs[q]? with
  | none => simp [hy] at h1
  | some c =>
    cases c with
    | none => simp [hy] at h1
    | some y =>
      simp only [hy, Bool.and_eq_true, bne_iff_ne, ne_eq, beq_iff_eq] at h1
      exact ⟨y, ref_read_ok_iff.mpr hy, h1.1, h1.2⟩

theorem nodes_of_prev_slots_absent {s : State} {vals : List Nat}
    (h : prev_slots_absent s vals = true) :
    ∀ u ∈ vals, ∃ x, node_read s u = .ok x ∧ x.prev = none := by
  intro u hu
  unfold prev_slots_absent at h
  rw [List.all_eq_true] at h
  have h1 := h u hu
  cases hx : node_read s u with
  | error e => simp [hx] at h1
  | ok x =>
    simp only [hx, beq_iff_eq] at h1
    exact ⟨x, rfl, h1⟩

/-! ## C13: the previous links form one cycle, and the test rejects it -/

/-- C13: for every non-empty sorted node tree whose previous slots are absent,
with a zone reader whose previous lookup returns the cyclic canonical
predecessor (and every self reference a valid reference to its own node),
resolving the previous reference of each node with `node_ref_get` and
`REF_PREVIOUS` returns, and afterwards the previous links form one cycle in
iteration order: every node but the first designates the node immediately
before it, the first designates the last (a single node designates itself),
and `node_ref_get` returns these nodes as cache hits.  But
`test_prev_for_tree` of tests/adjust.c, which compares the slot (a pointer to
a reference object) with the pointer to the predecessor node, returns `false`
on that state. -/
theorem C13_test_prev_for_tree_rejects_the_cycle (zr : zone_read_t) (s : State) (first : Nat)
    (rest : List Nat)
    (hwf : self_refs_own s)
    (habs : prev_slots_absent s (first :: rest) = true)
    (hcyc : lookup_cyclic s zr (first :: rest) = true) :
    ∃ s1, adjust_prev true zr (first :: rest) s = .ok s1 ∧
      prev_links_cyclic s1 (first :: rest) = true ∧
      (∀ u ∈ first :: rest,
        node_ref_get true s1 (some u) .REF_PREVIOUS zr = .ok (prev_node s1 u, s1)) ∧
      (rest = [] → prev_node s1 first = some first) ∧
      test_prev_for_tree s1 (some (first :: rest)) = .ok false := by
  have hnodes := nodes_of_prev_slots_absent habs
  have hsome := lookup_cyclic_some hcyc
  have hall : ∀ u ∈ first :: rest, ∃ x t tx, node_read s u = .ok x ∧
      zr.zone_read_previous_for_type x.owner KNOT_RRTYPE_ANY = some t ∧
      node_read s t = .ok tx ∧ (x.prev = none ∨ prev_node s u = some t) := by
    intro u hu
    obtain ⟨x, hx, hp⟩ := hnodes u hu
    obtain ⟨t, htm, hl⟩ := hsome u hu
    obtain ⟨tx, htx, _⟩ := hnodes t htm
    rw [previous_lookup_eq hx] at hl
    exact ⟨x, t, tx, hx, hl, htx, Or.inl hp⟩
  obtain ⟨s1, hadj, _, _, hframe, hfin⟩ := adjust_prev_resolves zr _ s hwf hall
  have hlinks : prev_links_cyclic s1 (first :: rest) = true := by
    rw [prev_links_cyclic_of_lookup hfin]
    exact hcyc
  refine ⟨s1, hadj, hlinks, ?_, ?_, ?_⟩
  · intro u hu
    obtain ⟨t, _, hl⟩ := hsome u hu
    have hp : prev_node s1 u = some t := by
      rw [hfin u hu]
      exact hl
    obtain ⟨x1, q, y, hx1, hq1, hy, hyv, hyn⟩ := prev_node_some_iff.mp hp
    rw [hp, node_ref_get_eq true .REF_PREVIOUS zr hx1]
    have h := @return_node_hit none _ _ _ Slot.prev _ _ true (node_ref_get_func .REF_PREVIOUS)
      x1.owner zr false hx1 hq1 hy hyv
    rw [hyn] at h
    exact h
  · intro hr
    subst hr
    simpa [prev_links_cyclic] using hlinks
  · apply test_prev_for_tree_false
    intro u hu
    obtain ⟨x, hx, _⟩ := hnodes u hu
    obtain ⟨x1, hx1, _⟩ := hframe u x hx
    exact ⟨x1, hx1⟩

/-- C13, witness: the zone of tests/adjust.c, `test.` with `b.test.`,
`e.test.`, `g.test.`.  After the four resolutions the previous nodes are
`g.test.`, `test.`, `b.test.`, `e.test.`, and `test_prev_for_tree` returns
`false`. -/
theorem C13_test_prev_for_tree_rejects_the_cycle_witness :
    self_refs_own ex_state ∧ prev_slots_absent ex_state [0, 1, 2, 3] = true ∧
    lookup_cyclic ex_state ex_reader [0, 1, 2, 3] = true ∧
    adjust_prev true ex_reader [0, 1, 2, 3] ex_state = .ok ex_state_adjusted ∧
    prev_links_cyclic ex_state_adjusted [0, 1, 2, 3] = true ∧
    [0, 1, 2, 3].map (prev_node ex_state_adjusted) = [some 3, some 0, some 1, some 2] ∧
    test_prev_for_tree ex_state_adjusted (some [0, 1, 2, 3]) = .ok false := by
  obtain ⟨s1, h1, h2, _, _, h3⟩ := C13_test_prev_for_tree_rejects_the_cycle ex_reader ex_state
    0 [1, 2, 3] (self_refs_own_of_check (by decide)) (by decide) (by decide)
  have he : adjust_prev true ex_reader [0, 1, 2, 3] ex_state = .ok ex_state_adjusted := by
    decide
  have hs : ex_state_adjusted = s1 := Except.ok.inj (he.symm.trans h1)
  rw [← hs] at h2 h3
  exact ⟨self_refs_own_of_check (by decide), by decide, by decide, he, h2, by decide, h3⟩

/-! ## Interleaved activations of `return_node` -/

theorem return_node_run_eq (c : call_t) (s : State) :
    (return_node_run c 7 s activation_entry).map (fun r => (r.2.result, r.1)) =
      (return_node c.malloc_ok s c.n c.k c.get_func c.key c.zone_reader c.nsec3 c.chunk).map
        (fun r => (some r.1, r.2)) := by
  cases hn : node_read s c.n with
  | error e =>
    simp [return_node_run, return_node_step, return_node, activation_entry, hn, bind,
      Except.bind, Except.map]
  | ok x =>
    cases hv : node_ref_valid s (slot_get x c.k) with
    | error e =>
      simp [return_node_run, return_node_step, return_node, activation_entry, hn, hv, bind,
        Except.bind, Except.map]
    | ok b =>
      cases b with
      | true =>
        cases hs : slot_get x c.k with
        | none =>
          rw [hs] at hv
          cases hv
        | some p =>
          have hv1 := hv
          rw [hs] at hv1
          cases hp : ref_read s p with
          | error e =>
            simp [node_ref_valid, hp, bind, Except.bind] at hv1
          | ok y =>
            simp [return_node_run, return_node_step, return_node, activation_entry, hn, hv1,
              hs, hp, bind, Except.bind, Except.map]
      | false =>
        cases hg : c.get_func s c.zone_reader c.key c.nsec3 with
        | error e =>
          simp [return_node_run, return_node_step, return_node, activation_entry, hn, hv, hg,
            bind, Except.bind, Except.map]
        | ok tc =>
          obtain ⟨target, calls⟩ := tc
          cases hf : fetch_node_ref c.malloc_ok
              (log_calls s (Call.get_func c.key c.nsec3 :: calls)) target c.chunk with
          | error e =>
            simp [return_node_run, return_node_step, return_node, activation_entry, hn, hv,
              hg, hf, bind, Except.bind, Except.map]
          | ok fs =>
            obtain ⟨found, s2⟩ := fs
            cases hi : ref_inc s2 found with
            | error e =>
              simp [return_node_run, return_node_step, return_node, activation_entry, hn, hv,
                hg, hf, hi, bind, Except.bind, Except.map]
            | ok s3 =>
              cases hn3 : node_read s3 c.n with
              | error e =>
                simp [return_node_run, return_node_step, return_node, activation_entry, hn,
                  hv, hg, hf, hi, hn3, bind, Except.bind, Except.map]
              | ok x3 =>
                have hsw := switch_ref_of_read hn3 found c.k
                cases hd : ref_dec (node_write s3 c.n (slot_set x3 c.k found))
                    (slot_get x3 c.k) with
                | error e =>
                  simp [return_node_run, return_node_step, return_node, activation_entry, hn,
                    hv, hg, hf, hi, hn3, hsw, hd, bind, Except.bind, Except.map]
                | ok s5 =>
                  cases hn5 : node_read s5 c.n with
                  | error e =>
                    simp [return_node_run, return_node_step, return_node, activation_entry,
                      hn, hv, hg, hf, hi, hn3, hsw, hd, hn5, bind, Except.bind, Except.map]
                  | ok x5 =>
                    cases hs5 : slot_get x5 c.k with
                    | none =>
                      simp [return_node_run, return_node_step, return_node, activation_entry,
                        hn, hv, hg, hf, hi, hn3, hsw, hd, hn5, hs5, bind, Except.bind,
                        Except.map]
                    | some p =>
                      cases hp : ref_read s5 p with
                      | error e =>
                        simp [return_node_run, return_node_step, return_node,
                          activation_entry, hn, hv, hg, hf, hi, hn3, hsw, hd, hn5, hs5, hp,
                          bind, Except.bind, Except.map]
                      | ok y =>
                        simp [return_node_run, return_node_step, return_node,
                          activation_entry, hn, hv, hg, hf, hi, hn3, hsw, hd, hn5, hs5, hp,
                          bind, Except.bind, Except.map]

/-- C14 (an interleaving that breaks the claim).  An activation of
`return_node` that executes its statements on its own computes what
`return_node` computes, for every call and every state.  In the example zone,
after `node_ref_invalidate` on the self reference of `e.test.` (address 0,
held by `g.test.` as its previous reference), two threads execute
`node_ref_get(g.test., REF_PREVIOUS, reader)`; the first executes the test of
the slot, `fetch_node_ref`, `ref_inc` and `old_ref = *r`, then the second does
the same, and then each executes `switch_ref`, `ref_dec` and the return.  Both
calls return `f.test.`, but both have decremented the old reference: it is
freed while `e.test.` still holds it, the reference of `f.test.` has count 3
and two holders, and the state is not the one that either order of the two
calls, one after the other, produces.  The next resolution whose target is
`e.test.` reads the freed reference object; and once `malloc` has handed out
that chunk again (for the apex), the resolution of the previous node of
`f.test.` returns the apex, read through the pointer that `e.test.` still
holds, where the resolution function yields `e.test.`. -/
theorem C14_interleaved_resolutions_free_a_held_reference :
    (∀ (c : call_t) (s : State),
      (return_node_run c 7 s activation_entry).map (fun r => (r.2.result, r.1)) =
        (return_node c.malloc_ok s c.n c.k c.get_func c.key c.zone_reader c.nsec3
          c.chunk).map (fun r => (some r.1, r.2))) ∧
    node_ref_invalidate ex_state_stale0 (some 0) = .ok ex_state_stale ∧
    node_ref_get true ex_state_stale (some 3) .REF_PREVIOUS ex_reader_f =
      return_node ex_call_g.malloc_ok ex_state_stale ex_call_g.n ex_call_g.k
        ex_call_g.get_func ex_call_g.key ex_call_g.zone_reader ex_call_g.nsec3
        ex_call_g.chunk ∧
    run_schedule [ex_call_g, ex_call_g] [0, 0, 0, 0, 1, 1, 1, 1, 0, 0, 0, 1, 1, 1]
        ex_state_stale [activation_entry, activation_entry]
      = .ok (ex_state_raced,
          [⟨8, some 1, some 0, some (some 4)⟩, ⟨8, some 1, some 0, some (some 4)⟩]) ∧
    run_schedule [ex_call_g, ex_call_g] [0, 0, 0, 0, 0, 0, 0, 1, 1]
        ex_state_stale [activation_entry, activation_entry]
      = .ok (ex_state_stale_resolved,
          [⟨8, some 1, some 0, some (some 4)⟩, ⟨8, none, none, some (some 4)⟩]) ∧
    run_schedule [ex_call_g, ex_call_g] [1, 1, 1, 1, 1, 1, 1, 0, 0]
        ex_state_stale [activation_entry, activation_entry]
      = .ok (ex_state_stale_resolved,
          [⟨8, none, none, some (some 4)⟩, ⟨8, some 1, some 0, some (some 4)⟩]) ∧
    ref_read ex_state_stale_resolved 0 = .ok ⟨some 2, 1, 0⟩ ∧
    ex_state_raced.refs[0]? = some none ∧
    (node_read ex_state_raced 2).map (fun x => x.self_ref) = .ok (some 0) ∧
    holders ex_state_raced 0 = 1 ∧
    ref_read ex_state_raced 1 = .ok ⟨some 4, 3, REF_VALID⟩ ∧
    holders ex_state_raced 1 = 2 ∧
    node_ref_valid ex_state_raced (some 0) = .error .invalid_pointer ∧
    get_prev ex_state_raced ex_reader_f [[102], ex_test] false
      = .ok (some 2, [Call.previous_for_type [[102], ex_test] KNOT_RRTYPE_ANY]) ∧
    node_ref_get true ex_state_raced (some 4) .REF_PREVIOUS ex_reader_f
      = .error .invalid_pointer ∧
    ((node_ref_get true ex_state_raced (some 1) .REF_PREVIOUS ex_reader_f (some 0)).bind
        (fun r => node_ref_get true r.2 (some 4) .REF_PREVIOUS ex_reader_f)).map
        (fun r => (r.1, r.2.refs[0]?))
      = .ok (some 0, some (some ⟨some 0, 3, REF_VALID⟩)) :=
  ⟨return_node_run_eq, by decide, by decide, by decide, by decide, by decide, by decide,
    by decide, by decide, by decide, by decide, by decide, by decide, by decide, by decide,
    by decide⟩

end Knot
